import Mathlib

/-!
# YARP `Network.cpp`: connection arbitration, enactment and library lifecycle

A shallow embedding of `src/libYARP_OS/src/Network.cpp`.

* A `std::string` is the list of its characters (`Str`).  C-string idioms of the
  source (`c_str()`, `params += char*`, `*c = '\0'`) stop at the first NUL
  character; `cstr` embeds that.
* Classes that live outside `Network.cpp` (`Contact`, `ContactStyle`, `Bottle`,
  `Carrier`, the name space) appear as plain records and as the fields of an
  environment `Env`; every answer of the environment may depend on the history of
  the calls made so far, so peers and name servers may be stateful.
* Functions with side effects return the list of the calls they made (`Event`).
* Inside the engine `NetworkBase::write` is the field `Env.write` (`none` when it returns
  false); its own body is embedded over the outcomes of its collaborators (`Wire`).
* Diagnostic output (`fprintf`, `printf`, the logger) is not embedded.
-/

namespace Yarp

/-! ## Strings -/

/-- A `std::string`: the sequence of its characters. -/
abbrev Str := List Char

/-- The NUL character that ends a C string. -/
def NUL : Char := Char.ofNat 0

/-- What a `const char*` reader sees of a buffer: the characters before the first NUL
(`std::string::c_str()` handed to a `const char*` consumer, `s += ptr`). -/
def cstr (s : Str) : Str := s.takeWhile (fun ch => ch != NUL)

def strTopic : Str := "topic".toList
def strTcp : Str := "tcp".toList
def strXmlrpc : Str := "xmlrpc".toList
def strRossrv : Str := "rossrv".toList
def strDots : Str := "...".toList

/-! ## `NetworkBase::isValidPortName` (lines 1048-1076) -/

def isValidPortName (portName : Str) : Bool :=
  if portName.isEmpty then false
  else if portName = strDots then true
  else if portName[0]? != some '/' then false
  else if portName[portName.length - 1]? == some '/' then false
  else if portName.contains ' ' then false
  else true

/-! ## Carrier names with parameters (lines 276-314) -/

/-- `findCarrierParamsPointer`: the position of the first `'+'`, `none` for `nullptr`. -/
def findCarrierParamsPointer (carrier_name : Str) : Option Nat :=
  let i := carrier_name.indexOf '+'
  if i < carrier_name.length then some i else none

/-- A contact (`yarp::os::Contact`): registration name, carrier, host and port. -/
structure Contact where
  name : Str
  carrier : Str
  host : Str
  port : Int
deriving DecidableEq, Repr

def Contact.setCarrier (c : Contact) (carrier : Str) : Contact := { c with carrier := carrier }

/-- Modelled from the spec: `Contact::isValid` is defined in `Contact.cpp`, which is not part
of the source under study; section 4.1 of the spec gives it as `port > 0`. -/
def Contact.isValid (c : Contact) : Bool := decide (0 < c.port)

/-- `collectParams`: the C string that starts at the first `'+'` of the contact's carrier. -/
def collectParams (c : Contact) : Str :=
  let carrier_name := c.carrier
  match findCarrierParamsPointer carrier_name with
  | some i => cstr (carrier_name.drop i)
  | none => []

/-- `extractCarrierNameOnly`: the first `'+'` is overwritten with NUL and the string is
re-read as a C string; a string without `'+'` is returned as it is. -/
def extractCarrierNameOnly (carrier_name_with_params : Str) : Str :=
  let carrier_name := carrier_name_with_params
  match findCarrierParamsPointer carrier_name with
  | some i => cstr (carrier_name.set i NUL)
  | none => carrier_name

/-! ## Records of the classes used by the arbitration engine -/

/-- The operation mode of `metaConnect` and `enactConnection`. -/
inductive Mode where
  | YARP_ENACT_CONNECT
  | YARP_ENACT_DISCONNECT
  | YARP_ENACT_EXISTS
deriving DecidableEq, Repr

open Mode

/-- The fields of `yarp::os::ContactStyle`.  `timeout` is a `double` in the source; the
embedded code only copies it. -/
structure ContactStyle where
  admin : Bool
  quiet : Bool
  verboseOnSuccess : Bool
  timeout : Int
  carrier : Str
  expectReply : Bool
  persistent : Bool
deriving DecidableEq, Repr

/-- What the engine asks of a carrier instance returned by `Carriers::chooseCarrier`. -/
structure Carrier where
  name : Str
  getBootstrapCarrierName : Str
  isPush : Bool
deriving DecidableEq, Repr

/-- An element of a command bottle built by the engine. -/
inductive Item where
  | vocab (s : Str)
  | string (s : Str)
  | int32 (i : Int)
deriving DecidableEq, Repr

/-- A command bottle: the list of the elements added to it. -/
abbrev Bottle := List Item

/-- A reply bottle, given by the answers of the accessors the engine calls on it:
`check(key)` with `find(key).asString()` or `find(key).asBool()` for the keys `carrier`,
`push` and `connectionless` (`none` when `check` is false), and `get(0).isInt32()`,
`get(0).asInt32()`, `get(0).asString()`. -/
structure Reply where
  carrier : Option Str
  push : Option Bool
  connectionless : Option Bool
  get0IsInt32 : Bool
  get0AsInt32 : Int
  get0AsString : Str
deriving DecidableEq, Repr

/-- The calls a run makes: entries of `enactConnection`, `noteDud` and
`NetworkBase::queryName`, and calls of the collaborators. -/
inductive Event where
  | queryName (name : Str)
  | chooseCarrier (name : Str)
  | enactConnection (src dest : Contact) (style : ContactStyle) (mode : Mode) (reversed : Bool)
  | write (contact : Contact) (cmd : Bottle) (style : ContactStyle)
  | noteDud (src : Contact)
  | announce (name : Str) (activate : Int)
  | writeToNameServer (cmd : Bottle) (style : ContactStyle)
  | connectPortToPortPersistently (src dest : Contact) (style : ContactStyle)
  | disconnectPortToPortPersistently (src dest : Contact) (style : ContactStyle)
  | connectTopicToPort (src dest : Contact) (style : ContactStyle)
  | disconnectTopicFromPort (src dest : Contact) (style : ContactStyle)
  | connectPortToTopic (src dest : Contact) (style : ContactStyle)
  | disconnectPortFromTopic (src dest : Contact) (style : ContactStyle)
  | carrierConnect (carrier : Carrier) (src dest : Contact) (style : ContactStyle) (mode : Mode)
      (reversed : Bool)
deriving DecidableEq, Repr

/-- A lookup: a name query or a consultation of the carrier registry. -/
def Event.isLookup : Event → Bool
  | .queryName _ => true
  | .chooseCarrier _ => true
  | _ => false

/-- An admin RPC: a call of `NetworkBase::write`. -/
def Event.isWrite : Event → Bool
  | .write _ _ _ => true
  | _ => false

/-- An entry of `enactConnection`. -/
def Event.isEnact : Event → Bool
  | .enactConnection _ _ _ _ _ => true
  | _ => false

/-- A call of the persistent port-to-port API of the name space. -/
def Event.isPersistentOp : Event → Bool
  | .connectPortToPortPersistently _ _ _ => true
  | .disconnectPortToPortPersistently _ _ _ => true
  | _ => false

/-- A call of a connection operation of the name space (persistent or topic). -/
def Event.isNameSpaceConnectionOp : Event → Bool
  | .connectPortToPortPersistently _ _ _ => true
  | .disconnectPortToPortPersistently _ _ _ => true
  | .connectTopicToPort _ _ _ => true
  | .disconnectTopicFromPort _ _ _ => true
  | .connectPortToTopic _ _ _ => true
  | .disconnectPortFromTopic _ _ _ => true
  | _ => false

/-- A call of a carrier's own `connect` hook. -/
def Event.isCarrierConnect : Event → Bool
  | .carrierConnect _ _ _ _ _ _ => true
  | _ => false

/-- A call of `noteDud`. -/
def Event.isNoteDud : Event → Bool
  | .noteDud _ => true
  | _ => false

/-- The collaborators of `Network.cpp`.  The first argument of every answer that can
change over time is the history: the calls made before this one. -/
structure Env where
  /-- `Contact::fromString`. -/
  fromString : Str → Contact
  /-- `Contact::toString`. -/
  toString : Contact → Str
  /-- A default-constructed `ContactStyle`. -/
  defaultStyle : ContactStyle
  /-- `NameConfig::getNamespace`, as used by `NetworkBase::getNameServerName`. -/
  getNameServerName : List Event → Str
  /-- `getNameSpace().getNameServerContact()`. -/
  getNameServerContact : List Event → Contact
  /-- `getNameSpace().queryName(name)`. -/
  nsQueryName : List Event → Str → Contact
  /-- `getNameSpace().connectionHasNameOfEndpoints()`. -/
  connectionHasNameOfEndpoints : List Event → Bool
  connectPortToPortPersistently : List Event → Contact → Contact → ContactStyle → Bool
  disconnectPortToPortPersistently : List Event → Contact → Contact → ContactStyle → Bool
  connectTopicToPort : List Event → Contact → Contact → ContactStyle → Bool
  disconnectTopicFromPort : List Event → Contact → Contact → ContactStyle → Bool
  connectPortToTopic : List Event → Contact → Contact → ContactStyle → Bool
  disconnectPortFromTopic : List Event → Contact → Contact → ContactStyle → Bool
  /-- Whether `getNameSpace().getQueryBypass()` is not null. -/
  getQueryBypass : List Event → Bool
  /-- `store->announce(name, activate)` on the bypass store. -/
  announce : List Event → Str → Int → Int
  /-- `NetworkBase::writeToNameServer`. -/
  writeToNameServer : List Event → Bottle → ContactStyle → Bool
  /-- `Carriers::chooseCarrier(name)`; `none` for `nullptr`. -/
  chooseCarrier : List Event → Str → Option Carrier
  /-- The `connect` hook of a carrier instance. -/
  carrierConnect :
    List Event → Carrier → Contact → Contact → ContactStyle → Mode → Bool → Int
  /-- `NetworkBase::write(contact, cmd, reply, style)`: `none` when it returns false, else
  the reply it filled in. -/
  write : List Event → Contact → Bottle → ContactStyle → Option Reply

/-! ## Helpers of the engine (lines 107-133, 860-871) -/

def needsLookup (contact : Contact) : Bool :=
  if contact.host ≠ [] then false
  else if contact.carrier = strTopic then false
  else true

/-- `NetworkBase::queryName`. -/
def queryName (env : Env) (h : List Event) (name : Str) : Contact :=
  if env.getNameServerName h = name then env.getNameServerContact h
  else
    let c := env.fromString name
    if c.isValid ∧ 0 < c.port then c
    else env.nsQueryName h name

/-- `noteDud`: the result and the calls made. -/
def noteDud (env : Env) (h : List Event) (src : Contact) : Int × List Event :=
  if env.getQueryBypass (h ++ [.noteDud src]) then
    (env.announce (h ++ [.noteDud src]) (cstr src.name) 0,
      [.noteDud src, .announce (cstr src.name) 0])
  else
    let cmd : Bottle := [.string "announce".toList, .string (cstr src.name), .int32 0]
    let style := env.defaultStyle
    let ok := env.writeToNameServer (h ++ [.noteDud src]) cmd style
    (if ok then 0 else 1, [.noteDud src, .writeToNameServer cmd style])

/-! ## `enactConnection` (lines 143-272) -/

/-- The style of the admin RPCs (lines 149-152). -/
def rpcStyle (env : Env) (style : ContactStyle) : ContactStyle :=
  { env.defaultStyle with admin := true, quiet := style.quiet, timeout := style.timeout }

/-- The `list` probe (lines 178-181). -/
def listCommand (dest : Contact) (reversed : Bool) : Bottle :=
  [.vocab "list".toList, .vocab (if reversed then "in".toList else "out".toList),
    .string (cstr dest.name)]

/-- The test of line 211, on the fields read at lines 203-210. -/
def needsCompensation (reply : Reply) (reversed : Bool) : Bool :=
  let currentIsConnectionLess := match reply.connectionless with
    | some b => b
    | none => false
  let currentIsPush := match reply.push with
    | some b => b
    | none => true
  currentIsConnectionLess && ((reversed && currentIsPush) || (!reversed && !currentIsPush))

/-- The push flag read from the reply to the `list` probe (lines 203-207). -/
def currentIsPush (reply : Reply) : Bool :=
  match reply.push with
  | some b => b
  | none => true

/-- The `add` or `del` command (lines 219-235). -/
def actCommand (env : Env) (dest : Contact) (style : ContactStyle) (mode : Mode) : Bottle :=
  let act : Str := if mode = YARP_ENACT_DISCONNECT then "del".toList else "add".toList
  let c := if style.carrier ≠ [] then dest.setCarrier style.carrier else dest
  if mode ≠ YARP_ENACT_DISCONNECT then [.vocab act, .string (env.toString c)]
  else [.vocab act, .string c.name]

/-- Whether the reply to `add` or `del` is positive (lines 250-257). -/
def replyOk (reply : Reply) : Bool :=
  if reply.get0IsInt32 then reply.get0AsInt32 == 0
  else
    let msg := reply.get0AsString
    msg.headD NUL == 'A' || msg.headD NUL == 'R'

/-- The name query in front of the `add` or `del` command (lines 237-240). -/
def actQuery (src : Contact) : List Event :=
  if src.port ≤ 0 then [.queryName src.name] else []

/-- The contact the `add` or `del` command is sent to (lines 237-240). -/
def actTarget (env : Env) (h : List Event) (src : Contact) : Contact :=
  if src.port ≤ 0 then queryName env h src.name else src

/-- Lines 219-271 of `enactConnection`: the `add` or `del` dialogue. -/
def enactAct (env : Env) (h : List Event) (src dest : Contact) (style : ContactStyle)
    (mode : Mode) : Int × List Event :=
  let rpc := rpcStyle env style
  let cmd := actCommand env dest style mode
  let tq : List Event := if src.port ≤ 0 then [.queryName src.name] else []
  let c2 := if src.port ≤ 0 then queryName env h src.name else src
  match env.write (h ++ tq) c2 cmd rpc with
  | none => (1, tq ++ [.write c2 cmd rpc] ++ (noteDud env (h ++ tq ++ [.write c2 cmd rpc]) src).2)
  | some reply =>
    let ok := replyOk reply
    let td : List Event :=
      if mode = YARP_ENACT_CONNECT ∧ ok = false then
        (noteDud env (h ++ tq ++ [.write c2 cmd rpc]) dest).2
      else []
    (if ok then 0 else 1, tq ++ [.write c2 cmd rpc] ++ td)

/-- `enactConnection`.  The first argument bounds the depth of the recursion through the
compensating disconnect of line 212; `none` means that the bound was reached. -/
def enactConnection (env : Env) :
    Nat → List Event → Contact → Contact → ContactStyle → Mode → Bool →
      Option (Int × List Event)
  | 0, _, _, _, _, _, _ => none
  | fuel + 1, h, src, dest, style, mode, reversed =>
    let e0 := Event.enactConnection src dest style mode reversed
    if style.persistent then
      match mode with
      | YARP_ENACT_CONNECT =>
        let ok := env.connectPortToPortPersistently (h ++ [e0]) src dest style
        some (if ok then 0 else 1, [e0, .connectPortToPortPersistently src dest style])
      | YARP_ENACT_DISCONNECT =>
        let ok := env.disconnectPortToPortPersistently (h ++ [e0]) src dest style
        some (if ok then 0 else 1, [e0, .disconnectPortToPortPersistently src dest style])
      | YARP_ENACT_EXISTS => some (1, [e0])
    else
      let rpc := rpcStyle env style
      let cmd := listCommand dest reversed
      let e1 := Event.write src cmd rpc
      match env.write (h ++ [e0]) src cmd rpc with
      | none => some (1, [e0, e1] ++ (noteDud env (h ++ [e0, e1]) src).2)
      | some reply =>
        match reply.carrier with
        | some carrier =>
          if mode = YARP_ENACT_EXISTS then
            some (if carrier = style.carrier then 0 else 1, [e0, e1])
          else if needsCompensation reply reversed then
            match enactConnection env fuel (h ++ [e0, e1]) dest src style
                YARP_ENACT_DISCONNECT (!reversed) with
            | none => none
            | some (_, tc) =>
              let (r, ta) := enactAct env (h ++ [e0, e1] ++ tc) src dest style mode
              some (r, [e0, e1] ++ tc ++ ta)
          else
            let (r, ta) := enactAct env (h ++ [e0, e1]) src dest style mode
            some (r, [e0, e1] ++ ta)
        | none =>
          if mode = YARP_ENACT_EXISTS then some (1, [e0, e1])
          else
            let (r, ta) := enactAct env (h ++ [e0, e1]) src dest style mode
            some (r, [e0, e1] ++ ta)

/-! ## `metaConnect` (lines 333-661) -/

/-- Lines 369-373: whether the operation is topical. -/
def isTopical (dynamicSrc dynamicDest : Contact) (style : ContactStyle) : Bool :=
  style.persistent || decide (dynamicSrc.carrier = strTopic ∨ dynamicDest.carrier = strTopic)

/-- Lines 380-395 for the source and 403-418 for the destination: the completed contact of
one side, `none` when the function returns 1 there, and the calls made. -/
def lookupSide (env : Env) (h : List Event) (dynamic : Contact) (style : ContactStyle)
    (topical topicalNeedsLookup : Bool) : Option Contact × List Event :=
  if needsLookup dynamic ∧ (topicalNeedsLookup ∨ topical = false) then
    let static := queryName env h dynamic.name
    if static.isValid = false then
      if style.persistent = false then (none, [.queryName dynamic.name])
      else (some dynamic, [.queryName dynamic.name])
    else (some static, [.queryName dynamic.name])
  else (some dynamic, [])

/-- Lines 375-433: the static contacts.  The default of lines 399-401 is applied to the
default-constructed `staticDest`, before lines 403-418 assign it, so it leaves no trace in
the value used afterwards. -/
def staticContacts (env : Env) (h : List Event) (dynamicSrc dynamicDest : Contact)
    (style : ContactStyle) (mode : Mode) (topical : Bool) :
    Option (Contact × Contact) × List Event :=
  let topicalNeedsLookup := !env.connectionHasNameOfEndpoints h
  match lookupSide env h dynamicSrc style topical topicalNeedsLookup with
  | (none, t1) => (none, t1)
  | (some s0, t1) =>
    let staticSrc := if s0.carrier = [] then s0.setCarrier strTcp else s0
    match lookupSide env (h ++ t1) dynamicDest style topical topicalNeedsLookup with
    | (none, t2) => (none, t1 ++ t2)
    | (some staticDest, t2) =>
      if staticSrc.carrier = strXmlrpc ∧
          (staticDest.carrier = strXmlrpc ∨ strRossrv.isPrefixOf staticDest.carrier) ∧
          mode = YARP_ENACT_CONNECT then
        (some (staticSrc.setCarrier strTcp, staticDest.setCarrier strTcp), t1 ++ t2)
      else (some (staticSrc, staticDest), t1 ++ t2)

/-- The outcome of the capability probe of one side. -/
structure Probe where
  isCompetent : Bool
  isTopic : Bool
  carrierConstraint : Str
deriving DecidableEq, Repr

/-- Lines 437-466 for the source and 468-496 for the destination: the probe of one side,
given the carrier constraint recorded so far. -/
def probeSide (env : Env) (h : List Event) (static : Contact) (topical : Bool)
    (carrierConstraint : Str) : Probe × List Event :=
  if static.carrier ≠ strTopic then
    if topical = false then
      if static.carrier ≠ [] then
        match env.chooseCarrier h (cstr static.carrier) with
        | some car =>
          if car.getBootstrapCarrierName ≠ [] then
            (⟨true, false, carrierConstraint⟩, [.chooseCarrier (cstr static.carrier)])
          else
            (⟨false, false, static.carrier⟩, [.chooseCarrier (cstr static.carrier)])
        | none => (⟨false, false, carrierConstraint⟩, [.chooseCarrier (cstr static.carrier)])
      else (⟨false, false, carrierConstraint⟩, [])
    else (⟨false, false, carrierConstraint⟩, [])
  else (⟨false, true, carrierConstraint⟩, [])

/-- Lines 498-531: the topic dispatch. -/
def topicDispatch (env : Env) (h : List Event) (staticSrc staticDest : Contact)
    (style : ContactStyle) (mode : Mode) (srcIsTopic : Bool) : Int × List Event :=
  if srcIsTopic then
    match mode with
    | YARP_ENACT_CONNECT =>
      (if env.connectTopicToPort h staticSrc staticDest style then 0 else 1,
        [.connectTopicToPort staticSrc staticDest style])
    | YARP_ENACT_DISCONNECT =>
      (if env.disconnectTopicFromPort h staticSrc staticDest style then 0 else 1,
        [.disconnectTopicFromPort staticSrc staticDest style])
    | YARP_ENACT_EXISTS => (1, [])
  else
    match mode with
    | YARP_ENACT_CONNECT =>
      (if env.connectPortToTopic h staticSrc staticDest style then 0 else 1,
        [.connectPortToTopic staticSrc staticDest style])
    | YARP_ENACT_DISCONNECT =>
      (if env.disconnectPortFromTopic h staticSrc staticDest style then 0 else 1,
        [.disconnectPortFromTopic staticSrc staticDest style])
    | YARP_ENACT_EXISTS => (1, [])

/-- Lines 544-552: the carrier named on an endpoint string replaces the style's carrier. -/
def userCarrier (dynamicSrc dynamicDest : Contact) (style : ContactStyle) : ContactStyle :=
  let style := if dynamicSrc.carrier ≠ [] then { style with carrier := dynamicSrc.carrier }
    else style
  let style := if dynamicDest.carrier ≠ [] then { style with carrier := dynamicDest.carrier }
    else style
  style

/-- Lines 558-573: the conflict between the selected carrier and the constraint. -/
def carrierConflict (style : ContactStyle) (carrierConstraint : Str) : Bool :=
  if style.carrier ≠ [] ∧ carrierConstraint ≠ [] then
    let style_carrier_name := extractCarrierNameOnly style.carrier
    let carrier_constraint_name := extractCarrierNameOnly carrierConstraint
    decide (style_carrier_name ≠ carrier_constraint_name)
  else false

/-- Lines 576-587: with a carrier constraint, the constraint is taken, followed by the
parameters of the endpoint strings that name the same carrier. -/
def constraintCarrier (dynamicSrc dynamicDest : Contact) (carrierConstraint : Str)
    (style : ContactStyle) : ContactStyle :=
  if carrierConstraint ≠ [] then
    let style := { style with carrier := carrierConstraint }
    let style :=
      if extractCarrierNameOnly dynamicSrc.carrier = extractCarrierNameOnly style.carrier then
        { style with carrier := style.carrier ++ collectParams dynamicSrc }
      else style
    let style :=
      if extractCarrierNameOnly dynamicDest.carrier = extractCarrierNameOnly style.carrier then
        { style with carrier := style.carrier ++ collectParams dynamicDest }
      else style
    style
  else style

/-- Lines 588-595: without a carrier so far, the static destination's carrier is taken. -/
def destinationCarrier (dynamicSrc staticSrc staticDest : Contact) (style : ContactStyle) :
    ContactStyle :=
  if style.carrier = [] then
    let style := { style with carrier := staticDest.carrier }
    if extractCarrierNameOnly dynamicSrc.carrier = extractCarrierNameOnly style.carrier then
      { style with carrier := style.carrier ++ collectParams staticSrc }
    else style
  else style

/-- Lines 597-600: still without a carrier, the static source's carrier is taken. -/
def sourceCarrier (staticSrc : Contact) (style : ContactStyle) : ContactStyle :=
  if style.carrier = [] then { style with carrier := staticSrc.carrier } else style

/-- Lines 576-600: the carrier of the connection. -/
def chooseStyleCarrier (dynamicSrc dynamicDest staticSrc staticDest : Contact)
    (carrierConstraint : Str) (style : ContactStyle) : ContactStyle :=
  sourceCarrier staticSrc
    (destinationCarrier dynamicSrc staticSrc staticDest
      (constraintCarrier dynamicSrc dynamicDest carrierConstraint style))

/-- Lines 606-661: the direction decision, for the chosen carrier in `style.carrier`. -/
def directConnection (env : Env) (fuel : Nat) (h : List Event) (src dest : Str)
    (staticSrc staticDest : Contact) (style : ContactStyle) (mode : Mode)
    (srcIsCompetent destIsCompetent topical : Bool) : Option (Int × List Event) :=
  let tc : List Event :=
    if style.carrier ≠ strTopic then [.chooseCarrier (cstr style.carrier)] else []
  let connectionCarrier : Option Carrier :=
    if style.carrier ≠ strTopic then env.chooseCarrier h (cstr style.carrier) else none
  let connectionIsPush := match connectionCarrier with
    | some car => car.isPush
    | none => false
  let connectionIsPull := match connectionCarrier with
    | some car => !car.isPush
    | none => false
  if (srcIsCompetent && connectionIsPush) || topical then
    match enactConnection env fuel (h ++ tc) staticSrc (env.fromString dest) style mode false with
    | none => none
    | some (r, t) => some (r, tc ++ t)
  else if destIsCompetent && connectionIsPull then
    match enactConnection env fuel (h ++ tc) staticDest (env.fromString src) style mode true with
    | none => none
    | some (r, t) => some (r, tc ++ t)
  else
    match connectionCarrier with
    | some car =>
      let c := if connectionIsPull = false then env.fromString dest else env.fromString src
      let initiator := if connectionIsPull = false then staticSrc else staticDest
      let result := env.carrierConnect (h ++ tc) car initiator c style mode connectionIsPull
      some (if result ≠ -1 then result else 1,
        tc ++ [.carrierConnect car initiator c style mode connectionIsPull])
    | none => some (1, tc)

/-- The values `metaConnect` holds after the capability probe (line 496). -/
structure Probed where
  dynamicSrc : Contact
  dynamicDest : Contact
  staticSrc : Contact
  staticDest : Contact
  topical : Bool
  srcIsCompetent : Bool
  srcIsTopic : Bool
  destIsCompetent : Bool
  destIsTopic : Bool
  carrierConstraint : Str
deriving DecidableEq, Repr

/-- Lines 343-496 of `metaConnect`: sanity, topicality, resolution and capability probe.
`none` when `metaConnect` returns 1 in these lines. -/
def probeEndpoints (env : Env) (h : List Event) (src dest : Str) (style : ContactStyle)
    (mode : Mode) : Option Probed × List Event :=
  if dest.contains ' ' ∨ src.contains ' ' then (none, [])
  else
    let dynamicSrc := env.fromString src
    let dynamicDest := env.fromString dest
    if isValidPortName dynamicSrc.name = false then (none, [])
    else if isValidPortName dynamicDest.name = false then (none, [])
    else
      let topical := isTopical dynamicSrc dynamicDest style
      match staticContacts env h dynamicSrc dynamicDest style mode topical with
      | (none, t1) => (none, t1)
      | (some (staticSrc, staticDest), t1) =>
        let ps := probeSide env (h ++ t1) staticSrc topical []
        let pd := probeSide env (h ++ t1 ++ ps.2) staticDest topical ps.1.carrierConstraint
        (some ⟨dynamicSrc, dynamicDest, staticSrc, staticDest, topical, ps.1.isCompetent,
          ps.1.isTopic, pd.1.isCompetent, pd.1.isTopic, pd.1.carrierConstraint⟩,
          t1 ++ ps.2 ++ pd.2)

/-- The carrier selected at lines 544-552, as it enters the conflict check. -/
def selectedStyle (p : Probed) (style : ContactStyle) : ContactStyle :=
  userCarrier p.dynamicSrc p.dynamicDest style

/-- The style after lines 544-600, as it enters the direction decision. -/
def chosenStyle (p : Probed) (style : ContactStyle) : ContactStyle :=
  chooseStyleCarrier p.dynamicSrc p.dynamicDest p.staticSrc p.staticDest p.carrierConstraint
    (selectedStyle p style)

/-- `metaConnect`: the result and the calls made, started after the history `h`. -/
def metaConnect (env : Env) (fuel : Nat) (h : List Event) (src dest : Str)
    (style : ContactStyle) (mode : Mode) : Option (Int × List Event) :=
  match probeEndpoints env h src dest style mode with
  | (none, t) => some (1, t)
  | (some p, t) =>
    if p.srcIsTopic ∨ p.destIsTopic then
      let r := topicDispatch env (h ++ t) p.staticSrc p.staticDest style mode p.srcIsTopic
      some (r.1, t ++ r.2)
    else if carrierConflict (selectedStyle p style) p.carrierConstraint then some (1, t)
    else
      match directConnection env fuel (h ++ t) src dest p.staticSrc p.staticDest
          (chosenStyle p style) mode p.srcIsCompetent p.destIsCompetent p.topical with
      | none => none
      | some (r, t4) => some (r, t ++ t4)

/-- `NetworkBase::connect(src, dest, style)`. -/
def connect (env : Env) (fuel : Nat) (h : List Event) (src dest : Str)
    (style : ContactStyle) : Option (Bool × List Event) :=
  match metaConnect env fuel h src dest style YARP_ENACT_CONNECT with
  | none => none
  | some (result, t) => some (decide (result = 0), t)

/-- `NetworkBase::disconnect(src, dest, style)`. -/
def disconnect (env : Env) (fuel : Nat) (h : List Event) (src dest : Str)
    (style : ContactStyle) : Option (Bool × List Event) :=
  match metaConnect env fuel h src dest style YARP_ENACT_DISCONNECT with
  | none => none
  | some (result, t) => some (decide (result = 0), t)

/-- `NetworkBase::isConnected(src, dest, style)` (lines 1194-1204). -/
def isConnected (env : Env) (fuel : Nat) (h : List Event) (src dest : Str)
    (style : ContactStyle) : Option (Bool × List Event) :=
  match metaConnect env fuel h src dest style YARP_ENACT_EXISTS with
  | none => none
  | some (result, t) => some (decide (result = 0), t)

/-! ## Library lifecycle (lines 57-105, 742-818, 1240-1242) -/

/-- The file-scope variables of `Network.cpp`.  The counter is a C++ `int`; it is counted
here in `Int`, its overflow being undefined behaviour in the source. -/
structure LibState where
  /-- `__yarp_is_initialized`. -/
  yarp_is_initialized : Int
  /-- `__yarp_auto_init_active`. -/
  yarp_auto_init_active : Bool
  /-- Whether `__multi_name_space` is not null. -/
  multi_name_space : Bool
deriving DecidableEq, Repr

/-- The two blocks of work gated by the counter: the one-time setup of lines 762-799 and
the teardown of lines 807-815. -/
inductive LifeEvent where
  | setup
  | teardown
deriving DecidableEq, Repr

/-- The state at program start. -/
def LibState.start : LibState := ⟨0, false, false⟩

/-- `removeNameSpace`. -/
def removeNameSpace (s : LibState) : LibState := { s with multi_name_space := false }

/-- `NetworkBase::initMinimum`: the new state and the blocks run. -/
def initMinimum (s : LibState) : LibState × List LifeEvent :=
  if s.yarp_is_initialized = 0 then
    ({ s with yarp_is_initialized := s.yarp_is_initialized + 1 }, [.setup])
  else
    ({ s with yarp_is_initialized := s.yarp_is_initialized + 1 }, [])

/-- `NetworkBase::finiMinimum`: the new state and the blocks run. -/
def finiMinimum (s : LibState) : LibState × List LifeEvent :=
  let r : LibState × List LifeEvent :=
    if s.yarp_is_initialized = 1 then (removeNameSpace s, [.teardown]) else (s, [])
  if 0 < r.1.yarp_is_initialized then
    ({ r.1 with yarp_is_initialized := r.1.yarp_is_initialized - 1 }, r.2)
  else r

/-- `NetworkBase::autoInitMinimum`. -/
def autoInitMinimum (s : LibState) : LibState × List LifeEvent :=
  if ¬ (s.yarp_auto_init_active = true ∨ s.yarp_is_initialized ≠ 0) then
    initMinimum { s with yarp_auto_init_active := true }
  else (s, [])

/-- `NetworkBase::initialized`. -/
def initialized (s : LibState) : Bool := decide (0 < s.yarp_is_initialized)

/-- A call of the lifecycle interface. -/
inductive LifeCall where
  | init
  | fini
  | autoInit
deriving DecidableEq, Repr

/-- The state change of one call. -/
def LifeCall.apply : LifeCall → LibState → LibState
  | .init, s => (initMinimum s).1
  | .fini, s => (finiMinimum s).1
  | .autoInit, s => (autoInitMinimum s).1

/-- The state after a sequence of calls, made in the order of the list. -/
def runCalls : List LifeCall → LibState → LibState
  | [], s => s
  | c :: cs, s => runCalls cs (c.apply s)

/-- Whether every `finiMinimum` call of the sequence is made while the counter is
positive. -/
def finiWhilePositive : List LifeCall → LibState → Bool
  | [], _ => true
  | c :: cs, s =>
    (if c = .fini then decide (0 < s.yarp_is_initialized) else true) &&
      finiWhilePositive cs (c.apply s)

/-- The blocks run by one call of the lifecycle interface. -/
def LifeCall.events : LifeCall → LibState → List LifeEvent
  | .init, s => (initMinimum s).2
  | .fini, s => (finiMinimum s).2
  | .autoInit, s => (autoInitMinimum s).2

/-- The log of a sequence of calls: for each call, in order, the call, the state it is made
in and the blocks it runs. -/
def runLog : List LifeCall → LibState → List (LifeCall × LibState × List LifeEvent)
  | [], _ => []
  | c :: cs, s => (c, s, c.events s) :: runLog cs (c.apply s)

/-! ## `NetworkBase::write` (lines 1093-1186) -/

/-- The collaborators of one call of `NetworkBase::write`, each with the outcome it reports:
the name space, the `Port` of the first path, the carrier registry and the
`OutputProtocol` it hands out, and the serialisers of the tag and of the command. -/
structure Wire where
  /-- `getNameSpace().serverAllocatesPortNumbers()`. -/
  serverAllocatesPortNumbers : Bool
  /-- `Port::addOutput` on the contact, first path. -/
  addOutput : Contact → Bool
  /-- `Port::write(cmd, reply)`, first path. -/
  portWrite : Bottle → Bool
  /-- `getNameSpace().queryName(targetName)`. -/
  queryName : Str → Contact
  /-- Whether `Carriers::connect(address)` hands out a protocol object (not `nullptr`). -/
  connect : Contact → Bool
  /-- The outcome of `out->open(r)`. -/
  openRoute : Bool
  /-- `out->getConnection().canEscape()`. -/
  canEscape : Bool
  /-- The outcome of `pc.write(bw)`: the admin/data tag. -/
  writeTag : Bool
  /-- The outcome of `cmd.write(bw)`: the command body. -/
  writeBody : Bottle → Bool
  /-- The outcome of `out->write(bw)`: the transmission of the buffered message. -/
  transmit : Bottle → Bool

/-- `NetworkBase::write(contact, cmd, reply, style)`: the value returned.  The timeout set
on the address and on the protocol object (lines 1135-1148) is not modelled. -/
def NetworkBase.write (w : Wire) (contact : Contact) (cmd : Bottle) (style : ContactStyle) :
    Bool :=
  if w.serverAllocatesPortNumbers = false then
    let ec := if style.carrier ≠ [] then contact.setCarrier style.carrier else contact
    if w.addOutput ec = false then false
    else
      let ok := w.portWrite cmd
      ok
  else
    let targetName := cstr contact.name
    let address := if contact.isValid = false then w.queryName targetName else contact
    if address.isValid = false then false
    else if w.connect address = false then false
    else
      let _opened := w.openRoute
      let ok := if w.canEscape then w.writeTag else true
      if ok = false then false
      else
        let ok := w.writeBody cmd
        if ok = false then false
        else
          let _sent := w.transmit cmd
          true

/-! ## An example world

A small environment on which the statements below are evaluated: a name server that knows
`/a`, `/b` and `/cam`, a registry with `tcp`, `udp` and `mjpeg`, and ports that accept
every command. -/

/-- Reads `carrier://name` or `/name`. -/
def exFromString (s : Str) : Contact :=
  let i := s.indexOf ':'
  if i < s.length then ⟨s.drop (i + 2), s.take i, [], -1⟩ else ⟨s, [], [], -1⟩

def exToString (c : Contact) : Str :=
  if c.carrier = [] then c.name else c.carrier ++ ":/".toList ++ c.name

def exStyle : ContactStyle := ⟨false, false, true, -1, [], true, false⟩

def exPortA : Contact := ⟨"/a".toList, strTcp, "10.0.0.1".toList, 10002⟩
def exPortB : Contact := ⟨"/b".toList, strTcp, "10.0.0.2".toList, 10003⟩
def exPortCam : Contact := ⟨"/cam".toList, "mjpeg".toList, "10.0.0.3".toList, 10004⟩

def exQueryName (name : Str) : Contact :=
  if name = "/a".toList then exPortA
  else if name = "/b".toList then exPortB
  else if name = "/cam".toList then exPortCam
  else ⟨name, [], [], -1⟩

def exTcp : Carrier := ⟨strTcp, strTcp, true⟩
def exUdp : Carrier := ⟨"udp".toList, strTcp, true⟩
def exMjpeg : Carrier := ⟨"mjpeg".toList, [], false⟩

def exChooseCarrier (name : Str) : Option Carrier :=
  let bare := extractCarrierNameOnly name
  if bare = strTcp then some exTcp
  else if bare = "udp".toList then some exUdp
  else if bare = "mjpeg".toList then some exMjpeg
  else none

/-- A reply without fields whose first element is the integer 0. -/
def exAck : Reply := ⟨none, none, none, true, 0, []⟩

def exEnv : Env where
  fromString := exFromString
  toString := exToString
  defaultStyle := exStyle
  getNameServerName := fun _ => "/root".toList
  getNameServerContact := fun _ => ⟨"/root".toList, strTcp, "10.0.0.9".toList, 10000⟩
  nsQueryName := fun _ name => exQueryName name
  connectionHasNameOfEndpoints := fun _ => false
  connectPortToPortPersistently := fun _ _ _ _ => true
  disconnectPortToPortPersistently := fun _ _ _ _ => true
  connectTopicToPort := fun _ _ _ _ => true
  disconnectTopicFromPort := fun _ _ _ _ => true
  connectPortToTopic := fun _ _ _ _ => true
  disconnectPortFromTopic := fun _ _ _ _ => true
  getQueryBypass := fun _ => false
  announce := fun _ _ _ => 0
  writeToNameServer := fun _ _ _ => true
  chooseCarrier := fun _ name => exChooseCarrier name
  carrierConnect := fun _ _ _ _ _ _ _ => 0
  write := fun _ _ _ _ => some exAck

/-- The state after the probe in a plain connection of `/a` to `/b`. -/
def exProbedAB : Probed :=
  ⟨exFromString "/a".toList, exFromString "/b".toList, exPortA, exPortB, false, true, false,
    true, false, []⟩

/-- The same with the carrier `mjpeg` requested on the destination string. -/
def exProbedABmjpeg : Probed :=
  { exProbedAB with dynamicDest := exFromString "mjpeg://b".toList }

/-- The lookups made up to the direction decision when `/a` is connected to `/b`. -/
def exLookupsAB : List Event :=
  [.queryName "/a".toList, .queryName "/b".toList, .chooseCarrier strTcp,
    .chooseCarrier strTcp]

/-- The state after the probe when `/a` is connected to `udp://cam`: the camera port is
registered with the carrier `mjpeg`, which is not competent. -/
def exProbedCam : Probed :=
  ⟨exFromString "/a".toList, exFromString "udp://cam".toList, exPortA, exPortCam, false, true,
    false, false, false, "mjpeg".toList⟩

def exLookupsCam : List Event :=
  [.queryName "/a".toList, .queryName "/cam".toList, .chooseCarrier strTcp,
    .chooseCarrier "mjpeg".toList]

/-- The state after the probe when `udp://a` is connected to `tcp://b`. -/
def exProbedUdpTcp : Probed :=
  { exProbedAB with
    dynamicSrc := exFromString "udp://a".toList
    dynamicDest := exFromString "tcp://b".toList }

/-- The style of the admin RPCs in the example world. -/
def exRpc : ContactStyle := { exStyle with admin := true }

/-- The example style with `persistent` set. -/
def exPersistentStyle : ContactStyle := { exStyle with persistent := true }

/-- The state after the probe when `/a` and `/b` are named under a persistent style. -/
def exProbedPersistent : Probed :=
  ⟨exFromString "/a".toList, exFromString "/b".toList, exPortA, exPortB, true, false, false,
    false, false, []⟩

/-- A reply that reports a connection over `udp`, connectionless and push. -/
def exUdpReply : Reply := ⟨some "udp".toList, some true, some true, true, 0, []⟩

/-- The example world with ports that report such a connection to every `list` probe. -/
def exEnvUdp : Env :=
  { exEnv with
    write := fun _ _ cmd _ =>
      if cmd.head? = some (.vocab "list".toList) then some exUdpReply else some exAck }

/-- The example style with the carrier `udp`. -/
def exUdpStyle : ContactStyle := { exStyle with carrier := "udp".toList }

/-- The state after the probe in scenario E2: `/a` is connected to the camera port, which
is registered with the carrier `mjpeg`, and the request names `mjpeg+in.stream`. -/
def exProbedCamStream : Probed :=
  { exProbedCam with dynamicDest := exFromString "mjpeg+in.stream://cam".toList }

/-- The example style with the carrier `udp` and a parameter. -/
def exUdpParamStyle : ContactStyle := { exStyle with carrier := "udp+send.portmonitor".toList }

/-- A reply that reports a connection over `tcp`. -/
def exTcpReply : Reply := ⟨some "tcp".toList, none, none, true, 0, []⟩

/-- The example world with ports that report a `tcp` connection to every `list` probe. -/
def exEnvTcp : Env :=
  { exEnv with
    write := fun _ _ cmd _ =>
      if cmd.head? = some (.vocab "list".toList) then some exTcpReply else some exAck }

/-- The state after the probe in scenario E5: the topic `/bus` is connected to `/b`. -/
def exProbedTopic : Probed :=
  ⟨exFromString "topic://bus".toList, exFromString "/b".toList,
    exFromString "topic://bus".toList, exPortB, true, false, true, false, false, []⟩

/-- The example parse, extended with one address form: host and port given in the string,
no carrier. -/
def exFromStringDirect (s : Str) : Contact :=
  if s = "/10.0.0.2:10003/b".toList then ⟨"/b".toList, [], "10.0.0.2".toList, 10003⟩
  else exFromString s

/-- The example world in which names may carry an address. -/
def exEnvDirect : Env := { exEnv with fromString := exFromStringDirect }

/-- The example world with one more port, `/d`, whose record has no carrier. -/
def exEnvBare : Env :=
  { exEnv with
    nsQueryName := fun _ name =>
      if name = "/d".toList then ⟨"/d".toList, [], "10.0.0.4".toList, 10005⟩
      else exQueryName name }

/-- The record of `/a` when it is registered with a parameter on its carrier. -/
def exPortAParam : Contact :=
  ⟨"/a".toList, "tcp+send.portmonitor".toList, "10.0.0.1".toList, 10002⟩

/-- The example world in which `/a` is registered with `tcp+send.portmonitor`. -/
def exEnvParam : Env :=
  { exEnv with
    nsQueryName := fun _ name => if name = "/a".toList then exPortAParam else exQueryName name }

/-- The state after the probe when `/a`, registered with `tcp+send.portmonitor`, is
connected to `/b`. -/
def exProbedParam : Probed :=
  ⟨exFromString "/a".toList, exFromString "/b".toList, exPortAParam, exPortB, false, true,
    false, true, false, []⟩

/-- The example world with a port whose name holds a tab. -/
def exEnvTab : Env :=
  { exEnv with
    nsQueryName := fun _ name =>
      if name = "/a\tb".toList then ⟨"/a\tb".toList, strTcp, "10.0.0.5".toList, 10006⟩
      else exQueryName name }

/-- A reply that reports `connectionless` and `push` but has no `carrier` field. -/
def exBareReply : Reply := ⟨none, some true, some true, true, 0, []⟩

/-- The example world with ports that answer every `list` probe with such a reply. -/
def exEnvBareReply : Env :=
  { exEnv with
    write := fun _ _ cmd _ =>
      if cmd.head? = some (.vocab "list".toList) then some exBareReply else some exAck }

/-- The state after the probe when `/a` is connected to `shmem://b`. -/
def exProbedABshmem : Probed :=
  { exProbedAB with dynamicDest := exFromString "shmem://b".toList }

/-- A reply without fields whose first element is the integer -1. -/
def exNack : Reply := ⟨none, none, none, true, -1, []⟩

/-- The example world with peers that answer every command with -1. -/
def exEnvNack : Env := { exEnv with write := fun _ _ _ _ => some exNack }

/-- A reply that reports a connection that is connectionless and pull. -/
def exPullReply : Reply := ⟨some "udp".toList, some false, some true, true, 0, []⟩

/-- The example world where `/b` cannot be reached and the other ports report a
connectionless pull connection to every `list` probe and answer 0 to the rest. -/
def exEnvDeadDest : Env :=
  { exEnv with
    write := fun _ c cmd _ =>
      if c.name = "/b".toList then none
      else if cmd.head? = some (.vocab "list".toList) then some exPullReply
      else some exAck }

/-- A name service that allocates port numbers and a connection on which every step
succeeds except the transmission of the buffered message. -/
def exWireLost : Wire where
  serverAllocatesPortNumbers := true
  addOutput := fun _ => true
  portWrite := fun _ => true
  queryName := exQueryName
  connect := fun _ => true
  openRoute := true
  canEscape := true
  writeTag := true
  writeBody := fun _ => true
  transmit := fun _ => false

/-- The example world with ports that report a connectionless pull connection to every
`list out` probe and a connectionless push connection to every `list in` probe. -/
def exEnvLoop : Env :=
  { exEnv with
    write := fun _ _ cmd _ =>
      if cmd.head? = some (.vocab "list".toList) then
        if cmd.tail.head? = some (.vocab "out".toList) then some exPullReply
        else some exUdpReply
      else some exAck }

/-- The example style with the carrier `+send.portmonitor`: parameters without a carrier
name in front. -/
def exParamOnlyStyle : ContactStyle := { exStyle with carrier := "+send.portmonitor".toList }

/-! ## Theorems -/

theorem cstr_eq_self_of_not_mem (s : Str) (h : NUL ∉ s) : cstr s = s := by
  unfold cstr
  rw [List.takeWhile_eq_self_iff]
  intro x hx
  have : x ≠ NUL := fun e => h (e ▸ hx)
  simpa using this

theorem cstr_append_nul (xs ys : Str) : cstr (xs ++ NUL :: ys) = cstr xs := by
  unfold cstr
  induction xs with
  | nil => simp
  | cons x xs ih =>
    by_cases hx : x = NUL
    · simp [List.takeWhile_cons, hx]
    · simp [List.takeWhile_cons, hx, ih]

theorem cstr_sublist (s : Str) : (cstr s).Sublist s := by
  unfold cstr
  exact (List.takeWhile_prefix _).sublist

theorem findCarrierParamsPointer_none (s : Str) :
    findCarrierParamsPointer s = none ↔ '+' ∉ s := by
  unfold findCarrierParamsPointer
  simp only []
  rw [← List.indexOf_lt_length]
  split <;> simp_all

theorem findCarrierParamsPointer_some (s : Str) (i : Nat)
    (h : findCarrierParamsPointer s = some i) :
    '+' ∉ s.take i ∧ s.drop i = '+' :: s.drop (i + 1) ∧ s.set i NUL = s.take i ++ NUL :: s.drop (i + 1) := by
  unfold findCarrierParamsPointer at h
  simp only [] at h
  split at h
  · rename_i hlt
    simp only [Option.some.injEq] at h
    subst h
    induction s with
    | nil => simp at hlt
    | cons x xs ih =>
      by_cases hx : x = '+'
      · subst hx
        simp [List.indexOf_cons]
      · have hne : (x == '+') = false := by simpa using hx
        have hlt' : List.indexOf '+' xs < xs.length := by
          simpa [List.indexOf_cons, hne] using hlt
        obtain ⟨h1, h2, h3⟩ := ih hlt'
        simp only [List.indexOf_cons, hne, cond_false]
        refine ⟨?_, ?_, ?_⟩
        · simp only [List.take_succ_cons, List.mem_cons, not_or]
          exact ⟨fun e => hx e.symm, h1⟩
        · simpa using h2
        · simpa using h3
  · simp at h

/-! ### C1: the port-name validator -/

/-- C1. For every string `s`, `isValidPortName s` is true if and only if `s` is exactly
`...`, or `s` is non-empty, its first character is `/`, its last character is not `/`, and
it contains no space character. -/
theorem isValidPortName_iff (s : Str) :
    isValidPortName s = true ↔
      (s = "...".toList ∨
        (s ≠ [] ∧ s.head? = some '/' ∧ s.getLast? ≠ some '/' ∧ ' ' ∉ s)) := by
  have hd : strDots = "...".toList := rfl
  unfold isValidPortName
  rw [← hd, List.head?_eq_getElem?, List.getLast?_eq_getElem?]
  by_cases h1 : s = []
  · subst h1
    simp [strDots]
  · by_cases h2 : s = strDots
    · simp [h2, strDots]
    · simp [h1, h2]

/-! ### C2: splitting a carrier string into bare name and parameters -/

/-- C2 (counterexample). The carrier string `a`, NUL, `b+c` is not restored by the split:
the bare name is `a` and the parameters are `+c`. -/
theorem carrier_split_fails_with_nul :
    extractCarrierNameOnly ['a', NUL, 'b', '+', 'c'] = ['a'] ∧
    collectParams ⟨[], ['a', NUL, 'b', '+', 'c'], [], 0⟩ = ['+', 'c'] ∧
    extractCarrierNameOnly ['a', NUL, 'b', '+', 'c'] ++
        collectParams ⟨[], ['a', NUL, 'b', '+', 'c'], [], 0⟩ ≠ ['a', NUL, 'b', '+', 'c'] := by
  decide

/-- C2 (amended). For every contact `k` with carrier string `c`: the bare name
`extractCarrierNameOnly c` contains no `+`; the parameters `collectParams k` are empty or
start with `+`; and when `c` contains no NUL character, the bare name followed by the
parameters is `c`. -/
theorem carrier_split (k : Contact) :
    (NUL ∉ k.carrier → extractCarrierNameOnly k.carrier ++ collectParams k = k.carrier) ∧
    '+' ∉ extractCarrierNameOnly k.carrier ∧
    (collectParams k = [] ∨ (collectParams k).head? = some '+') := by
  unfold extractCarrierNameOnly collectParams
  simp only []
  cases hf : findCarrierParamsPointer k.carrier with
  | none =>
    have := (findCarrierParamsPointer_none k.carrier).1 hf
    simp [this]
  | some i =>
    obtain ⟨h1, h2, h3⟩ := findCarrierParamsPointer_some k.carrier i hf
    simp only [h3, cstr_append_nul]
    refine ⟨?_, ?_, ?_⟩
    · intro hnul
      have ht : NUL ∉ k.carrier.take i := fun hm => hnul (List.mem_of_mem_take hm)
      have hd : NUL ∉ k.carrier.drop i := fun hm => hnul (List.mem_of_mem_drop hm)
      rw [cstr_eq_self_of_not_mem _ ht, cstr_eq_self_of_not_mem _ hd]
      exact List.take_append_drop i k.carrier
    · exact fun hm => h1 ((cstr_sublist _).subset hm)
    · right
      rw [h2]
      simp [cstr, List.takeWhile_cons, NUL]

/-- The split of `mjpeg+in.stream` is restored by concatenation. -/
theorem carrier_split_witness :
    extractCarrierNameOnly "mjpeg+in.stream".toList ++
        collectParams ⟨"/b".toList, "mjpeg+in.stream".toList, [], 0⟩ = "mjpeg+in.stream".toList :=
  (carrier_split ⟨"/b".toList, "mjpeg+in.stream".toList, [], 0⟩).1 (by decide)

/-! ### Facts about the phases of `metaConnect` -/

theorem probeSide_competent (env : Env) (h : List Event) (static : Contact) (topical : Bool)
    (c : Str) (hc : (probeSide env h static topical c).1.isCompetent = true) :
    topical = false := by
  unfold probeSide at hc
  cases topical with
  | false => rfl
  | true =>
    split at hc <;> simp at hc

theorem probeSide_isTopic (env : Env) (h : List Event) (static : Contact) (topical : Bool)
    (c : Str) : (probeSide env h static topical c).1.isTopic = decide (static.carrier = strTopic) := by
  unfold probeSide
  by_cases h1 : static.carrier = strTopic
  · simp [h1]
  · simp only [ne_eq, h1, not_false_eq_true, if_true, decide_False]
    split
    · split
      · split <;> [split; skip] <;> rfl
      · rfl
    · rfl

theorem probeEndpoints_some (env : Env) (h : List Event) (src dest : Str) (style : ContactStyle)
    (mode : Mode) (p : Probed) (t : List Event)
    (hprobe : probeEndpoints env h src dest style mode = (some p, t)) :
    ¬ (dest.contains ' ' = true ∨ src.contains ' ' = true) ∧
    isValidPortName (env.fromString src).name = true ∧
    isValidPortName (env.fromString dest).name = true ∧
    ∃ ss sd t1,
      staticContacts env h (env.fromString src) (env.fromString dest) style mode
        (isTopical (env.fromString src) (env.fromString dest) style) = (some (ss, sd), t1) ∧
      p = ⟨env.fromString src, env.fromString dest, ss, sd,
        isTopical (env.fromString src) (env.fromString dest) style,
        (probeSide env (h ++ t1) ss (isTopical (env.fromString src) (env.fromString dest) style)
          []).1.isCompetent,
        (probeSide env (h ++ t1) ss (isTopical (env.fromString src) (env.fromString dest) style)
          []).1.isTopic,
        (probeSide env
          (h ++ t1 ++ (probeSide env (h ++ t1) ss
            (isTopical (env.fromString src) (env.fromString dest) style) []).2) sd
          (isTopical (env.fromString src) (env.fromString dest) style)
          (probeSide env (h ++ t1) ss (isTopical (env.fromString src) (env.fromString dest) style)
            []).1.carrierConstraint).1.isCompetent,
        (probeSide env
          (h ++ t1 ++ (probeSide env (h ++ t1) ss
            (isTopical (env.fromString src) (env.fromString dest) style) []).2) sd
          (isTopical (env.fromString src) (env.fromString dest) style)
          (probeSide env (h ++ t1) ss (isTopical (env.fromString src) (env.fromString dest) style)
            []).1.carrierConstraint).1.isTopic,
        (probeSide env
          (h ++ t1 ++ (probeSide env (h ++ t1) ss
            (isTopical (env.fromString src) (env.fromString dest) style) []).2) sd
          (isTopical (env.fromString src) (env.fromString dest) style)
          (probeSide env (h ++ t1) ss (isTopical (env.fromString src) (env.fromString dest) style)
            []).1.carrierConstraint).1.carrierConstraint⟩ ∧
      t = t1 ++ (probeSide env (h ++ t1) ss
            (isTopical (env.fromString src) (env.fromString dest) style) []).2 ++
          (probeSide env
            (h ++ t1 ++ (probeSide env (h ++ t1) ss
              (isTopical (env.fromString src) (env.fromString dest) style) []).2) sd
            (isTopical (env.fromString src) (env.fromString dest) style)
            (probeSide env (h ++ t1) ss (isTopical (env.fromString src) (env.fromString dest) style)
              []).1.carrierConstraint).2 := by
  unfold probeEndpoints at hprobe
  split at hprobe
  · simp at hprobe
  · rename_i hsp
    simp only [] at hprobe
    split at hprobe
    · simp at hprobe
    · rename_i hv1
      split at hprobe
      · simp at hprobe
      · rename_i hv2
        refine ⟨hsp, by simpa using hv1, by simpa using hv2, ?_⟩
        split at hprobe
        · simp at hprobe
        · rename_i ss sd t1 hst
          simp only [Prod.mk.injEq, Option.some.injEq] at hprobe
          exact ⟨ss, sd, t1, hst, hprobe.1.symm, hprobe.2.symm⟩

theorem probeEndpoints_dynamic (env : Env) (h : List Event) (src dest : Str)
    (style : ContactStyle) (mode : Mode) (p : Probed) (t : List Event)
    (hprobe : probeEndpoints env h src dest style mode = (some p, t)) :
    p.dynamicSrc = env.fromString src ∧ p.dynamicDest = env.fromString dest ∧
    p.topical = isTopical (env.fromString src) (env.fromString dest) style := by
  obtain ⟨_, _, _, ss, sd, t1, _, hp, _⟩ := probeEndpoints_some env h src dest style mode p t hprobe
  subst hp
  exact ⟨rfl, rfl, rfl⟩

theorem probeEndpoints_competent (env : Env) (h : List Event) (src dest : Str)
    (style : ContactStyle) (mode : Mode) (p : Probed) (t : List Event)
    (hprobe : probeEndpoints env h src dest style mode = (some p, t)) :
    (p.srcIsCompetent = true → p.topical = false) ∧
    (p.destIsCompetent = true → p.topical = false) := by
  obtain ⟨_, _, _, ss, sd, t1, _, hp, _⟩ := probeEndpoints_some env h src dest style mode p t hprobe
  subst hp
  exact ⟨fun hc => probeSide_competent _ _ _ _ _ hc, fun hc => probeSide_competent _ _ _ _ _ hc⟩

theorem probeEndpoints_isTopic (env : Env) (h : List Event) (src dest : Str)
    (style : ContactStyle) (mode : Mode) (p : Probed) (t : List Event)
    (hprobe : probeEndpoints env h src dest style mode = (some p, t)) :
    p.srcIsTopic = decide (p.staticSrc.carrier = strTopic) ∧
    p.destIsTopic = decide (p.staticDest.carrier = strTopic) := by
  obtain ⟨_, _, _, ss, sd, t1, _, hp, _⟩ := probeEndpoints_some env h src dest style mode p t hprobe
  subst hp
  exact ⟨probeSide_isTopic _ _ _ _ _, probeSide_isTopic _ _ _ _ _⟩

theorem lookupSide_events (env : Env) (h : List Event) (dynamic : Contact) (style : ContactStyle)
    (a b : Bool) : ∀ e ∈ (lookupSide env h dynamic style a b).2, e.isLookup = true := by
  unfold lookupSide
  split
  · simp only []
    split
    · split <;> simp [Event.isLookup]
    · simp [Event.isLookup]
  · simp

theorem staticContacts_events (env : Env) (h : List Event) (dynamicSrc dynamicDest : Contact)
    (style : ContactStyle) (mode : Mode) (topical : Bool) :
    ∀ e ∈ (staticContacts env h dynamicSrc dynamicDest style mode topical).2,
      e.isLookup = true := by
  intro e he
  unfold staticContacts at he
  simp only [] at he
  split at he
  · rename_i t1 h1
    have := lookupSide_events env h dynamicSrc style topical
      (!env.connectionHasNameOfEndpoints h)
    rw [h1] at this
    exact this e he
  · rename_i s0 t1 h1
    have e1 := lookupSide_events env h dynamicSrc style topical
      (!env.connectionHasNameOfEndpoints h)
    rw [h1] at e1
    split at he
    · rename_i t2 h2
      have e2 := lookupSide_events env (h ++ t1) dynamicDest style topical
        (!env.connectionHasNameOfEndpoints h)
      rw [h2] at e2
      rcases List.mem_append.1 he with hm | hm
      · exact e1 e hm
      · exact e2 e hm
    · rename_i sd t2 h2
      have e2 := lookupSide_events env (h ++ t1) dynamicDest style topical
        (!env.connectionHasNameOfEndpoints h)
      rw [h2] at e2
      have he' : e ∈ t1 ++ t2 := by
        split_ifs at he <;> exact he
      rcases List.mem_append.1 he' with hm | hm
      · exact e1 e hm
      · exact e2 e hm

theorem probeSide_events (env : Env) (h : List Event) (static : Contact) (topical : Bool)
    (c : Str) : ∀ e ∈ (probeSide env h static topical c).2, e.isLookup = true := by
  unfold probeSide
  split
  · split
    · split
      · split
        · split <;> simp [Event.isLookup]
        · simp [Event.isLookup]
      · simp
    · simp
  · simp

theorem probeEndpoints_events (env : Env) (h : List Event) (src dest : Str)
    (style : ContactStyle) (mode : Mode) :
    ∀ e ∈ (probeEndpoints env h src dest style mode).2, e.isLookup = true := by
  intro e he
  unfold probeEndpoints at he
  split at he
  · simp at he
  · simp only [] at he
    split at he
    · simp at he
    · split at he
      · simp at he
      · split at he
        · rename_i t1 h1
          have := staticContacts_events env h (env.fromString src) (env.fromString dest) style
            mode (isTopical (env.fromString src) (env.fromString dest) style)
          rw [h1] at this
          exact this e he
        · rename_i ss sd t1 h1
          have e1 := staticContacts_events env h (env.fromString src) (env.fromString dest)
            style mode (isTopical (env.fromString src) (env.fromString dest) style)
          rw [h1] at e1
          simp only [List.mem_append] at he
          rcases he with (hm | hm) | hm
          · exact e1 e hm
          · exact probeSide_events _ _ _ _ _ e hm
          · exact probeSide_events _ _ _ _ _ e hm

theorem isLookup_not_action (e : Event) (he : e.isLookup = true) :
    e.isWrite = false ∧ e.isEnact = false ∧ e.isPersistentOp = false ∧
    e.isNameSpaceConnectionOp = false ∧ e.isCarrierConnect = false := by
  cases e <;> simp_all [Event.isLookup, Event.isWrite, Event.isEnact, Event.isPersistentOp,
    Event.isNameSpaceConnectionOp, Event.isCarrierConnect]

theorem directConnection_source (env : Env) (fuel : Nat) (h : List Event) (src dest : Str)
    (staticSrc staticDest : Contact) (style : ContactStyle) (mode : Mode)
    (sc dc topical : Bool) (car : Carrier)
    (hcarrier : style.carrier ≠ strTopic)
    (hchoose : env.chooseCarrier h (cstr style.carrier) = some car)
    (hsrc : sc = true) (hpush : car.isPush = true) :
    directConnection env fuel h src dest staticSrc staticDest style mode sc dc topical =
      Option.map (fun r => (r.1, Event.chooseCarrier (cstr style.carrier) :: r.2))
        (enactConnection env fuel (h ++ [Event.chooseCarrier (cstr style.carrier)])
          staticSrc (env.fromString dest) style mode false) := by
  unfold directConnection
  simp [hcarrier, hchoose, hsrc, hpush]
  cases enactConnection env fuel (h ++ [Event.chooseCarrier (cstr style.carrier)])
    staticSrc (env.fromString dest) style mode false <;> simp

theorem directConnection_destination (env : Env) (fuel : Nat) (h : List Event)
    (src dest : Str) (staticSrc staticDest : Contact) (style : ContactStyle) (mode : Mode)
    (sc dc topical : Bool) (car : Carrier)
    (hcarrier : style.carrier ≠ strTopic)
    (hchoose : env.chooseCarrier h (cstr style.carrier) = some car)
    (hdest : dc = true) (htop : topical = false) (hpull : car.isPush = false) :
    directConnection env fuel h src dest staticSrc staticDest style mode sc dc topical =
      Option.map (fun r => (r.1, Event.chooseCarrier (cstr style.carrier) :: r.2))
        (enactConnection env fuel (h ++ [Event.chooseCarrier (cstr style.carrier)])
          staticDest (env.fromString src) style mode true) := by
  unfold directConnection
  simp [hcarrier, hchoose, hdest, hpull, htop]
  cases enactConnection env fuel (h ++ [Event.chooseCarrier (cstr style.carrier)])
    staticDest (env.fromString src) style mode true <;> simp

theorem metaConnect_direct (env : Env) (fuel : Nat) (h : List Event) (src dest : Str)
    (style : ContactStyle) (mode : Mode) (p : Probed) (t : List Event)
    (hprobe : probeEndpoints env h src dest style mode = (some p, t))
    (hsrcTopic : p.srcIsTopic = false) (hdestTopic : p.destIsTopic = false)
    (hconflict : carrierConflict (selectedStyle p style) p.carrierConstraint = false) :
    metaConnect env fuel h src dest style mode =
      Option.map (fun r => (r.1, t ++ r.2))
        (directConnection env fuel (h ++ t) src dest p.staticSrc p.staticDest
          (chosenStyle p style) mode p.srcIsCompetent p.destIsCompetent p.topical) := by
  unfold metaConnect
  rw [hprobe]
  simp only [hsrcTopic, hdestTopic, hconflict, Bool.false_eq_true, or_self, if_false]
  cases directConnection env fuel (h ++ t) src dest p.staticSrc p.staticDest
    (chosenStyle p style) mode p.srcIsCompetent p.destIsCompetent p.topical <;> simp

/-! ### C3: the direction law -/

theorem enactConnection_head (env : Env) (fuel : Nat) (h : List Event) (src dest : Contact)
    (style : ContactStyle) (mode : Mode) (reversed : Bool) (r : Int) (tr : List Event)
    (hrun : enactConnection env fuel h src dest style mode reversed = some (r, tr)) :
    tr.head? = some (.enactConnection src dest style mode reversed) := by
  cases fuel with
  | zero => simp [enactConnection] at hrun
  | succ n =>
    unfold enactConnection at hrun
    simp only [] at hrun
    split at hrun
    · split at hrun <;>
      · simp only [Option.some.injEq, Prod.mk.injEq] at hrun
        rw [← hrun.2]
        rfl
    · split at hrun
      · simp only [Option.some.injEq, Prod.mk.injEq] at hrun
        rw [← hrun.2]
        rfl
      · split at hrun
        · split at hrun
          · simp only [Option.some.injEq, Prod.mk.injEq] at hrun
            rw [← hrun.2]
            rfl
          · split at hrun
            · split at hrun
              · simp at hrun
              · simp only [Option.some.injEq, Prod.mk.injEq] at hrun
                rw [← hrun.2]
                rfl
            · simp only [Option.some.injEq, Prod.mk.injEq] at hrun
              rw [← hrun.2]
              rfl
        · split at hrun <;>
          · simp only [Option.some.injEq, Prod.mk.injEq] at hrun
            rw [← hrun.2]
            rfl

theorem map_enact_trace (pre : List Event) (e : Event)
    (o : Option (Int × List Event)) (hhead : ∀ r tr, o = some (r, tr) → tr.head? = some e)
    (r : Int) (tr : List Event)
    (hrun : Option.map (fun x : Int × List Event => (x.1, pre ++ x.2)) o = some (r, tr)) :
    ∃ rest, tr = pre ++ e :: rest := by
  cases o with
  | none => simp at hrun
  | some x =>
    obtain ⟨r0, t0⟩ := x
    simp only [Option.map_some', Option.some.injEq, Prod.mk.injEq] at hrun
    have hh := hhead r0 t0 rfl
    cases t0 with
    | nil => simp at hh
    | cons y ys =>
      simp only [List.head?_cons, Option.some.injEq] at hh
      subst hh
      exact ⟨ys, hrun.2.symm⟩

/-- C3. For every `metaConnect` call that reaches the direction decision (the probe of both
endpoints succeeded, no side is a topic, no carrier conflict) and whose chosen carrier `car`
is known to the registry: if the source was found competent and `car` is push, the outcome
of `metaConnect` is that of `enactConnection` invoked with the static source as initiator,
the destination string's contact as argument and `reversed = false`, and the entry of that
invocation is the first call after the lookups; if the destination was found competent and
`car` is pull, the same holds for `enactConnection` invoked with the static destination as
initiator, the source string's contact as argument and `reversed = true`. -/
theorem direction_law (env : Env) (fuel : Nat) (h : List Event) (src dest : Str)
    (style : ContactStyle) (mode : Mode) (p : Probed) (t : List Event) (car : Carrier)
    (hprobe : probeEndpoints env h src dest style mode = (some p, t))
    (hsrcTopic : p.srcIsTopic = false) (hdestTopic : p.destIsTopic = false)
    (hconflict : carrierConflict (selectedStyle p style) p.carrierConstraint = false)
    (hcarrier : (chosenStyle p style).carrier ≠ strTopic)
    (hchoose : env.chooseCarrier (h ++ t) (cstr (chosenStyle p style).carrier) = some car) :
    (p.srcIsCompetent = true → car.isPush = true →
      metaConnect env fuel h src dest style mode =
        Option.map
          (fun r => (r.1, (t ++ [Event.chooseCarrier (cstr (chosenStyle p style).carrier)]) ++ r.2))
          (enactConnection env fuel
            (h ++ t ++ [Event.chooseCarrier (cstr (chosenStyle p style).carrier)])
            p.staticSrc (env.fromString dest) (chosenStyle p style) mode false) ∧
      ∀ r tr, metaConnect env fuel h src dest style mode = some (r, tr) →
        ∃ rest, tr = (t ++ [Event.chooseCarrier (cstr (chosenStyle p style).carrier)]) ++
          Event.enactConnection p.staticSrc (env.fromString dest) (chosenStyle p style) mode
            false :: rest) ∧
    (p.destIsCompetent = true → car.isPush = false →
      metaConnect env fuel h src dest style mode =
        Option.map
          (fun r => (r.1, (t ++ [Event.chooseCarrier (cstr (chosenStyle p style).carrier)]) ++ r.2))
          (enactConnection env fuel
            (h ++ t ++ [Event.chooseCarrier (cstr (chosenStyle p style).carrier)])
            p.staticDest (env.fromString src) (chosenStyle p style) mode true) ∧
      ∀ r tr, metaConnect env fuel h src dest style mode = some (r, tr) →
        ∃ rest, tr = (t ++ [Event.chooseCarrier (cstr (chosenStyle p style).carrier)]) ++
          Event.enactConnection p.staticDest (env.fromString src) (chosenStyle p style) mode
            true :: rest) := by
  have htop := probeEndpoints_competent env h src dest style mode p t hprobe
  rw [metaConnect_direct env fuel h src dest style mode p t hprobe hsrcTopic hdestTopic
    hconflict]
  constructor
  · intro hs hpush
    rw [directConnection_source env fuel (h ++ t) src dest p.staticSrc p.staticDest
      (chosenStyle p style) mode _ _ _ car hcarrier hchoose hs hpush]
    have heq : Option.map (fun r : Int × List Event => (r.1, t ++ r.2))
        (Option.map
          (fun r : Int × List Event =>
            (r.1, Event.chooseCarrier (cstr (chosenStyle p style).carrier) :: r.2))
          (enactConnection env fuel
            (h ++ t ++ [Event.chooseCarrier (cstr (chosenStyle p style).carrier)])
            p.staticSrc (env.fromString dest) (chosenStyle p style) mode false)) =
        Option.map
          (fun r : Int × List Event =>
            (r.1, (t ++ [Event.chooseCarrier (cstr (chosenStyle p style).carrier)]) ++ r.2))
          (enactConnection env fuel
            (h ++ t ++ [Event.chooseCarrier (cstr (chosenStyle p style).carrier)])
            p.staticSrc (env.fromString dest) (chosenStyle p style) mode false) := by
      cases enactConnection env fuel
        (h ++ t ++ [Event.chooseCarrier (cstr (chosenStyle p style).carrier)])
        p.staticSrc (env.fromString dest) (chosenStyle p style) mode false <;> simp
    rw [heq]
    exact ⟨rfl, fun r tr hrun => map_enact_trace _ _ _
      (fun r0 t0 h0 => enactConnection_head _ _ _ _ _ _ _ _ _ _ h0) r tr hrun⟩
  · intro hd hpull
    rw [directConnection_destination env fuel (h ++ t) src dest p.staticSrc p.staticDest
      (chosenStyle p style) mode _ _ _ car hcarrier hchoose hd (htop.2 hd) hpull]
    have heq : Option.map (fun r : Int × List Event => (r.1, t ++ r.2))
        (Option.map
          (fun r : Int × List Event =>
            (r.1, Event.chooseCarrier (cstr (chosenStyle p style).carrier) :: r.2))
          (enactConnection env fuel
            (h ++ t ++ [Event.chooseCarrier (cstr (chosenStyle p style).carrier)])
            p.staticDest (env.fromString src) (chosenStyle p style) mode true)) =
        Option.map
          (fun r : Int × List Event =>
            (r.1, (t ++ [Event.chooseCarrier (cstr (chosenStyle p style).carrier)]) ++ r.2))
          (enactConnection env fuel
            (h ++ t ++ [Event.chooseCarrier (cstr (chosenStyle p style).carrier)])
            p.staticDest (env.fromString src) (chosenStyle p style) mode true) := by
      cases enactConnection env fuel
        (h ++ t ++ [Event.chooseCarrier (cstr (chosenStyle p style).carrier)])
        p.staticDest (env.fromString src) (chosenStyle p style) mode true <;> simp
    rw [heq]
    exact ⟨rfl, fun r tr hrun => map_enact_trace _ _ _
      (fun r0 t0 h0 => enactConnection_head _ _ _ _ _ _ _ _ _ _ h0) r tr hrun⟩

/-- In the example world: `/a` to `/b` over `tcp` is enacted from `/a`; `/a` to `mjpeg://b`,
a pull carrier, is enacted from `/b` with `reversed = true`. -/
theorem direction_law_witness :
    (metaConnect exEnv 1 [] "/a".toList "/b".toList exStyle YARP_ENACT_CONNECT =
      Option.map
        (fun r => (r.1, (exLookupsAB ++ [Event.chooseCarrier strTcp]) ++ r.2))
        (enactConnection exEnv 1 (exLookupsAB ++ [Event.chooseCarrier strTcp])
          exPortA (exFromString "/b".toList) { exStyle with carrier := strTcp }
          YARP_ENACT_CONNECT false) ∧
      ∀ r tr, metaConnect exEnv 1 [] "/a".toList "/b".toList exStyle YARP_ENACT_CONNECT =
          some (r, tr) →
        ∃ rest, tr = (exLookupsAB ++ [Event.chooseCarrier strTcp]) ++
          Event.enactConnection exPortA (exFromString "/b".toList)
            { exStyle with carrier := strTcp } YARP_ENACT_CONNECT false :: rest) ∧
    (metaConnect exEnv 1 [] "/a".toList "mjpeg://b".toList exStyle YARP_ENACT_CONNECT =
      Option.map
        (fun r => (r.1, (exLookupsAB ++ [Event.chooseCarrier "mjpeg".toList]) ++ r.2))
        (enactConnection exEnv 1 (exLookupsAB ++ [Event.chooseCarrier "mjpeg".toList])
          exPortB (exFromString "/a".toList) { exStyle with carrier := "mjpeg".toList }
          YARP_ENACT_CONNECT true) ∧
      ∀ r tr, metaConnect exEnv 1 [] "/a".toList "mjpeg://b".toList exStyle
          YARP_ENACT_CONNECT = some (r, tr) →
        ∃ rest, tr = (exLookupsAB ++ [Event.chooseCarrier "mjpeg".toList]) ++
          Event.enactConnection exPortB (exFromString "/a".toList)
            { exStyle with carrier := "mjpeg".toList } YARP_ENACT_CONNECT true :: rest) :=
  ⟨(direction_law exEnv 1 [] "/a".toList "/b".toList exStyle YARP_ENACT_CONNECT exProbedAB
      exLookupsAB exTcp (by decide) rfl rfl (by decide) (by decide) (by decide)).1
      rfl rfl,
   (direction_law exEnv 1 [] "/a".toList "mjpeg://b".toList exStyle YARP_ENACT_CONNECT
      exProbedABmjpeg exLookupsAB exMjpeg (by decide) rfl rfl (by decide) (by decide)
      (by decide)).2 rfl rfl⟩

/-! ### C4: conflict detection -/

/-- C4. For every `metaConnect` call that got past the capability probe (valid names,
successful resolution) with no topic side: when a carrier constraint was recorded and the
selected carrier (the carrier given on an endpoint string, else `style.carrier`) is non-empty
with a bare name different from the constraint's bare name, `metaConnect` returns 1, and the
calls it made are the lookups of the probe only: no admin RPC, no carrier connect hook and
no name-space connection operation. -/
theorem conflict_rejected (env : Env) (fuel : Nat) (h : List Event) (src dest : Str)
    (style : ContactStyle) (mode : Mode) (p : Probed) (t : List Event)
    (hprobe : probeEndpoints env h src dest style mode = (some p, t))
    (hsrcTopic : p.srcIsTopic = false) (hdestTopic : p.destIsTopic = false)
    (hconstraint : p.carrierConstraint ≠ [])
    (hselected : (selectedStyle p style).carrier ≠ [])
    (hdiff : extractCarrierNameOnly (selectedStyle p style).carrier ≠
      extractCarrierNameOnly p.carrierConstraint) :
    ∃ r, metaConnect env fuel h src dest style mode = some (r, t) ∧ r ≠ 0 ∧
      ∀ e ∈ t, e.isWrite = false ∧ e.isCarrierConnect = false ∧
        e.isNameSpaceConnectionOp = false := by
  refine ⟨1, ?_, by decide, ?_⟩
  · unfold metaConnect
    rw [hprobe]
    have hc : carrierConflict (selectedStyle p style) p.carrierConstraint = true := by
      unfold carrierConflict
      simp [hconstraint, hselected, hdiff]
    simp [hsrcTopic, hdestTopic, hc]
  · intro e he
    have hl := probeEndpoints_events env h src dest style mode
    rw [hprobe] at hl
    have := isLookup_not_action e (hl e he)
    exact ⟨this.1, this.2.2.2.2, this.2.2.2.1⟩

/-- In the example world: `udp` requested towards a port registered with `mjpeg`. -/
theorem conflict_rejected_witness :
    ∃ r, metaConnect exEnv 1 [] "/a".toList "udp://cam".toList exStyle YARP_ENACT_CONNECT =
        some (r, exLookupsCam) ∧ r ≠ 0 ∧
      ∀ e ∈ exLookupsCam, e.isWrite = false ∧ e.isCarrierConnect = false ∧
        e.isNameSpaceConnectionOp = false :=
  conflict_rejected exEnv 1 [] "/a".toList "udp://cam".toList exStyle YARP_ENACT_CONNECT
    exProbedCam exLookupsCam (by decide) rfl rfl (by decide) (by decide) (by decide)

/-! ### C5: which endpoint string names the carrier -/

/-- C5 (counterexample). Connecting `udp://a` to `tcp://b`: the source string carries the
carrier `udp`, yet the carrier selected for the conflict check and used for the connection
is `tcp`, the destination string's. -/
theorem source_carrier_does_not_win :
    (exEnv.fromString "udp://a".toList).carrier = "udp".toList ∧
    probeEndpoints exEnv [] "udp://a".toList "tcp://b".toList exStyle YARP_ENACT_CONNECT =
      (some exProbedUdpTcp, exLookupsAB) ∧
    (selectedStyle exProbedUdpTcp exStyle).carrier = "tcp".toList ∧
    metaConnect exEnv 1 [] "udp://a".toList "tcp://b".toList exStyle YARP_ENACT_CONNECT =
      some (0, exLookupsAB ++
        [.chooseCarrier "tcp".toList,
         .enactConnection exPortA (exFromString "tcp://b".toList)
            { exStyle with carrier := "tcp".toList } YARP_ENACT_CONNECT false,
         .write exPortA
            [.vocab "list".toList, .vocab "out".toList, .string "/b".toList] exRpc,
         .write exPortA [.vocab "add".toList, .string "tcp://b".toList] exRpc]) := by
  decide

theorem selectedStyle_carrier (p : Probed) (style : ContactStyle) :
    (selectedStyle p style).carrier =
      if p.dynamicDest.carrier ≠ [] then p.dynamicDest.carrier
      else if p.dynamicSrc.carrier ≠ [] then p.dynamicSrc.carrier
      else style.carrier := by
  unfold selectedStyle userCarrier
  by_cases h1 : p.dynamicDest.carrier = [] <;> by_cases h2 : p.dynamicSrc.carrier = [] <;>
    simp [h1, h2]

theorem chosenStyle_without_constraint (p : Probed) (style : ContactStyle)
    (hc : p.carrierConstraint = []) (hs : (selectedStyle p style).carrier ≠ []) :
    chosenStyle p style = selectedStyle p style := by
  unfold chosenStyle chooseStyleCarrier
  have h1 : constraintCarrier p.dynamicSrc p.dynamicDest p.carrierConstraint
      (selectedStyle p style) = selectedStyle p style := by
    simp [constraintCarrier, hc]
  have h2 : destinationCarrier p.dynamicSrc p.staticSrc p.staticDest (selectedStyle p style) =
      selectedStyle p style := by
    simp [destinationCarrier, hs]
  rw [h1, h2]
  simp [sourceCarrier, hs]

/-- C5 (amended). For every `metaConnect` call that got past the capability probe: if the
destination string carries a non-empty carrier, that carrier is the one selected for the
conflict check, whatever the source string or the caller's style names, and when no carrier
constraint was recorded it is the carrier of the connection; the source string's carrier is
selected only when the destination string carries none. -/
theorem destination_carrier_wins (env : Env) (h : List Event) (src dest : Str)
    (style : ContactStyle) (mode : Mode) (p : Probed) (t : List Event)
    (hprobe : probeEndpoints env h src dest style mode = (some p, t)) :
    ((env.fromString dest).carrier ≠ [] →
      (selectedStyle p style).carrier = (env.fromString dest).carrier ∧
      (p.carrierConstraint = [] →
        (chosenStyle p style).carrier = (env.fromString dest).carrier)) ∧
    ((env.fromString dest).carrier = [] → (env.fromString src).carrier ≠ [] →
      (selectedStyle p style).carrier = (env.fromString src).carrier ∧
      (p.carrierConstraint = [] →
        (chosenStyle p style).carrier = (env.fromString src).carrier)) ∧
    ((selectedStyle p style).carrier = (env.fromString src).carrier →
      (env.fromString src).carrier ≠ (env.fromString dest).carrier →
      (env.fromString dest).carrier = []) := by
  obtain ⟨hs, hd, _⟩ := probeEndpoints_dynamic env h src dest style mode p t hprobe
  have hsel := selectedStyle_carrier p style
  rw [hs, hd] at hsel
  refine ⟨?_, ?_, ?_⟩
  · intro hne
    have h1 : (selectedStyle p style).carrier = (env.fromString dest).carrier := by
      rw [hsel]; simp [hne]
    refine ⟨h1, fun hc => ?_⟩
    rw [chosenStyle_without_constraint p style hc (by rw [h1]; exact hne), h1]
  · intro he hne
    have h1 : (selectedStyle p style).carrier = (env.fromString src).carrier := by
      rw [hsel]; simp [he, hne]
    refine ⟨h1, fun hc => ?_⟩
    rw [chosenStyle_without_constraint p style hc (by rw [h1]; exact hne), h1]
  · intro heq hne
    by_contra hd'
    rw [hsel] at heq
    simp only [ne_eq, hd', not_false_eq_true, if_true] at heq
    exact hne heq.symm

/-- In the example world: `udp://a` to `tcp://b` selects `tcp`. -/
theorem destination_carrier_wins_witness :
    (selectedStyle exProbedUdpTcp exStyle).carrier = (exEnv.fromString "tcp://b".toList).carrier ∧
    ((exProbedUdpTcp).carrierConstraint = [] →
      (chosenStyle exProbedUdpTcp exStyle).carrier =
        (exEnv.fromString "tcp://b".toList).carrier) :=
  (destination_carrier_wins exEnv [] "udp://a".toList "tcp://b".toList exStyle
    YARP_ENACT_CONNECT exProbedUdpTcp exLookupsAB (by decide)).1 (by decide)

/-! ### C6 and C7: the persistent path -/

theorem lookupSide_persistent (env : Env) (h : List Event) (dynamic : Contact)
    (style : ContactStyle) (a b : Bool) (hpers : style.persistent = true) :
    ∃ c, (lookupSide env h dynamic style a b).1 = some c := by
  unfold lookupSide
  split
  · simp only []
    split
    · simp [hpers]
    · exact ⟨_, rfl⟩
  · exact ⟨_, rfl⟩

theorem staticContacts_persistent (env : Env) (h : List Event) (dynamicSrc dynamicDest : Contact)
    (style : ContactStyle) (mode : Mode) (topical : Bool) (hpers : style.persistent = true) :
    ∃ ss sd t1, staticContacts env h dynamicSrc dynamicDest style mode topical =
      (some (ss, sd), t1) := by
  unfold staticContacts
  simp only []
  obtain ⟨c1, hc1⟩ := lookupSide_persistent env h dynamicSrc style topical
    (!env.connectionHasNameOfEndpoints h) hpers
  split
  · rename_i t1 h1
    rw [h1] at hc1
    simp at hc1
  · rename_i s0 t1 h1
    obtain ⟨c2, hc2⟩ := lookupSide_persistent env (h ++ t1) dynamicDest style topical
      (!env.connectionHasNameOfEndpoints h) hpers
    split
    · rename_i t2 h2
      rw [h2] at hc2
      simp at hc2
    · split_ifs <;> exact ⟨_, _, _, rfl⟩

theorem probeSide_topical (env : Env) (h : List Event) (static : Contact) (c : Str) :
    probeSide env h static true c = (⟨false, decide (static.carrier = strTopic), c⟩, []) := by
  unfold probeSide
  by_cases h1 : static.carrier = strTopic <;> simp [h1]

theorem probeEndpoints_persistent (env : Env) (h : List Event) (src dest : Str)
    (style : ContactStyle) (mode : Mode)
    (hspace : dest.contains ' ' = false ∧ src.contains ' ' = false)
    (hsrc : isValidPortName (env.fromString src).name = true)
    (hdest : isValidPortName (env.fromString dest).name = true)
    (hpers : style.persistent = true) :
    ∃ p t, probeEndpoints env h src dest style mode = (some p, t) ∧ p.topical = true ∧
      p.carrierConstraint = [] ∧
      p.srcIsTopic = decide (p.staticSrc.carrier = strTopic) ∧
      p.destIsTopic = decide (p.staticDest.carrier = strTopic) := by
  have htop : isTopical (env.fromString src) (env.fromString dest) style = true := by
    simp [isTopical, hpers]
  obtain ⟨ss, sd, t1, hst⟩ := staticContacts_persistent env h (env.fromString src)
    (env.fromString dest) style mode true hpers
  unfold probeEndpoints
  rw [if_neg (by rw [hspace.1, hspace.2]; simp)]
  simp only []
  rw [if_neg (by simp [hsrc]), if_neg (by simp [hdest]), htop, hst]
  simp only [probeSide_topical]
  exact ⟨_, _, rfl, rfl, rfl, rfl, rfl⟩

theorem chosenStyle_persistent (p : Probed) (style : ContactStyle) :
    (chosenStyle p style).persistent = style.persistent := by
  have h1 : ∀ a b st, (userCarrier a b st).persistent = st.persistent := by
    intro a b st
    unfold userCarrier
    simp only []
    split_ifs <;> rfl
  have h2 : ∀ a b c st, (constraintCarrier a b c st).persistent = st.persistent := by
    intro a b c st
    unfold constraintCarrier
    simp only []
    split_ifs <;> rfl
  have h3 : ∀ a b c st, (destinationCarrier a b c st).persistent = st.persistent := by
    intro a b c st
    unfold destinationCarrier
    simp only []
    split_ifs <;> rfl
  have h4 : ∀ a st, (sourceCarrier a st).persistent = st.persistent := by
    intro a st
    unfold sourceCarrier
    split_ifs <;> rfl
  unfold chosenStyle chooseStyleCarrier selectedStyle
  rw [h4, h3, h2, h1]

theorem carrierConflict_nil (style : ContactStyle) : carrierConflict style [] = false := by
  simp [carrierConflict]

/-- The events of the registry lookup that opens the direction decision. -/
theorem directConnection_topical (env : Env) (fuel : Nat) (h : List Event) (src dest : Str)
    (staticSrc staticDest : Contact) (style : ContactStyle) (mode : Mode) (sc dc : Bool) :
    ∃ tc, (∀ e ∈ tc, e.isLookup = true) ∧
      directConnection env fuel h src dest staticSrc staticDest style mode sc dc true =
        Option.map (fun r => (r.1, tc ++ r.2))
          (enactConnection env fuel (h ++ tc) staticSrc (env.fromString dest) style mode
            false) := by
  refine ⟨if style.carrier ≠ strTopic then [.chooseCarrier (cstr style.carrier)] else [],
    ?_, ?_⟩
  · intro e he
    split_ifs at he <;> simp_all [Event.isLookup]
  · unfold directConnection
    simp only [Bool.or_true, if_true]
    cases enactConnection env fuel
      (h ++ if style.carrier ≠ strTopic then [.chooseCarrier (cstr style.carrier)] else [])
      staticSrc (env.fromString dest) style mode false <;> simp

theorem enactConnection_persistent (env : Env) (fuel : Nat) (h : List Event)
    (src dest : Contact) (style : ContactStyle) (mode : Mode) (reversed : Bool)
    (hpers : style.persistent = true) :
    enactConnection env (fuel + 1) h src dest style mode reversed =
      match mode with
      | YARP_ENACT_CONNECT =>
        some (if env.connectPortToPortPersistently
            (h ++ [.enactConnection src dest style mode reversed]) src dest style then 0 else 1,
          [.enactConnection src dest style mode reversed,
            .connectPortToPortPersistently src dest style])
      | YARP_ENACT_DISCONNECT =>
        some (if env.disconnectPortToPortPersistently
            (h ++ [.enactConnection src dest style mode reversed]) src dest style then 0 else 1,
          [.enactConnection src dest style mode reversed,
            .disconnectPortToPortPersistently src dest style])
      | YARP_ENACT_EXISTS => some (1, [.enactConnection src dest style mode reversed]) := by
  unfold enactConnection
  cases mode <;> simp [hpers]

theorem filter_lookups (l : List Event) (hl : ∀ e ∈ l, e.isLookup = true) :
    l.filter Event.isWrite = [] ∧ l.filter Event.isPersistentOp = [] ∧
    l.filter Event.isEnact = [] := by
  refine ⟨?_, ?_, ?_⟩ <;>
  · rw [List.filter_eq_nil_iff]
    intro e he
    have := isLookup_not_action e (hl e he)
    simp [this]

/-- The run of `metaConnect` on the persistent path, up to the call of `enactConnection`. -/
theorem metaConnect_persistent (env : Env) (fuel : Nat) (h : List Event) (src dest : Str)
    (style : ContactStyle) (mode : Mode)
    (hspace : dest.contains ' ' = false ∧ src.contains ' ' = false)
    (hsrc : isValidPortName (env.fromString src).name = true)
    (hdest : isValidPortName (env.fromString dest).name = true)
    (hpers : style.persistent = true) :
    ∃ p t, probeEndpoints env h src dest style mode = (some p, t) ∧
      (p.staticSrc.carrier ≠ strTopic → p.staticDest.carrier ≠ strTopic →
        ∃ pre, (∀ e ∈ pre, e.isLookup = true) ∧
          metaConnect env fuel h src dest style mode =
            Option.map (fun r => (r.1, pre ++ r.2))
              (enactConnection env fuel (h ++ pre) p.staticSrc (env.fromString dest)
                (chosenStyle p style) mode false)) := by
  obtain ⟨p, t, hprobe, htop, hcons, hst, hdt⟩ :=
    probeEndpoints_persistent env h src dest style mode hspace hsrc hdest hpers
  refine ⟨p, t, hprobe, fun hs hd => ?_⟩
  have hst' : p.srcIsTopic = false := by rw [hst]; simpa using hs
  have hdt' : p.destIsTopic = false := by rw [hdt]; simpa using hd
  have hconf : carrierConflict (selectedStyle p style) p.carrierConstraint = false := by
    rw [hcons]; exact carrierConflict_nil _
  obtain ⟨tc, htc, hdir⟩ := directConnection_topical env fuel (h ++ t) src dest p.staticSrc
    p.staticDest (chosenStyle p style) mode p.srcIsCompetent p.destIsCompetent
  have hlook := probeEndpoints_events env h src dest style mode
  rw [hprobe] at hlook
  refine ⟨t ++ tc, ?_, ?_⟩
  · intro e he
    rcases List.mem_append.1 he with hm | hm
    · exact hlook e hm
    · exact htc e hm
  · rw [metaConnect_direct env fuel h src dest style mode p t hprobe hst' hdt' hconf, htop, hdir,
      List.append_assoc]
    cases enactConnection env fuel (h ++ (t ++ tc)) p.staticSrc (env.fromString dest)
      (chosenStyle p style) mode false <;> simp

/-- C6. For every CONNECT or DISCONNECT request with `style.persistent` set and
syntactically valid names, the probe of the endpoints succeeds, and when neither static
endpoint has the carrier `topic`, `metaConnect` returns with a trace that holds exactly one
call of the persistent API of the name space (`connectPortToPortPersistently` for CONNECT,
`disconnectPortToPortPersistently` for DISCONNECT), made last, and no admin RPC; the result
is 0 exactly when that call returns true. -/
theorem persistent_bypass (env : Env) (fuel : Nat) (h : List Event) (src dest : Str)
    (style : ContactStyle) (mode : Mode)
    (hspace : dest.contains ' ' = false ∧ src.contains ' ' = false)
    (hsrc : isValidPortName (env.fromString src).name = true)
    (hdest : isValidPortName (env.fromString dest).name = true)
    (hpers : style.persistent = true) :
    ∃ p t, probeEndpoints env h src dest style mode = (some p, t) ∧
      (p.staticSrc.carrier ≠ strTopic → p.staticDest.carrier ≠ strTopic →
        (mode = YARP_ENACT_CONNECT →
          ∃ r pre st,
            metaConnect env (fuel + 1) h src dest style mode =
              some (r, pre ++
                [.connectPortToPortPersistently p.staticSrc (env.fromString dest) st]) ∧
            (pre ++ [Event.connectPortToPortPersistently p.staticSrc (env.fromString dest)
                st]).filter Event.isPersistentOp =
              [.connectPortToPortPersistently p.staticSrc (env.fromString dest) st] ∧
            (pre ++ [Event.connectPortToPortPersistently p.staticSrc (env.fromString dest)
                st]).filter Event.isWrite = [] ∧
            (r = 0 ↔ env.connectPortToPortPersistently (h ++ pre) p.staticSrc
              (env.fromString dest) st = true)) ∧
        (mode = YARP_ENACT_DISCONNECT →
          ∃ r pre st,
            metaConnect env (fuel + 1) h src dest style mode =
              some (r, pre ++
                [.disconnectPortToPortPersistently p.staticSrc (env.fromString dest) st]) ∧
            (pre ++ [Event.disconnectPortToPortPersistently p.staticSrc (env.fromString dest)
                st]).filter Event.isPersistentOp =
              [.disconnectPortToPortPersistently p.staticSrc (env.fromString dest) st] ∧
            (pre ++ [Event.disconnectPortToPortPersistently p.staticSrc (env.fromString dest)
                st]).filter Event.isWrite = [] ∧
            (r = 0 ↔ env.disconnectPortToPortPersistently (h ++ pre) p.staticSrc
              (env.fromString dest) st = true))) := by
  obtain ⟨p, t, hprobe, hrun⟩ :=
    metaConnect_persistent env (fuel + 1) h src dest style mode hspace hsrc hdest hpers
  refine ⟨p, t, hprobe, fun hs hd => ?_⟩
  obtain ⟨pre, hpre, hmeta⟩ := hrun hs hd
  have hp : (chosenStyle p style).persistent = true := by
    rw [chosenStyle_persistent, hpers]
  rw [enactConnection_persistent env fuel (h ++ pre) _ _ _ mode false hp] at hmeta
  obtain ⟨fw, fp, _⟩ := filter_lookups pre hpre
  constructor
  · intro hm
    subst hm
    refine ⟨if env.connectPortToPortPersistently
        (h ++ pre ++ [.enactConnection p.staticSrc (env.fromString dest) (chosenStyle p style)
          YARP_ENACT_CONNECT false]) p.staticSrc (env.fromString dest) (chosenStyle p style)
        then 0 else 1,
      pre ++ [.enactConnection p.staticSrc (env.fromString dest) (chosenStyle p style)
        YARP_ENACT_CONNECT false], chosenStyle p style, ?_, ?_, ?_, ?_⟩
    · rw [hmeta]; simp
    · simp [List.filter_append, fp, Event.isPersistentOp]
    · simp [List.filter_append, fw, Event.isWrite]
    · rw [← List.append_assoc]
      split_ifs with hok
      · exact ⟨fun _ => hok, fun _ => rfl⟩
      · exact ⟨fun h0 => absurd h0 (by decide), fun h1 => absurd h1 hok⟩
  · intro hm
    subst hm
    refine ⟨if env.disconnectPortToPortPersistently
        (h ++ pre ++ [.enactConnection p.staticSrc (env.fromString dest) (chosenStyle p style)
          YARP_ENACT_DISCONNECT false]) p.staticSrc (env.fromString dest) (chosenStyle p style)
        then 0 else 1,
      pre ++ [.enactConnection p.staticSrc (env.fromString dest) (chosenStyle p style)
        YARP_ENACT_DISCONNECT false], chosenStyle p style, ?_, ?_, ?_, ?_⟩
    · rw [hmeta]; simp
    · simp [List.filter_append, fp, Event.isPersistentOp]
    · simp [List.filter_append, fw, Event.isWrite]
    · rw [← List.append_assoc]
      split_ifs with hok
      · exact ⟨fun _ => hok, fun _ => rfl⟩
      · exact ⟨fun h0 => absurd h0 (by decide), fun h1 => absurd h1 hok⟩

/-- Scenario E3 in the example world: a persistent disconnect of `/a` from `/b`. -/
theorem persistent_bypass_witness :
    ∃ r pre st,
      metaConnect exEnv 1 [] "/a".toList "/b".toList exPersistentStyle YARP_ENACT_DISCONNECT =
        some (r, pre ++
          [.disconnectPortToPortPersistently exPortA (exFromString "/b".toList) st]) ∧
      (pre ++ [Event.disconnectPortToPortPersistently exPortA (exFromString "/b".toList)
          st]).filter Event.isPersistentOp =
        [.disconnectPortToPortPersistently exPortA (exFromString "/b".toList) st] ∧
      (pre ++ [Event.disconnectPortToPortPersistently exPortA (exFromString "/b".toList)
          st]).filter Event.isWrite = [] ∧
      (r = 0 ↔ exEnv.disconnectPortToPortPersistently ([] ++ pre) exPortA
        (exFromString "/b".toList) st = true) := by
  obtain ⟨p, t, hp, hrun⟩ := persistent_bypass exEnv 0 [] "/a".toList "/b".toList
    exPersistentStyle YARP_ENACT_DISCONNECT (by decide) (by decide) (by decide) rfl
  have hv : probeEndpoints exEnv [] "/a".toList "/b".toList exPersistentStyle
      YARP_ENACT_DISCONNECT =
      (some exProbedPersistent, [.queryName "/a".toList, .queryName "/b".toList]) := by
    decide
  rw [hv] at hp
  simp only [Prod.mk.injEq, Option.some.injEq] at hp
  obtain ⟨rfl, rfl⟩ := hp
  exact (hrun (by decide) (by decide)).2 rfl

/-- C7. For every EXISTS request with `style.persistent` set and valid names, the probe of
the endpoints succeeds, and when neither static endpoint is a topic, `metaConnect` returns a
non-zero result after a trace without any persistent name-space operation and without any
admin RPC; `NetworkBase::isConnected` returns false. -/
theorem persistent_exists_unsupported (env : Env) (fuel : Nat) (h : List Event)
    (src dest : Str) (style : ContactStyle)
    (hspace : dest.contains ' ' = false ∧ src.contains ' ' = false)
    (hsrc : isValidPortName (env.fromString src).name = true)
    (hdest : isValidPortName (env.fromString dest).name = true)
    (hpers : style.persistent = true) :
    ∃ p t, probeEndpoints env h src dest style YARP_ENACT_EXISTS = (some p, t) ∧
      (p.staticSrc.carrier ≠ strTopic → p.staticDest.carrier ≠ strTopic →
        ∃ r tr,
          metaConnect env (fuel + 1) h src dest style YARP_ENACT_EXISTS = some (r, tr) ∧
          r ≠ 0 ∧
          tr.filter Event.isPersistentOp = [] ∧
          tr.filter Event.isWrite = [] ∧
          isConnected env (fuel + 1) h src dest style = some (false, tr)) := by
  obtain ⟨p, t, hprobe, hrun⟩ :=
    metaConnect_persistent env (fuel + 1) h src dest style YARP_ENACT_EXISTS hspace hsrc hdest
      hpers
  refine ⟨p, t, hprobe, fun hs hd => ?_⟩
  obtain ⟨pre, hpre, hmeta⟩ := hrun hs hd
  have hp : (chosenStyle p style).persistent = true := by
    rw [chosenStyle_persistent, hpers]
  rw [enactConnection_persistent env fuel (h ++ pre) _ _ _ YARP_ENACT_EXISTS false hp] at hmeta
  obtain ⟨fw, fp, _⟩ := filter_lookups pre hpre
  refine ⟨1, pre ++ [.enactConnection p.staticSrc (env.fromString dest) (chosenStyle p style)
    YARP_ENACT_EXISTS false], ?_, by decide, ?_, ?_, ?_⟩
  · rw [hmeta]; simp
  · simp [List.filter_append, fp, Event.isPersistentOp]
  · simp [List.filter_append, fw, Event.isWrite]
  · unfold isConnected
    rw [hmeta]
    simp

/-- In the example world: a persistent EXISTS request for `/a` and `/b`. -/
theorem persistent_exists_unsupported_witness :
    ∃ r tr,
      metaConnect exEnv 1 [] "/a".toList "/b".toList exPersistentStyle YARP_ENACT_EXISTS =
        some (r, tr) ∧
      r ≠ 0 ∧
      tr.filter Event.isPersistentOp = [] ∧
      tr.filter Event.isWrite = [] ∧
      isConnected exEnv 1 [] "/a".toList "/b".toList exPersistentStyle = some (false, tr) := by
  obtain ⟨p, t, hp, hrun⟩ := persistent_exists_unsupported exEnv 0 [] "/a".toList "/b".toList
    exPersistentStyle (by decide) (by decide) (by decide) rfl
  have hv : probeEndpoints exEnv [] "/a".toList "/b".toList exPersistentStyle
      YARP_ENACT_EXISTS =
      (some exProbedPersistent, [.queryName "/a".toList, .queryName "/b".toList]) := by
    decide
  rw [hv] at hp
  simp only [Prod.mk.injEq, Option.some.injEq] at hp
  obtain ⟨rfl, rfl⟩ := hp
  exact hrun (by decide) (by decide)

/-! ### C8: the compensating disconnect -/

theorem noteDud_events (env : Env) (h : List Event) (c : Contact) :
    ∀ e ∈ (noteDud env h c).2, e.isWrite = false ∧ e.isEnact = false := by
  unfold noteDud
  split <;> simp [Event.isWrite, Event.isEnact]

/-- The calls of the `add` or `del` dialogue: one admin RPC carrying the command, possibly
after a name query and possibly followed by the calls of `noteDud`. -/
theorem enactAct_shape (env : Env) (h : List Event) (src dest : Contact) (style : ContactStyle)
    (mode : Mode) :
    ∃ c2 pre post,
      (enactAct env h src dest style mode).2 =
        pre ++ [.write c2 (actCommand env dest style mode) (rpcStyle env style)] ++ post ∧
      (pre ++ post).filter Event.isEnact = [] ∧
      (pre ++ post).filter Event.isWrite = [] ∧
      (c2 = src ∨ (src.port ≤ 0 ∧ c2 = queryName env h src.name)) := by
  have hq : ∀ e ∈ (if src.port ≤ 0 then [Event.queryName src.name] else []),
      e.isWrite = false ∧ e.isEnact = false := by
    intro e he
    split_ifs at he <;> simp_all [Event.isWrite, Event.isEnact]
  have hc2 : (if src.port ≤ 0 then queryName env h src.name else src) = src ∨
      (src.port ≤ 0 ∧
        (if src.port ≤ 0 then queryName env h src.name else src) = queryName env h src.name) := by
    split_ifs with hp
    · exact Or.inr ⟨hp, rfl⟩
    · exact Or.inl rfl
  have key : ∀ post : List Event, (∀ e ∈ post, e.isWrite = false ∧ e.isEnact = false) →
      ((if src.port ≤ 0 then [Event.queryName src.name] else []) ++ post).filter
          Event.isEnact = [] ∧
      ((if src.port ≤ 0 then [Event.queryName src.name] else []) ++ post).filter
          Event.isWrite = [] := by
    intro post hpost
    constructor <;>
    · rw [List.filter_eq_nil_iff]
      intro e he
      rcases List.mem_append.1 he with hm | hm
      · simp [(hq e hm).1, (hq e hm).2]
      · simp [(hpost e hm).1, (hpost e hm).2]
  unfold enactAct
  simp only []
  split
  · exact ⟨_, _, _, rfl, (key _ (noteDud_events _ _ _)).1, (key _ (noteDud_events _ _ _)).2, hc2⟩
  · have hite : ∀ (c : Prop) [Decidable c] (l : List Event),
        (∀ e ∈ l, e.isWrite = false ∧ e.isEnact = false) →
        ∀ e ∈ (if c then l else []), e.isWrite = false ∧ e.isEnact = false := by
      intro c _ l hl e he
      by_cases hc : c
      · rw [if_pos hc] at he
        exact hl e he
      · rw [if_neg hc] at he
        simp at he
    exact ⟨_, _, _, rfl, (key _ (hite _ _ (noteDud_events _ _ _))).1,
      (key _ (hite _ _ (noteDud_events _ _ _))).2, hc2⟩

/-- C8 (counterexample). A CONNECT enactment with `reversed = false` whose `list` probe is
answered with a connection that is connectionless and push: the calls are the entry, the
probe and the `add` command; no compensating enactment is made. -/
theorem no_compensation_for_push_when_not_reversed :
    exEnvUdp.write [.enactConnection exPortA (exFromString "/b".toList) exUdpStyle
        YARP_ENACT_CONNECT false] exPortA (listCommand (exFromString "/b".toList) false)
        (rpcStyle exEnvUdp exUdpStyle) =
      some ⟨some "udp".toList, some true, some true, true, 0, []⟩ ∧
    enactConnection exEnvUdp 3 [] exPortA (exFromString "/b".toList) exUdpStyle
        YARP_ENACT_CONNECT false =
      some (0,
        [.enactConnection exPortA (exFromString "/b".toList) exUdpStyle YARP_ENACT_CONNECT false,
         .write exPortA [.vocab "list".toList, .vocab "out".toList, .string "/b".toList] exRpc,
         .write exPortA [.vocab "add".toList, .string "udp://b".toList] exRpc]) := by
  decide

/-! The amended statement of C8 is proved in the last section of the file, after the lemmas
on runs that return. -/

/-! ### C9: balanced sequences of `initMinimum` and `finiMinimum` -/

theorem initMinimum_counter (s : LibState) :
    (initMinimum s).1.yarp_is_initialized = s.yarp_is_initialized + 1 := by
  unfold initMinimum
  split <;> rfl

theorem finiMinimum_counter (s : LibState) :
    (finiMinimum s).1.yarp_is_initialized =
      if 0 < s.yarp_is_initialized then s.yarp_is_initialized - 1
      else s.yarp_is_initialized := by
  unfold finiMinimum removeNameSpace
  by_cases h1 : s.yarp_is_initialized = 1
  · simp [h1]
  · by_cases h0 : 0 < s.yarp_is_initialized <;> simp [h1, h0]

/-- The counter after a sequence of `initMinimum` and `finiMinimum` calls is never below
the balance of the calls, and equals it exactly when no `finiMinimum` call was made while
the counter was not positive. -/
theorem runCalls_counter (calls : List LifeCall) :
    ∀ s : LibState, LifeCall.autoInit ∉ calls →
      (finiWhilePositive calls s = true →
        (runCalls calls s).yarp_is_initialized =
          s.yarp_is_initialized + calls.count .init - calls.count .fini) ∧
      (finiWhilePositive calls s = false →
        s.yarp_is_initialized + calls.count .init - calls.count .fini <
          (runCalls calls s).yarp_is_initialized) ∧
      s.yarp_is_initialized + calls.count .init - calls.count .fini ≤
        (runCalls calls s).yarp_is_initialized := by
  induction calls with
  | nil =>
    intro s _
    simp [runCalls, finiWhilePositive]
  | cons c cs ih =>
    intro s hno
    have hno' : LifeCall.autoInit ∉ cs := fun hm => hno (List.mem_cons_of_mem _ hm)
    cases c with
    | autoInit => exact absurd (List.mem_cons_self _ _) hno
    | init =>
      obtain ⟨h1, h2, h3⟩ := ih (LifeCall.apply .init s) hno'
      have hc : (LifeCall.apply .init s).yarp_is_initialized = s.yarp_is_initialized + 1 :=
        initMinimum_counter s
      have hcnt1 : (LifeCall.init :: cs).count .init = cs.count .init + 1 := by simp
      have hcnt2 : (LifeCall.init :: cs).count .fini = cs.count .fini := by simp
      simp only [runCalls, finiWhilePositive, hcnt1, hcnt2]
      rw [hc] at h1 h2 h3
      refine ⟨fun hp => ?_, fun hp => ?_, ?_⟩
      · have := h1 (by simpa using hp)
        push_cast
        omega
      · have := h2 (by simpa using hp)
        push_cast
        omega
      · push_cast
        omega
    | fini =>
      obtain ⟨h1, h2, h3⟩ := ih (LifeCall.apply .fini s) hno'
      have hc : (LifeCall.apply .fini s).yarp_is_initialized =
          if 0 < s.yarp_is_initialized then s.yarp_is_initialized - 1
          else s.yarp_is_initialized := finiMinimum_counter s
      have hcnt1 : (LifeCall.fini :: cs).count .init = cs.count .init := by simp
      have hcnt2 : (LifeCall.fini :: cs).count .fini = cs.count .fini + 1 := by simp
      simp only [runCalls, finiWhilePositive, hcnt1, hcnt2]
      rw [hc] at h1 h2 h3
      by_cases hpos : 0 < s.yarp_is_initialized
      · simp only [hpos, if_true] at h1 h2 h3
        refine ⟨fun hp => ?_, fun hp => ?_, ?_⟩
        · have := h1 (by simpa [hpos] using hp)
          push_cast
          omega
        · have := h2 (by simpa [hpos] using hp)
          push_cast
          omega
        · push_cast
          omega
      · simp only [hpos, if_false] at h1 h2 h3
        refine ⟨fun hp => ?_, fun _ => ?_, ?_⟩
        · simp [hpos] at hp
        · push_cast
          omega
        · push_cast
          omega

/-- C9 (counterexample). One `finiMinimum` call followed by one `initMinimum` call, from the
state at program start: the counter goes from 0 to 1 and `initialized()` from false to
true. -/
theorem fini_then_init_changes_counter :
    [LifeCall.fini, LifeCall.init].count .init = 1 ∧
    [LifeCall.fini, LifeCall.init].count .fini = 1 ∧
    LibState.start.yarp_is_initialized = 0 ∧
    (runCalls [.fini, .init] LibState.start).yarp_is_initialized = 1 ∧
    initialized LibState.start = false ∧
    initialized (runCalls [.fini, .init] LibState.start) = true := by
  decide

/-- C9 (amended). For every sequence made of N `initMinimum` and N `finiMinimum` calls,
started from any state: the counter after the sequence equals the counter before it if and
only if every `finiMinimum` call of the sequence is made while the counter is positive; in
that case `initialized()` is unchanged as well. -/
theorem init_fini_balanced (calls : List LifeCall) (s : LibState)
    (hcalls : LifeCall.autoInit ∉ calls)
    (hbalanced : calls.count .init = calls.count .fini) :
    ((runCalls calls s).yarp_is_initialized = s.yarp_is_initialized ↔
      finiWhilePositive calls s = true) ∧
    (finiWhilePositive calls s = true → initialized (runCalls calls s) = initialized s) := by
  obtain ⟨h1, h2, _⟩ := runCalls_counter calls s hcalls
  have key : finiWhilePositive calls s = true →
      (runCalls calls s).yarp_is_initialized = s.yarp_is_initialized := by
    intro hp
    have := h1 hp
    rw [hbalanced] at this
    omega
  refine ⟨⟨fun heq => ?_, key⟩, fun hp => ?_⟩
  · by_contra hp
    have := h2 (by simpa using hp)
    rw [hbalanced] at this
    omega
  · unfold initialized
    rw [key hp]

/-- Three `initMinimum` and three `finiMinimum` calls from a counter of 1. -/
theorem init_fini_balanced_witness :
    ((runCalls [.init, .fini, .init, .init, .fini, .fini] ⟨1, false, true⟩).yarp_is_initialized =
        (⟨1, false, true⟩ : LibState).yarp_is_initialized ↔
      finiWhilePositive [.init, .fini, .init, .init, .fini, .fini] ⟨1, false, true⟩ = true) ∧
    (finiWhilePositive [.init, .fini, .init, .init, .fini, .fini] ⟨1, false, true⟩ = true →
      initialized (runCalls [.init, .fini, .init, .init, .fini, .fini] ⟨1, false, true⟩) =
        initialized ⟨1, false, true⟩) :=
  init_fini_balanced [.init, .fini, .init, .init, .fini, .fini] ⟨1, false, true⟩
    (by decide) (by decide)

/-! ### C10: scenario E1, a plain connection over `tcp` -/

theorem probeSide_of_competent (env : Env) (h : List Event) (static : Contact) (c : Str)
    (car : Carrier) (h1 : static.carrier ≠ strTopic) (h2 : static.carrier ≠ [])
    (hchoose : env.chooseCarrier h (cstr static.carrier) = some car)
    (hboot : car.getBootstrapCarrierName ≠ []) :
    probeSide env h static false c =
      (⟨true, false, c⟩, [.chooseCarrier (cstr static.carrier)]) := by
  unfold probeSide
  simp [h1, h2, hchoose, hboot]

/-- The run of `enactConnection` when the `list` probe is answered without a `carrier`
field, in mode CONNECT or DISCONNECT: entry, probe, then the `add` or `del` dialogue. -/
theorem enactConnection_no_connection (env : Env) (fuel : Nat) (h : List Event)
    (src dest : Contact) (style : ContactStyle) (mode : Mode) (reversed : Bool) (reply : Reply)
    (hpers : style.persistent = false) (hmode : mode ≠ YARP_ENACT_EXISTS)
    (hprobe : env.write (h ++ [.enactConnection src dest style mode reversed]) src
      (listCommand dest reversed) (rpcStyle env style) = some reply)
    (hnone : reply.carrier = none) :
    enactConnection env (fuel + 1) h src dest style mode reversed =
      some ((enactAct env
          (h ++ [.enactConnection src dest style mode reversed,
            .write src (listCommand dest reversed) (rpcStyle env style)]) src dest style mode).1,
        [.enactConnection src dest style mode reversed,
          .write src (listCommand dest reversed) (rpcStyle env style)] ++
        (enactAct env
          (h ++ [.enactConnection src dest style mode reversed,
            .write src (listCommand dest reversed) (rpcStyle env style)]) src dest style
            mode).2) := by
  unfold enactConnection
  simp only [hpers, hprobe, hnone, hmode, Bool.false_eq_true, if_false]

theorem chosenStyle_tcp (p : Probed) (style : ContactStyle)
    (hs : p.dynamicSrc.carrier = []) (hd : p.dynamicDest.carrier = [])
    (hstyle : style.carrier = []) (hc : p.carrierConstraint = [])
    (hb : p.staticDest.carrier = strTcp) :
    chosenStyle p style = { style with carrier := strTcp } := by
  have h1 : selectedStyle p style = style := by
    simp [selectedStyle, userCarrier, hs, hd]
  have h2 : constraintCarrier p.dynamicSrc p.dynamicDest p.carrierConstraint style = style := by
    simp [constraintCarrier, hc]
  have h3 : extractCarrierNameOnly ([] : Str) ≠ extractCarrierNameOnly strTcp := by decide
  have h4 : destinationCarrier p.dynamicSrc p.staticSrc p.staticDest style =
      { style with carrier := strTcp } := by
    simp [destinationCarrier, hstyle, hb, hs, h3]
  have h5 : strTcp ≠ ([] : Str) := by decide
  unfold chosenStyle chooseStyleCarrier
  rw [h1, h2, h4]
  simp [sourceCarrier, h5]

/-- C10. Scenario E1: a CONNECT between two names given without carriers, under a
non-persistent style that names no carrier, where both names resolve to valid endpoints `a`
and `b` whose carrier is `tcp`, the registry knows `tcp` as competent and push, and the
`list` probe is answered without a `carrier` field.  Then `metaConnect` returns; the only
enactment is `enactConnection(a, fromString(dest), style with carrier tcp, CONNECT, false)`,
so the chosen carrier is `tcp` and the static source initiates; and the admin RPCs are, in
this order, the `list out` probe and the `add` command naming the destination with carrier
`tcp`, both addressed to `a`. -/
theorem scenario_plain_tcp_connect (env : Env) (fuel : Nat) (h : List Event) (src dest : Str)
    (style : ContactStyle) (a b : Contact) (t1 : List Event) (car : Carrier) (reply : Reply)
    (hspace : dest.contains ' ' = false ∧ src.contains ' ' = false)
    (hsrcName : isValidPortName (env.fromString src).name = true)
    (hdestName : isValidPortName (env.fromString dest).name = true)
    (hsrcCarrier : (env.fromString src).carrier = [])
    (hdestCarrier : (env.fromString dest).carrier = [])
    (hstyle : style.carrier = []) (hpers : style.persistent = false)
    (hresolve : staticContacts env h (env.fromString src) (env.fromString dest) style
      YARP_ENACT_CONNECT (isTopical (env.fromString src) (env.fromString dest) style) =
        (some (a, b), t1))
    (ha : a.isValid = true ∧ a.carrier = strTcp)
    (hb : b.isValid = true ∧ b.carrier = strTcp)
    (htcp : ∀ hist, env.chooseCarrier hist strTcp = some car)
    (hcompetent : car.getBootstrapCarrierName ≠ []) (hpush : car.isPush = true)
    (hlist : env.write
      (h ++ (t1 ++ [.chooseCarrier strTcp, .chooseCarrier strTcp, .chooseCarrier strTcp,
        .enactConnection a (env.fromString dest) { style with carrier := strTcp }
          YARP_ENACT_CONNECT false]))
      a (listCommand (env.fromString dest) false)
      (rpcStyle env { style with carrier := strTcp }) = some reply)
    (hnone : reply.carrier = none) :
    ∃ r tr,
      metaConnect env (fuel + 1) h src dest style YARP_ENACT_CONNECT = some (r, tr) ∧
      tr.filter Event.isEnact =
        [.enactConnection a (env.fromString dest) { style with carrier := strTcp }
          YARP_ENACT_CONNECT false] ∧
      tr.filter Event.isWrite =
        [.write a [.vocab "list".toList, .vocab "out".toList,
            .string (cstr (env.fromString dest).name)]
            (rpcStyle env { style with carrier := strTcp }),
         .write a [.vocab "add".toList,
            .string (env.toString ((env.fromString dest).setCarrier strTcp))]
            (rpcStyle env { style with carrier := strTcp })] := by
  have htop : isTopical (env.fromString src) (env.fromString dest) style = false := by
    have ht : ([] : Str) ≠ strTopic := by decide
    simp [isTopical, hpers, hsrcCarrier, hdestCarrier, ht]
  have hcs : cstr strTcp = strTcp := by decide
  have hnt : strTcp ≠ strTopic := by decide
  have hne : strTcp ≠ ([] : Str) := by decide
  have hpa : probeSide env (h ++ t1) a false [] =
      (⟨true, false, []⟩, [.chooseCarrier strTcp]) := by
    have := probeSide_of_competent env (h ++ t1) a [] car (by rw [ha.2]; exact hnt)
      (by rw [ha.2]; exact hne) (by rw [ha.2, hcs]; exact htcp _) hcompetent
    rw [ha.2, hcs] at this
    exact this
  have hpb : probeSide env (h ++ t1 ++ [.chooseCarrier strTcp]) b false [] =
      (⟨true, false, []⟩, [.chooseCarrier strTcp]) := by
    have := probeSide_of_competent env (h ++ t1 ++ [.chooseCarrier strTcp]) b [] car
      (by rw [hb.2]; exact hnt) (by rw [hb.2]; exact hne) (by rw [hb.2, hcs]; exact htcp _)
      hcompetent
    rw [hb.2, hcs] at this
    exact this
  have hprobe : probeEndpoints env h src dest style YARP_ENACT_CONNECT =
      (some ⟨env.fromString src, env.fromString dest, a, b, false, true, false, true, false, []⟩,
        t1 ++ [.chooseCarrier strTcp] ++ [.chooseCarrier strTcp]) := by
    unfold probeEndpoints
    rw [if_neg (by rw [hspace.1, hspace.2]; simp)]
    simp only []
    rw [if_neg (by simp [hsrcName]), if_neg (by simp [hdestName]), hresolve, htop]
    simp only [hpa, hpb]
  have hchosen := chosenStyle_tcp
    ⟨env.fromString src, env.fromString dest, a, b, false, true, false, true, false, []⟩ style
    hsrcCarrier hdestCarrier hstyle rfl hb.2
  have hmeta := metaConnect_direct env (fuel + 1) h src dest style YARP_ENACT_CONNECT _ _ hprobe
    rfl rfl (carrierConflict_nil _)
  rw [hchosen] at hmeta
  have hdir := directConnection_source env (fuel + 1)
    (h ++ (t1 ++ [.chooseCarrier strTcp] ++ [.chooseCarrier strTcp])) src dest a b
    { style with carrier := strTcp } YARP_ENACT_CONNECT true true false car hnt
    (by rw [hcs]; exact htcp _) rfl hpush
  simp only [hcs] at hdir
  rw [hdir] at hmeta
  have hlist' : env.write
      (h ++ (t1 ++ [.chooseCarrier strTcp] ++ [.chooseCarrier strTcp]) ++
        [.chooseCarrier strTcp] ++
        [.enactConnection a (env.fromString dest) { style with carrier := strTcp }
          YARP_ENACT_CONNECT false])
      a (listCommand (env.fromString dest) false)
      (rpcStyle env { style with carrier := strTcp }) = some reply := by
    simpa [List.append_assoc] using hlist
  have hen := enactConnection_no_connection env fuel
    (h ++ (t1 ++ [.chooseCarrier strTcp] ++ [.chooseCarrier strTcp]) ++ [.chooseCarrier strTcp])
    a (env.fromString dest) { style with carrier := strTcp } YARP_ENACT_CONNECT false reply
    hpers (by decide) hlist' hnone
  rw [hen] at hmeta
  obtain ⟨c2, pre, post, hshape, hfe, hfw, hc2⟩ := enactAct_shape env
    (h ++ (t1 ++ [.chooseCarrier strTcp] ++ [.chooseCarrier strTcp]) ++ [.chooseCarrier strTcp] ++
      [.enactConnection a (env.fromString dest) { style with carrier := strTcp }
          YARP_ENACT_CONNECT false,
        .write a (listCommand (env.fromString dest) false)
          (rpcStyle env { style with carrier := strTcp })])
    a (env.fromString dest) { style with carrier := strTcp } YARP_ENACT_CONNECT
  have hport : ¬ a.port ≤ 0 := by
    have := ha.1
    unfold Contact.isValid at this
    simp at this
    omega
  have hc2' : c2 = a := by
    rcases hc2 with hc | hc
    · exact hc
    · exact absurd hc.1 hport
  subst hc2'
  have hact : actCommand env (env.fromString dest) { style with carrier := strTcp }
      YARP_ENACT_CONNECT =
      [.vocab "add".toList, .string (env.toString ((env.fromString dest).setCarrier strTcp))] := by
    simp [actCommand, hne]
  rw [hshape, hact] at hmeta
  have hl := staticContacts_events env h (env.fromString src) (env.fromString dest) style
    YARP_ENACT_CONNECT (isTopical (env.fromString src) (env.fromString dest) style)
  rw [hresolve] at hl
  obtain ⟨ft1w, _, ft1e⟩ := filter_lookups t1 hl
  simp only [Option.map_some'] at hmeta
  rw [List.filter_append] at hfe hfw
  obtain ⟨hpe, hqe⟩ := List.append_eq_nil.1 hfe
  obtain ⟨hpw, hqw⟩ := List.append_eq_nil.1 hfw
  have e1 : ∀ x, Event.isEnact (.chooseCarrier x) = false := fun _ => rfl
  have e2 : ∀ x y z, Event.isEnact (.write x y z) = false := fun _ _ _ => rfl
  have e3 : ∀ x y z u v, Event.isEnact (.enactConnection x y z u v) = true :=
    fun _ _ _ _ _ => rfl
  have w1 : ∀ x, Event.isWrite (.chooseCarrier x) = false := fun _ => rfl
  have w2 : ∀ x y z, Event.isWrite (.write x y z) = true := fun _ _ _ => rfl
  have w3 : ∀ x y z u v, Event.isWrite (.enactConnection x y z u v) = false :=
    fun _ _ _ _ _ => rfl
  refine ⟨_, _, hmeta, ?_, ?_⟩
  · simp only [List.filter_append, List.filter_cons, List.filter_nil, ft1e, hpe, hqe, e1, e2, e3,
      List.append_nil, List.nil_append, if_true, Bool.false_eq_true, if_false,
      List.cons_append]
  · simp only [List.filter_append, List.filter_cons, List.filter_nil, ft1w, hpw, hqw, w1, w2, w3,
      List.append_nil, List.nil_append, if_true, Bool.false_eq_true, if_false,
      List.cons_append, listCommand]

/-- Scenario E1 in the example world. -/
theorem scenario_plain_tcp_connect_witness :
    ∃ r tr,
      metaConnect exEnv 1 [] "/a".toList "/b".toList exStyle YARP_ENACT_CONNECT = some (r, tr) ∧
      tr.filter Event.isEnact =
        [.enactConnection exPortA (exEnv.fromString "/b".toList)
          { exStyle with carrier := strTcp } YARP_ENACT_CONNECT false] ∧
      tr.filter Event.isWrite =
        [.write exPortA [.vocab "list".toList, .vocab "out".toList,
            .string (cstr (exEnv.fromString "/b".toList).name)]
            (rpcStyle exEnv { exStyle with carrier := strTcp }),
         .write exPortA [.vocab "add".toList,
            .string (exEnv.toString ((exEnv.fromString "/b".toList).setCarrier strTcp))]
            (rpcStyle exEnv { exStyle with carrier := strTcp })] :=
  scenario_plain_tcp_connect exEnv 0 [] "/a".toList "/b".toList exStyle exPortA exPortB
    [.queryName "/a".toList, .queryName "/b".toList] exTcp exAck
    (by decide) (by decide) (by decide) rfl rfl rfl rfl (by decide) (by decide) (by decide)
    (fun _ => rfl) (by decide) rfl rfl rfl

/-! ### C11: the carrier chosen under a constraint -/

theorem constraintCarrier_carrier (dynamicSrc dynamicDest : Contact) (c : Str)
    (style : ContactStyle) (hc : c ≠ []) :
    (constraintCarrier dynamicSrc dynamicDest c style).carrier =
      (c ++ (if extractCarrierNameOnly dynamicSrc.carrier = extractCarrierNameOnly c then
          collectParams dynamicSrc else [])) ++
        (if extractCarrierNameOnly dynamicDest.carrier =
            extractCarrierNameOnly
              (c ++ (if extractCarrierNameOnly dynamicSrc.carrier = extractCarrierNameOnly c then
                collectParams dynamicSrc else [])) then
          collectParams dynamicDest else []) := by
  unfold constraintCarrier
  rw [if_pos hc]
  by_cases h1 : extractCarrierNameOnly dynamicSrc.carrier = extractCarrierNameOnly c
  · simp only [h1, if_true]
    by_cases h2 : extractCarrierNameOnly dynamicDest.carrier =
        extractCarrierNameOnly (c ++ collectParams dynamicSrc)
    · simp only [h2, if_true]
    · simp only [h2, if_false, List.append_nil]
  · simp only [h1, if_false, List.append_nil]
    by_cases h2 : extractCarrierNameOnly dynamicDest.carrier = extractCarrierNameOnly c
    · simp only [h2, if_true]
    · simp only [h2, if_false, List.append_nil]

theorem chooseStyleCarrier_of_carrier (dynamicSrc dynamicDest staticSrc staticDest : Contact)
    (c : Str) (style : ContactStyle)
    (hne : (constraintCarrier dynamicSrc dynamicDest c style).carrier ≠ []) :
    chooseStyleCarrier dynamicSrc dynamicDest staticSrc staticDest c style =
      constraintCarrier dynamicSrc dynamicDest c style := by
  unfold chooseStyleCarrier
  have h1 : destinationCarrier dynamicSrc staticSrc staticDest
      (constraintCarrier dynamicSrc dynamicDest c style) =
      constraintCarrier dynamicSrc dynamicDest c style := by
    unfold destinationCarrier
    rw [if_neg hne]
  rw [h1]
  unfold sourceCarrier
  rw [if_neg hne]

/-- C11. For every `metaConnect` call that passes the conflict check (after a successful
probe, with no topic side) with a non-empty carrier constraint, `metaConnect` goes on to the
direction decision with the chosen carrier equal to the constraint, followed by the
parameters of the source string's carrier when its bare name equals the bare name of the
constraint, followed by the parameters of the destination string's carrier when its bare
name equals the bare name of the carrier chosen so far.  In particular (scenario E2), with
the constraint `mjpeg`, no carrier on the source string and `mjpeg+in.stream` on the
destination string, the chosen carrier is `mjpeg+in.stream`. -/
theorem constraint_carrier_with_params (env : Env) (fuel : Nat) (h : List Event)
    (src dest : Str) (style : ContactStyle) (mode : Mode) (p : Probed) (t : List Event)
    (hprobe : probeEndpoints env h src dest style mode = (some p, t))
    (hsrcTopic : p.srcIsTopic = false) (hdestTopic : p.destIsTopic = false)
    (hconflict : carrierConflict (selectedStyle p style) p.carrierConstraint = false)
    (hconstraint : p.carrierConstraint ≠ []) :
    metaConnect env fuel h src dest style mode =
      Option.map (fun r => (r.1, t ++ r.2))
        (directConnection env fuel (h ++ t) src dest p.staticSrc p.staticDest
          (chosenStyle p style) mode p.srcIsCompetent p.destIsCompetent p.topical) ∧
    (chosenStyle p style).carrier =
      (p.carrierConstraint ++
        (if extractCarrierNameOnly (env.fromString src).carrier =
            extractCarrierNameOnly p.carrierConstraint then
          collectParams (env.fromString src) else [])) ++
        (if extractCarrierNameOnly (env.fromString dest).carrier =
            extractCarrierNameOnly
              (p.carrierConstraint ++
                (if extractCarrierNameOnly (env.fromString src).carrier =
                    extractCarrierNameOnly p.carrierConstraint then
                  collectParams (env.fromString src) else [])) then
          collectParams (env.fromString dest) else []) ∧
    (p.carrierConstraint = "mjpeg".toList → (env.fromString src).carrier = [] →
      (env.fromString dest).carrier = "mjpeg+in.stream".toList →
      (chosenStyle p style).carrier = "mjpeg+in.stream".toList) := by
  obtain ⟨hs, hd, _⟩ := probeEndpoints_dynamic env h src dest style mode p t hprobe
  have hform := constraintCarrier_carrier p.dynamicSrc p.dynamicDest p.carrierConstraint
    (selectedStyle p style) hconstraint
  have hne : (constraintCarrier p.dynamicSrc p.dynamicDest p.carrierConstraint
      (selectedStyle p style)).carrier ≠ [] := by
    rw [hform]
    intro hnil
    have h1 := (List.append_eq_nil.1 hnil).1
    exact hconstraint (List.append_eq_nil.1 h1).1
  have hchosen : (chosenStyle p style).carrier =
      (constraintCarrier p.dynamicSrc p.dynamicDest p.carrierConstraint
        (selectedStyle p style)).carrier := by
    unfold chosenStyle
    rw [chooseStyleCarrier_of_carrier _ _ _ _ _ _ hne]
  rw [hform, hs, hd] at hchosen
  refine ⟨metaConnect_direct env fuel h src dest style mode p t hprobe hsrcTopic hdestTopic
    hconflict, hchosen, ?_⟩
  intro hc hsrc hdest
  rw [hchosen, hc, hsrc]
  have e1 : collectParams (env.fromString dest) = "+in.stream".toList := by
    unfold collectParams
    rw [hdest]
    decide
  have e2 : extractCarrierNameOnly ([] : Str) ≠ extractCarrierNameOnly "mjpeg".toList := by
    decide
  rw [e1, hdest, if_neg e2]
  decide

/-- Scenario E2 in the example world: `/a` to `mjpeg+in.stream://cam`. -/
theorem constraint_carrier_with_params_witness :
    metaConnect exEnv 1 [] "/a".toList "mjpeg+in.stream://cam".toList exStyle
        YARP_ENACT_CONNECT =
      Option.map (fun r => (r.1, exLookupsCam ++ r.2))
        (directConnection exEnv 1 ([] ++ exLookupsCam) "/a".toList
          "mjpeg+in.stream://cam".toList exPortA exPortCam
          (chosenStyle exProbedCamStream exStyle) YARP_ENACT_CONNECT true false false) ∧
    (chosenStyle exProbedCamStream exStyle).carrier = "mjpeg+in.stream".toList :=
  have w := constraint_carrier_with_params exEnv 1 [] "/a".toList
    "mjpeg+in.stream://cam".toList exStyle YARP_ENACT_CONNECT exProbedCamStream exLookupsCam
    (by decide) rfl rfl (by decide) (by decide)
  ⟨w.1, w.2.2 rfl rfl rfl⟩

/-! ### C12 and C13: EXISTS mode -/

/-- The run of a non-persistent `enactConnection` in EXISTS mode (lines 178-217). -/
theorem enactConnection_exists (env : Env) (fuel : Nat) (h : List Event) (src dest : Contact)
    (style : ContactStyle) (reversed : Bool) (hpers : style.persistent = false) :
    enactConnection env (fuel + 1) h src dest style YARP_ENACT_EXISTS reversed =
      match env.write (h ++ [.enactConnection src dest style YARP_ENACT_EXISTS reversed]) src
          (listCommand dest reversed) (rpcStyle env style) with
      | none =>
        some (1, [.enactConnection src dest style YARP_ENACT_EXISTS reversed,
          .write src (listCommand dest reversed) (rpcStyle env style)] ++
          (noteDud env (h ++ [.enactConnection src dest style YARP_ENACT_EXISTS reversed,
            .write src (listCommand dest reversed) (rpcStyle env style)]) src).2)
      | some reply =>
        some (if reply.carrier = some style.carrier then 0 else 1,
          [.enactConnection src dest style YARP_ENACT_EXISTS reversed,
            .write src (listCommand dest reversed) (rpcStyle env style)]) := by
  unfold enactConnection
  simp only [hpers, Bool.false_eq_true, if_false, if_true]
  cases hw : env.write (h ++ [.enactConnection src dest style YARP_ENACT_EXISTS reversed]) src
      (listCommand dest reversed) (rpcStyle env style) with
  | none => rfl
  | some reply =>
    cases hc : reply.carrier with
    | none => simp [hc]
    | some c =>
      by_cases heq : c = style.carrier <;> simp [hc, heq]

/-- C12 (counterexample). An EXISTS enactment configured with `udp+send.portmonitor` whose
probe reports the carrier `udp`: the bare names are equal, yet the result is 1. -/
theorem exists_compares_whole_carrier :
    exEnvUdp.write [.enactConnection exPortA (exFromString "/b".toList) exUdpParamStyle
        YARP_ENACT_EXISTS false] exPortA (listCommand (exFromString "/b".toList) false)
        (rpcStyle exEnvUdp exUdpParamStyle) = some exUdpReply ∧
    exUdpReply.carrier = some "udp".toList ∧
    extractCarrierNameOnly "udp".toList = extractCarrierNameOnly exUdpParamStyle.carrier ∧
    enactConnection exEnvUdp 1 [] exPortA (exFromString "/b".toList) exUdpParamStyle
        YARP_ENACT_EXISTS false =
      some (1,
        [.enactConnection exPortA (exFromString "/b".toList) exUdpParamStyle YARP_ENACT_EXISTS
            false,
          .write exPortA [.vocab "list".toList, .vocab "out".toList, .string "/b".toList]
            exRpc]) := by
  decide

/-- C12 (amended). In EXISTS mode with a non-persistent style, when the reply to the `list`
probe contains a `carrier` field, `enactConnection` returns after the probe, and the result
is 0 if and only if the reported carrier is the same string as the configured
`style.carrier`, parameters included. -/
theorem exists_result (env : Env) (fuel : Nat) (h : List Event) (src dest : Contact)
    (style : ContactStyle) (reversed : Bool) (reply : Reply) (carrier : Str)
    (hpers : style.persistent = false)
    (hprobe : env.write (h ++ [.enactConnection src dest style YARP_ENACT_EXISTS reversed]) src
      (listCommand dest reversed) (rpcStyle env style) = some reply)
    (hcarrier : reply.carrier = some carrier) :
    ∃ r,
      enactConnection env (fuel + 1) h src dest style YARP_ENACT_EXISTS reversed =
        some (r, [.enactConnection src dest style YARP_ENACT_EXISTS reversed,
          .write src (listCommand dest reversed) (rpcStyle env style)]) ∧
      (r = 0 ↔ carrier = style.carrier) := by
  rw [enactConnection_exists env fuel h src dest style reversed hpers, hprobe]
  simp only [hcarrier, Option.some.injEq]
  by_cases heq : carrier = style.carrier
  · exact ⟨0, by simp [heq], by simp [heq]⟩
  · exact ⟨1, by simp [heq], by simp [heq]⟩

/-- In the example world: the probe reports `udp` and the style asks for `udp`. -/
theorem exists_result_witness :
    ∃ r,
      enactConnection exEnvUdp 1 [] exPortA (exFromString "/b".toList) exUdpStyle
          YARP_ENACT_EXISTS false =
        some (r, [.enactConnection exPortA (exFromString "/b".toList) exUdpStyle
            YARP_ENACT_EXISTS false,
          .write exPortA (listCommand (exFromString "/b".toList) false)
            (rpcStyle exEnvUdp exUdpStyle)]) ∧
      (r = 0 ↔ "udp".toList = exUdpStyle.carrier) :=
  exists_result exEnvUdp 0 [] exPortA (exFromString "/b".toList) exUdpStyle false exUdpReply
    "udp".toList rfl rfl rfl

/-- C13. For every non-persistent `enactConnection` call in EXISTS mode, whatever the peer
answers, the call returns; its only admin RPC is the `list` probe (no `add`, no `del`) and
its only enactment is itself (no compensating disconnect); the result is 0 exactly when the
probe was answered with a `carrier` field equal to the configured carrier, so it is non-zero
whenever the reply has no `carrier` field or a different carrier. -/
theorem exists_only_probes (env : Env) (fuel : Nat) (h : List Event) (src dest : Contact)
    (style : ContactStyle) (reversed : Bool) (hpers : style.persistent = false) :
    ∃ r tr,
      enactConnection env (fuel + 1) h src dest style YARP_ENACT_EXISTS reversed =
        some (r, tr) ∧
      tr.filter Event.isWrite =
        [.write src (listCommand dest reversed) (rpcStyle env style)] ∧
      tr.filter Event.isEnact =
        [.enactConnection src dest style YARP_ENACT_EXISTS reversed] ∧
      (r = 0 ↔ ∃ reply,
        env.write (h ++ [.enactConnection src dest style YARP_ENACT_EXISTS reversed]) src
          (listCommand dest reversed) (rpcStyle env style) = some reply ∧
        reply.carrier = some style.carrier) := by
  rw [enactConnection_exists env fuel h src dest style reversed hpers]
  cases hw : env.write (h ++ [.enactConnection src dest style YARP_ENACT_EXISTS reversed]) src
      (listCommand dest reversed) (rpcStyle env style) with
  | none =>
    have hn := noteDud_events env
      (h ++ [.enactConnection src dest style YARP_ENACT_EXISTS reversed,
        .write src (listCommand dest reversed) (rpcStyle env style)]) src
    have f1 : (noteDud env
        (h ++ [.enactConnection src dest style YARP_ENACT_EXISTS reversed,
          .write src (listCommand dest reversed) (rpcStyle env style)]) src).2.filter
        Event.isWrite = [] := by
      rw [List.filter_eq_nil_iff]
      intro e he
      simp [(hn e he).1]
    have f2 : (noteDud env
        (h ++ [.enactConnection src dest style YARP_ENACT_EXISTS reversed,
          .write src (listCommand dest reversed) (rpcStyle env style)]) src).2.filter
        Event.isEnact = [] := by
      rw [List.filter_eq_nil_iff]
      intro e he
      simp [(hn e he).2]
    refine ⟨_, _, rfl, ?_, ?_, ?_⟩
    · rw [List.filter_append, f1]
      rfl
    · rw [List.filter_append, f2]
      rfl
    · simp
  | some reply =>
    refine ⟨_, _, rfl, rfl, rfl, ?_⟩
    by_cases hc : reply.carrier = some style.carrier
    · simp [hc]
    · simp [hc]

/-- Scenario E4 in the example world: the probe reports `tcp`, the style asks for `udp`;
the result is 1 and the only admin RPC is the probe. -/
theorem exists_only_probes_witness :
    (∃ r tr,
      enactConnection exEnvTcp 1 [] exPortA (exFromString "/b".toList) exUdpStyle
          YARP_ENACT_EXISTS false = some (r, tr) ∧
      tr.filter Event.isWrite =
        [.write exPortA (listCommand (exFromString "/b".toList) false)
          (rpcStyle exEnvTcp exUdpStyle)] ∧
      tr.filter Event.isEnact =
        [.enactConnection exPortA (exFromString "/b".toList) exUdpStyle YARP_ENACT_EXISTS
          false] ∧
      (r = 0 ↔ ∃ reply,
        exEnvTcp.write ([] ++ [.enactConnection exPortA (exFromString "/b".toList) exUdpStyle
            YARP_ENACT_EXISTS false]) exPortA
          (listCommand (exFromString "/b".toList) false) (rpcStyle exEnvTcp exUdpStyle) =
            some reply ∧
        reply.carrier = some exUdpStyle.carrier)) ∧
    enactConnection exEnvTcp 1 [] exPortA (exFromString "/b".toList) exUdpStyle
        YARP_ENACT_EXISTS false =
      some (1, [.enactConnection exPortA (exFromString "/b".toList) exUdpStyle
          YARP_ENACT_EXISTS false,
        .write exPortA [.vocab "list".toList, .vocab "out".toList, .string "/b".toList]
          exRpc]) :=
  ⟨exists_only_probes exEnvTcp 0 [] exPortA (exFromString "/b".toList) exUdpStyle false rfl,
    by decide⟩

/-! ### C14: a topic as source -/

theorem lookupSide_queries (env : Env) (h : List Event) (dynamic : Contact)
    (style : ContactStyle) (a b : Bool) :
    ∀ e ∈ (lookupSide env h dynamic style a b).2, e = .queryName dynamic.name := by
  unfold lookupSide
  split
  · simp only []
    split
    · split <;> simp
    · simp
  · simp

theorem staticContacts_queries (env : Env) (h : List Event) (dynamicSrc dynamicDest : Contact)
    (style : ContactStyle) (mode : Mode) (topical : Bool) :
    ∀ e ∈ (staticContacts env h dynamicSrc dynamicDest style mode topical).2,
      e = .queryName dynamicSrc.name ∨ e = .queryName dynamicDest.name := by
  intro e he
  unfold staticContacts at he
  simp only [] at he
  split at he
  · rename_i t1 h1
    have := lookupSide_queries env h dynamicSrc style topical
      (!env.connectionHasNameOfEndpoints h)
    rw [h1] at this
    exact Or.inl (this e he)
  · rename_i s0 t1 h1
    have e1 := lookupSide_queries env h dynamicSrc style topical
      (!env.connectionHasNameOfEndpoints h)
    rw [h1] at e1
    split at he
    · rename_i t2 h2
      have e2 := lookupSide_queries env (h ++ t1) dynamicDest style topical
        (!env.connectionHasNameOfEndpoints h)
      rw [h2] at e2
      rcases List.mem_append.1 he with hm | hm
      · exact Or.inl (e1 e hm)
      · exact Or.inr (e2 e hm)
    · rename_i sd t2 h2
      have e2 := lookupSide_queries env (h ++ t1) dynamicDest style topical
        (!env.connectionHasNameOfEndpoints h)
      rw [h2] at e2
      have he' : e ∈ t1 ++ t2 := by
        split_ifs at he <;> exact he
      rcases List.mem_append.1 he' with hm | hm
      · exact Or.inl (e1 e hm)
      · exact Or.inr (e2 e hm)

/-- The static source of a source string that names the carrier `topic` is the contact of
the string itself, found without a name query. -/
theorem staticContacts_topic_source (env : Env) (h : List Event)
    (dynamicSrc dynamicDest : Contact) (style : ContactStyle) (mode : Mode) (topical : Bool)
    (ss sd : Contact) (t1 : List Event) (hsrc : dynamicSrc.carrier = strTopic)
    (hst : staticContacts env h dynamicSrc dynamicDest style mode topical =
      (some (ss, sd), t1)) :
    ss = dynamicSrc ∧ ∀ e ∈ t1, e = .queryName dynamicDest.name := by
  have hl : lookupSide env h dynamicSrc style topical (!env.connectionHasNameOfEndpoints h) =
      (some dynamicSrc, []) := by
    unfold lookupSide needsLookup
    simp [hsrc]
  have hne : dynamicSrc.carrier ≠ [] := by rw [hsrc]; decide
  have hnx : dynamicSrc.carrier ≠ strXmlrpc := by rw [hsrc]; decide
  unfold staticContacts at hst
  simp only [hl, hne, if_false, List.nil_append, List.append_nil] at hst
  have hq := lookupSide_queries env h dynamicDest style topical
    (!env.connectionHasNameOfEndpoints h)
  split at hst
  · simp at hst
  · rename_i sd' t2 h2
    rw [h2] at hq
    simp only [hnx, false_and, if_false, Prod.mk.injEq, Option.some.injEq] at hst
    obtain ⟨⟨h3, _⟩, h4⟩ := hst
    subst h4
    exact ⟨h3.symm, hq⟩

/-- C14. For every CONNECT request whose source string names the carrier `topic` and that
gets past the resolution step (the destination resolves or needs no lookup): the static
source is the contact of the source string; the calls made before the dispatch are at most
a name query for the destination, so the carrier registry is not consulted; then
`connectTopicToPort` is called once, as the last call; no admin RPC is made; and the result
is 0 exactly when that operation returns true. -/
theorem topic_source_dispatch (env : Env) (fuel : Nat) (h : List Event) (src dest : Str)
    (style : ContactStyle) (p : Probed) (t : List Event)
    (hprobe : probeEndpoints env h src dest style YARP_ENACT_CONNECT = (some p, t))
    (hsrc : (env.fromString src).carrier = strTopic) :
    p.staticSrc = env.fromString src ∧
    (∀ e ∈ t, e = .queryName (env.fromString dest).name) ∧
    ∃ r,
      metaConnect env fuel h src dest style YARP_ENACT_CONNECT =
        some (r, t ++ [.connectTopicToPort p.staticSrc p.staticDest style]) ∧
      (∀ e ∈ t ++ [Event.connectTopicToPort p.staticSrc p.staticDest style],
        ∀ n, e ≠ .chooseCarrier n) ∧
      (t ++ [Event.connectTopicToPort p.staticSrc p.staticDest style]).filter
        Event.isWrite = [] ∧
      (t ++ [Event.connectTopicToPort p.staticSrc p.staticDest style]).filter
        Event.isNameSpaceConnectionOp =
          [.connectTopicToPort p.staticSrc p.staticDest style] ∧
      (r = 0 ↔ env.connectTopicToPort (h ++ t) p.staticSrc p.staticDest style = true) := by
  obtain ⟨_, _, _, ss, sd, t1, hst, hp, ht⟩ :=
    probeEndpoints_some env h src dest style YARP_ENACT_CONNECT p t hprobe
  have htop : isTopical (env.fromString src) (env.fromString dest) style = true := by
    simp [isTopical, hsrc]
  rw [htop] at hst hp ht
  simp only [probeSide_topical, List.append_nil] at hp ht
  obtain ⟨hss, hq⟩ := staticContacts_topic_source env h _ _ style YARP_ENACT_CONNECT true ss sd
    t1 hsrc hst
  subst ht
  have hsT : p.srcIsTopic = true := by
    rw [hp]
    simp [hss, hsrc]
  have hstat : p.staticSrc = env.fromString src := by
    rw [hp]
    exact hss
  have hnw : ∀ e ∈ t, e.isWrite = false ∧ e.isNameSpaceConnectionOp = false ∧
      ∀ n, e ≠ .chooseCarrier n := by
    intro e he
    rw [hq e he]
    exact ⟨rfl, rfl, fun n hn => by cases hn⟩
  have f1 : t.filter Event.isWrite = [] := by
    rw [List.filter_eq_nil_iff]
    intro e he
    simp [(hnw e he).1]
  have f2 : t.filter Event.isNameSpaceConnectionOp = [] := by
    rw [List.filter_eq_nil_iff]
    intro e he
    simp [(hnw e he).2.1]
  refine ⟨hstat, hq, if env.connectTopicToPort (h ++ t) p.staticSrc p.staticDest style then 0
    else 1, ?_, ?_, ?_, ?_, ?_⟩
  · unfold metaConnect
    rw [hprobe]
    simp [hsT, topicDispatch]
  · intro e he n
    rcases List.mem_append.1 he with hm | hm
    · exact (hnw e hm).2.2 n
    · simp only [List.mem_singleton] at hm
      rw [hm]
      exact fun hn => by cases hn
  · rw [List.filter_append, f1]
    rfl
  · rw [List.filter_append, f2]
    rfl
  · split_ifs with hok
    · exact ⟨fun _ => hok, fun _ => rfl⟩
    · exact ⟨fun h0 => absurd h0 (by decide), fun h1 => absurd h1 hok⟩

/-- Scenario E5 in the example world: the topic `/bus` connected to `/b`. -/
theorem topic_source_dispatch_witness :
    exProbedTopic.staticSrc = exEnv.fromString "topic://bus".toList ∧
    (∀ e ∈ [Event.queryName "/b".toList],
      e = .queryName (exEnv.fromString "/b".toList).name) ∧
    ∃ r,
      metaConnect exEnv 1 [] "topic://bus".toList "/b".toList exStyle YARP_ENACT_CONNECT =
        some (r, [.queryName "/b".toList] ++
          [.connectTopicToPort exProbedTopic.staticSrc exProbedTopic.staticDest exStyle]) ∧
      (∀ e ∈ [Event.queryName "/b".toList] ++
          [Event.connectTopicToPort exProbedTopic.staticSrc exProbedTopic.staticDest exStyle],
        ∀ n, e ≠ .chooseCarrier n) ∧
      ([Event.queryName "/b".toList] ++
          [Event.connectTopicToPort exProbedTopic.staticSrc exProbedTopic.staticDest
            exStyle]).filter Event.isWrite = [] ∧
      ([Event.queryName "/b".toList] ++
          [Event.connectTopicToPort exProbedTopic.staticSrc exProbedTopic.staticDest
            exStyle]).filter Event.isNameSpaceConnectionOp =
          [.connectTopicToPort exProbedTopic.staticSrc exProbedTopic.staticDest exStyle] ∧
      (r = 0 ↔ exEnv.connectTopicToPort ([] ++ [.queryName "/b".toList])
        exProbedTopic.staticSrc exProbedTopic.staticDest exStyle = true) :=
  topic_source_dispatch exEnv 1 [] "topic://bus".toList "/b".toList exStyle exProbedTopic
    [.queryName "/b".toList] (by decide) (by decide)

/-! ### C15: a lookup that finds no valid endpoint -/

theorem isValid_false_of_port (c : Contact) (hport : c.port ≤ 0) : c.isValid = false := by
  unfold Contact.isValid
  simp
  omega

/-- The outcome of a lookup that is made and finds no valid endpoint. -/
theorem lookupSide_invalid (env : Env) (h : List Event) (dynamic : Contact)
    (style : ContactStyle) (topical tnl : Bool)
    (hneeds : needsLookup dynamic = true ∧ (tnl = true ∨ topical = false))
    (hport : (queryName env h dynamic.name).port ≤ 0) :
    lookupSide env h dynamic style topical tnl =
      (if style.persistent = false then none else some dynamic, [.queryName dynamic.name]) := by
  unfold lookupSide
  rw [if_pos hneeds]
  simp only [isValid_false_of_port _ hport, if_true]
  split <;> rfl

/-- How the static contacts come from the two lookups: every field but the carrier is the
one found by the lookup; the carrier is the one found or `tcp`. -/
theorem staticContacts_fields (env : Env) (h : List Event) (dynamicSrc dynamicDest : Contact)
    (style : ContactStyle) (mode : Mode) (topical : Bool) (ss sd : Contact) (t1 : List Event)
    (hst : staticContacts env h dynamicSrc dynamicDest style mode topical =
      (some (ss, sd), t1)) :
    ∃ s0 d0 ta tb,
      lookupSide env h dynamicSrc style topical (!env.connectionHasNameOfEndpoints h) =
        (some s0, ta) ∧
      lookupSide env (h ++ ta) dynamicDest style topical
        (!env.connectionHasNameOfEndpoints h) = (some d0, tb) ∧
      t1 = ta ++ tb ∧
      ss.name = s0.name ∧ ss.host = s0.host ∧ ss.port = s0.port ∧
      (ss.carrier = s0.carrier ∨ ss.carrier = strTcp) ∧ ss.carrier ≠ [] ∧
      sd.name = d0.name ∧ sd.host = d0.host ∧ sd.port = d0.port ∧
      (sd.carrier = d0.carrier ∨ sd.carrier = strTcp) := by
  have hne : strTcp ≠ ([] : Str) := by decide
  have hxn : strXmlrpc ≠ ([] : Str) := by decide
  unfold staticContacts at hst
  simp only [] at hst
  split at hst
  · simp at hst
  · rename_i s0 ta h1
    split at hst
    · simp at hst
    · rename_i d0 tb h2
      refine ⟨s0, d0, ta, tb, h1, h2, ?_⟩
      by_cases hc : s0.carrier = []
      · simp only [hc, if_true] at hst
        split_ifs at hst with hq
        · simp only [Prod.mk.injEq, Option.some.injEq] at hst
          obtain ⟨⟨rfl, rfl⟩, rfl⟩ := hst
          simp [Contact.setCarrier, hne]
        · simp only [Prod.mk.injEq, Option.some.injEq] at hst
          obtain ⟨⟨rfl, rfl⟩, rfl⟩ := hst
          simp [Contact.setCarrier, hne]
      · simp only [hc, if_false] at hst
        split_ifs at hst with hq
        · simp only [Prod.mk.injEq, Option.some.injEq] at hst
          obtain ⟨⟨rfl, rfl⟩, rfl⟩ := hst
          simp [Contact.setCarrier, hne]
        · simp only [Prod.mk.injEq, Option.some.injEq] at hst
          obtain ⟨⟨rfl, rfl⟩, rfl⟩ := hst
          simp [hc]

/-- The probe of the endpoints after a valid pair of names, in terms of `staticContacts`. -/
theorem probeEndpoints_of_valid (env : Env) (h : List Event) (src dest : Str)
    (style : ContactStyle) (mode : Mode)
    (hspace : dest.contains ' ' = false ∧ src.contains ' ' = false)
    (hsrcName : isValidPortName (env.fromString src).name = true)
    (hdestName : isValidPortName (env.fromString dest).name = true)
    (t1 : List Event)
    (hst : staticContacts env h (env.fromString src) (env.fromString dest) style mode
      (isTopical (env.fromString src) (env.fromString dest) style) = (none, t1)) :
    probeEndpoints env h src dest style mode = (none, t1) := by
  unfold probeEndpoints
  rw [if_neg (by rw [hspace.1, hspace.2]; simp)]
  simp only []
  rw [if_neg (by simp [hsrcName]), if_neg (by simp [hdestName]), hst]

theorem metaConnect_of_probe_none (env : Env) (fuel : Nat) (h : List Event) (src dest : Str)
    (style : ContactStyle) (mode : Mode) (t : List Event)
    (hprobe : probeEndpoints env h src dest style mode = (none, t)) :
    metaConnect env fuel h src dest style mode = some (1, t) := by
  unfold metaConnect
  rw [hprobe]

/-- C15. For every `metaConnect` call with valid names in which a lookup of the source or of
the destination is made and returns an endpoint whose port is not greater than 0:
if `style.persistent` is false, `metaConnect` returns 1 and the calls it made are name
queries only (no registry lookup, no admin RPC, no name-space connection operation);
if `style.persistent` is true, the probe of the endpoints does not fail, and the static
endpoint of the unresolved side has the name, host and port of the contact of the
user-supplied string, with the carrier of that string or `tcp`. -/
theorem unresolved_endpoint (env : Env) (fuel : Nat) (h : List Event) (src dest : Str)
    (style : ContactStyle) (mode : Mode)
    (hspace : dest.contains ' ' = false ∧ src.contains ' ' = false)
    (hsrcName : isValidPortName (env.fromString src).name = true)
    (hdestName : isValidPortName (env.fromString dest).name = true) :
    (style.persistent = false →
      (needsLookup (env.fromString src) = true ∧
        ((!env.connectionHasNameOfEndpoints h) = true ∨
          isTopical (env.fromString src) (env.fromString dest) style = false)) →
      (queryName env h (env.fromString src).name).port ≤ 0 →
      metaConnect env fuel h src dest style mode =
        some (1, [.queryName (env.fromString src).name])) ∧
    (style.persistent = false →
      ∀ s0 ta,
        lookupSide env h (env.fromString src) style
          (isTopical (env.fromString src) (env.fromString dest) style)
          (!env.connectionHasNameOfEndpoints h) = (some s0, ta) →
        (needsLookup (env.fromString dest) = true ∧
          ((!env.connectionHasNameOfEndpoints h) = true ∨
            isTopical (env.fromString src) (env.fromString dest) style = false)) →
        (queryName env (h ++ ta) (env.fromString dest).name).port ≤ 0 →
        metaConnect env fuel h src dest style mode =
          some (1, ta ++ [.queryName (env.fromString dest).name]) ∧
        ∀ e ∈ ta, e = .queryName (env.fromString src).name) ∧
    (style.persistent = true →
      ∃ p t, probeEndpoints env h src dest style mode = (some p, t) ∧
        ((needsLookup (env.fromString src) = true ∧
            ((!env.connectionHasNameOfEndpoints h) = true ∨
              isTopical (env.fromString src) (env.fromString dest) style = false)) →
          (queryName env h (env.fromString src).name).port ≤ 0 →
          p.staticSrc.name = (env.fromString src).name ∧
          p.staticSrc.host = (env.fromString src).host ∧
          p.staticSrc.port = (env.fromString src).port ∧
          (p.staticSrc.carrier = (env.fromString src).carrier ∨
            p.staticSrc.carrier = strTcp)) ∧
        (∀ s0 ta,
          lookupSide env h (env.fromString src) style
            (isTopical (env.fromString src) (env.fromString dest) style)
            (!env.connectionHasNameOfEndpoints h) = (some s0, ta) →
          (needsLookup (env.fromString dest) = true ∧
            ((!env.connectionHasNameOfEndpoints h) = true ∨
              isTopical (env.fromString src) (env.fromString dest) style = false)) →
          (queryName env (h ++ ta) (env.fromString dest).name).port ≤ 0 →
          p.staticDest.name = (env.fromString dest).name ∧
          p.staticDest.host = (env.fromString dest).host ∧
          p.staticDest.port = (env.fromString dest).port ∧
          (p.staticDest.carrier = (env.fromString dest).carrier ∨
            p.staticDest.carrier = strTcp))) := by
  refine ⟨?_, ?_, ?_⟩
  · intro hpers hneeds hport
    have hl := lookupSide_invalid env h (env.fromString src) style _ _ hneeds hport
    simp only [hpers, if_true] at hl
    have hst : staticContacts env h (env.fromString src) (env.fromString dest) style mode
        (isTopical (env.fromString src) (env.fromString dest) style) =
        (none, [.queryName (env.fromString src).name]) := by
      unfold staticContacts
      simp only [hl]
    exact metaConnect_of_probe_none env fuel h src dest style mode _
      (probeEndpoints_of_valid env h src dest style mode hspace hsrcName hdestName _ hst)
  · intro hpers s0 ta hls hneeds hport
    have hl := lookupSide_invalid env (h ++ ta) (env.fromString dest) style _ _ hneeds hport
    simp only [hpers, if_true] at hl
    have hst : staticContacts env h (env.fromString src) (env.fromString dest) style mode
        (isTopical (env.fromString src) (env.fromString dest) style) =
        (none, ta ++ [.queryName (env.fromString dest).name]) := by
      unfold staticContacts
      simp only [hls, hl]
    refine ⟨metaConnect_of_probe_none env fuel h src dest style mode _
      (probeEndpoints_of_valid env h src dest style mode hspace hsrcName hdestName _ hst), ?_⟩
    have hq := lookupSide_queries env h (env.fromString src) style
      (isTopical (env.fromString src) (env.fromString dest) style)
      (!env.connectionHasNameOfEndpoints h)
    rw [hls] at hq
    exact hq
  · intro hpers
    obtain ⟨p, t, hprobe, _⟩ :=
      probeEndpoints_persistent env h src dest style mode hspace hsrcName hdestName hpers
    obtain ⟨_, _, _, ss, sd, t1, hst, hp, _⟩ :=
      probeEndpoints_some env h src dest style mode p t hprobe
    obtain ⟨s0, d0, ta, tb, hls, hld, _, hn, hh, hpo, hc, _, hn', hh', hpo', hc'⟩ :=
      staticContacts_fields env h _ _ style mode _ ss sd t1 hst
    have hps : p.staticSrc = ss := by rw [hp]
    have hpd : p.staticDest = sd := by rw [hp]
    refine ⟨p, t, hprobe, ?_, ?_⟩
    · intro hneeds hport
      have hl := lookupSide_invalid env h (env.fromString src) style _ _ hneeds hport
      simp only [hpers, Bool.true_eq_false, if_false] at hl
      rw [hl] at hls
      simp only [Prod.mk.injEq, Option.some.injEq] at hls
      rw [hps, hn, hh, hpo, ← hls.1]
      refine ⟨rfl, rfl, rfl, ?_⟩
      rw [← hls.1] at hc
      exact hc
    · intro s1 ta' hls' hneeds hport
      rw [hls] at hls'
      simp only [Prod.mk.injEq, Option.some.injEq] at hls'
      rw [← hls'.2] at hport
      have hl := lookupSide_invalid env (h ++ ta) (env.fromString dest) style _ _ hneeds hport
      simp only [hpers, Bool.true_eq_false, if_false] at hl
      rw [hl] at hld
      simp only [Prod.mk.injEq, Option.some.injEq] at hld
      rw [hpd, hn', hh', hpo', ← hld.1]
      refine ⟨rfl, rfl, rfl, ?_⟩
      rw [← hld.1] at hc'
      exact hc'

/-- Scenario E6 in the example world: `/x` is unknown to the name server.  Without
persistence `metaConnect` returns 1 after the name query; with persistence the probe
succeeds and the static source has the name, host and port of the contact of the string. -/
theorem unresolved_endpoint_witness :
    metaConnect exEnv 1 [] "/x".toList "/b".toList exStyle YARP_ENACT_CONNECT =
      some (1, [.queryName (exEnv.fromString "/x".toList).name]) ∧
    ∃ p t,
      probeEndpoints exEnv [] "/x".toList "/b".toList exPersistentStyle YARP_ENACT_CONNECT =
        (some p, t) ∧
      p.staticSrc.name = (exEnv.fromString "/x".toList).name ∧
      p.staticSrc.host = (exEnv.fromString "/x".toList).host ∧
      p.staticSrc.port = (exEnv.fromString "/x".toList).port ∧
      (p.staticSrc.carrier = (exEnv.fromString "/x".toList).carrier ∨
        p.staticSrc.carrier = strTcp) := by
  refine ⟨(unresolved_endpoint exEnv 1 [] "/x".toList "/b".toList exStyle YARP_ENACT_CONNECT
    (by decide) (by decide) (by decide)).1 rfl (by decide) (by decide), ?_⟩
  obtain ⟨p, t, hp, h1, _⟩ := (unresolved_endpoint exEnv 1 [] "/x".toList "/b".toList
    exPersistentStyle YARP_ENACT_CONNECT (by decide) (by decide) (by decide)).2.2 rfl
  exact ⟨p, t, hp, h1 (by decide) (by decide)⟩

/-! ### C16: the default carrier of the static endpoints -/

/-- The static source always has a carrier after the resolution step. -/
theorem static_source_has_carrier (env : Env) (h : List Event) (src dest : Str)
    (style : ContactStyle) (mode : Mode) (p : Probed) (t : List Event)
    (hprobe : probeEndpoints env h src dest style mode = (some p, t)) :
    p.staticSrc.carrier ≠ [] := by
  obtain ⟨_, _, _, ss, sd, t1, hst, hp, _⟩ :=
    probeEndpoints_some env h src dest style mode p t hprobe
  obtain ⟨_, _, _, _, _, _, _, _, _, _, _, hne, _⟩ :=
    staticContacts_fields env h _ _ style mode _ ss sd t1 hst
  rw [hp]
  exact hne

/-- C16 (the code at the failing inputs). A destination given by address, without carrier,
and a destination whose name-server record has no carrier: `metaConnect` gets past the
resolution step, the static source has the carrier `tcp`, and the static destination is
left without carrier. -/
theorem static_destination_without_carrier :
    probeEndpoints exEnvDirect [] "/a".toList "/10.0.0.2:10003/b".toList exStyle
        YARP_ENACT_CONNECT =
      (some ⟨⟨"/a".toList, [], [], -1⟩, ⟨"/b".toList, [], "10.0.0.2".toList, 10003⟩,
          exPortA, ⟨"/b".toList, [], "10.0.0.2".toList, 10003⟩, false, true, false, false,
          false, []⟩,
        [.queryName "/a".toList, .chooseCarrier strTcp]) ∧
    probeEndpoints exEnvBare [] "/a".toList "/d".toList exStyle YARP_ENACT_CONNECT =
      (some ⟨⟨"/a".toList, [], [], -1⟩, ⟨"/d".toList, [], [], -1⟩,
          exPortA, ⟨"/d".toList, [], "10.0.0.4".toList, 10005⟩, false, true, false, false,
          false, []⟩,
        [.queryName "/a".toList, .queryName "/d".toList, .chooseCarrier strTcp]) := by
  decide

/-! ### C17: the carrier chosen without user choice and without constraint -/

/-- C17 (the code at the failing input). `/a` is registered with `tcp+send.portmonitor`,
`/b` with `tcp`; the strings and the style name no carrier and no constraint is recorded.
The bare names of the two static carriers are equal and the static source has the
parameters `+send.portmonitor`, yet the chosen carrier is `tcp`, without them. -/
theorem static_source_params_not_appended :
    probeEndpoints exEnvParam [] "/a".toList "/b".toList exStyle YARP_ENACT_CONNECT =
      (some exProbedParam,
        [.queryName "/a".toList, .queryName "/b".toList,
          .chooseCarrier "tcp+send.portmonitor".toList, .chooseCarrier strTcp]) ∧
    extractCarrierNameOnly exProbedParam.staticSrc.carrier =
      extractCarrierNameOnly exProbedParam.staticDest.carrier ∧
    collectParams exProbedParam.staticSrc = "+send.portmonitor".toList ∧
    (chosenStyle exProbedParam exStyle).carrier = "tcp".toList ∧
    metaConnect exEnvParam 1 [] "/a".toList "/b".toList exStyle YARP_ENACT_CONNECT =
      some (0,
        [.queryName "/a".toList, .queryName "/b".toList,
          .chooseCarrier "tcp+send.portmonitor".toList, .chooseCarrier strTcp,
          .chooseCarrier "tcp".toList,
          .enactConnection exPortAParam (exFromString "/b".toList)
            { exStyle with carrier := "tcp".toList } YARP_ENACT_CONNECT false,
          .write exPortAParam
            [.vocab "list".toList, .vocab "out".toList, .string "/b".toList] exRpc,
          .write exPortAParam [.vocab "add".toList, .string "tcp://b".toList] exRpc]) := by
  decide

/-- What lines 588-600 choose when the strings and the style name no carrier and no
constraint is recorded: the test of line 593 reads the source string's carrier, which is
empty here, so the static destination's carrier is taken as it is whenever its bare name is
not empty. -/
theorem chosenStyle_default (p : Probed) (style : ContactStyle)
    (hs : p.dynamicSrc.carrier = []) (hd : p.dynamicDest.carrier = [])
    (hstyle : style.carrier = []) (hc : p.carrierConstraint = [])
    (hbare : extractCarrierNameOnly p.staticDest.carrier ≠ []) :
    (chosenStyle p style).carrier = p.staticDest.carrier := by
  have h1 : selectedStyle p style = style := by
    simp [selectedStyle, userCarrier, hs, hd]
  have h2 : constraintCarrier p.dynamicSrc p.dynamicDest p.carrierConstraint style = style := by
    simp [constraintCarrier, hc]
  have h0 : extractCarrierNameOnly ([] : Str) = [] := by decide
  have h3 : destinationCarrier p.dynamicSrc p.staticSrc p.staticDest style =
      { style with carrier := p.staticDest.carrier } := by
    unfold destinationCarrier
    rw [if_pos hstyle]
    simp only [hs, h0]
    rw [if_neg (fun e => hbare e.symm)]
  have hne : p.staticDest.carrier ≠ [] := by
    intro e
    rw [e] at hbare
    exact hbare h0
  unfold chosenStyle chooseStyleCarrier
  rw [h1, h2, h3]
  simp [sourceCarrier, hne]

/-! ### C18: names and whitespace -/

/-- C18 (counterexample). The name `/a`, tab, `b` holds a whitespace character and is a
valid port name; `metaConnect` does not reject it: in a world where that port is
registered, the connection to `/b` is made. -/
theorem tab_accepted_in_port_name :
    '\t' ∈ "/a\tb".toList ∧
    isValidPortName "/a\tb".toList = true ∧
    Option.map Prod.fst
      (metaConnect exEnvTab 1 [] "/a\tb".toList "/b".toList exStyle YARP_ENACT_CONNECT) =
        some 0 := by
  decide

theorem isValidPortName_no_space (s : Str) (hvalid : isValidPortName s = true) : ' ' ∉ s := by
  unfold isValidPortName at hvalid
  by_cases hd : s = strDots
  · rw [hd]
    decide
  · intro hmem
    simp [hd] at hvalid
    exact hvalid.2.2.2 hmem

/-- C18 (amended). For every string `s`, if `isValidPortName s` is true then `s` contains no
space character; and `metaConnect` returns 1, without any call, whenever the source string,
the destination string or the name of either contact contains a space. -/
theorem space_rejected (env : Env) (fuel : Nat) (h : List Event) (src dest : Str)
    (style : ContactStyle) (mode : Mode) :
    (∀ s : Str, isValidPortName s = true → ' ' ∉ s) ∧
    ((' ' ∈ src ∨ ' ' ∈ dest ∨ ' ' ∈ (env.fromString src).name ∨
        ' ' ∈ (env.fromString dest).name) →
      metaConnect env fuel h src dest style mode = some (1, [])) := by
  refine ⟨isValidPortName_no_space, fun hsp => ?_⟩
  apply metaConnect_of_probe_none
  unfold probeEndpoints
  by_cases h1 : dest.contains ' ' = true ∨ src.contains ' ' = true
  · rw [if_pos h1]
  · rw [if_neg h1]
    simp only []
    have hsrc : ' ' ∉ src := fun hm => h1 (Or.inr (by simpa using hm))
    have hdest : ' ' ∉ dest := fun hm => h1 (Or.inl (by simpa using hm))
    by_cases h2 : isValidPortName (env.fromString src).name = false
    · rw [if_pos h2]
    · rw [if_neg h2]
      by_cases h3 : isValidPortName (env.fromString dest).name = false
      · rw [if_pos h3]
      · exfalso
        rcases hsp with hm | hm | hm | hm
        · exact hsrc hm
        · exact hdest hm
        · exact isValidPortName_no_space _ (by simpa using h2) hm
        · exact isValidPortName_no_space _ (by simpa using h3) hm

/-- In the example world: a space in the source string. -/
theorem space_rejected_witness :
    metaConnect exEnv 1 [] "/a b".toList "/b".toList exStyle YARP_ENACT_CONNECT =
      some (1, []) :=
  (space_rejected exEnv 1 [] "/a b".toList "/b".toList exStyle YARP_ENACT_CONNECT).2
    (Or.inl (by decide))

/-! ### C19: when the compensating disconnect is made -/

theorem needsCompensation_iff (reply : Reply) (reversed : Bool) :
    needsCompensation reply reversed = true ↔
      reply.connectionless = some true ∧
        ((reversed = true ∧ reply.push ≠ some false) ∨
          (reversed = false ∧ reply.push = some false)) := by
  unfold needsCompensation
  rcases hc : reply.connectionless with _ | _ | _ <;> rcases hp : reply.push with _ | _ | _ <;>
    cases reversed <;> simp

theorem enactAct_no_enact (env : Env) (h : List Event) (src dest : Contact)
    (style : ContactStyle) (mode : Mode) :
    ∀ e ∈ (enactAct env h src dest style mode).2, e.isEnact = false := by
  obtain ⟨c2, pre, post, hshape, hfe, _, _⟩ := enactAct_shape env h src dest style mode
  rw [hshape]
  rw [List.filter_append, List.append_eq_nil, List.filter_eq_nil_iff, List.filter_eq_nil_iff]
    at hfe
  intro e he
  simp only [List.mem_append, List.mem_singleton] at he
  rcases he with (hm | hm) | hm
  · simpa using hfe.1 e hm
  · rw [hm]; rfl
  · simpa using hfe.2 e hm

/-- The run of a non-persistent `enactConnection` in mode CONNECT or DISCONNECT after an
answered probe (lines 189-271). -/
theorem enactConnection_answered (env : Env) (fuel : Nat) (h : List Event)
    (src dest : Contact) (style : ContactStyle) (mode : Mode) (reversed : Bool) (reply : Reply)
    (hpers : style.persistent = false) (hmode : mode ≠ YARP_ENACT_EXISTS)
    (hprobe : env.write (h ++ [.enactConnection src dest style mode reversed]) src
      (listCommand dest reversed) (rpcStyle env style) = some reply) :
    enactConnection env (fuel + 1) h src dest style mode reversed =
      if reply.carrier ≠ none ∧ needsCompensation reply reversed = true then
        match enactConnection env fuel
            (h ++ [.enactConnection src dest style mode reversed,
              .write src (listCommand dest reversed) (rpcStyle env style)])
            dest src style YARP_ENACT_DISCONNECT (!reversed) with
        | none => none
        | some (_, tc) =>
          some ((enactAct env
              (h ++ [.enactConnection src dest style mode reversed,
                .write src (listCommand dest reversed) (rpcStyle env style)] ++ tc)
              src dest style mode).1,
            [.enactConnection src dest style mode reversed,
              .write src (listCommand dest reversed) (rpcStyle env style)] ++ tc ++
            (enactAct env
              (h ++ [.enactConnection src dest style mode reversed,
                .write src (listCommand dest reversed) (rpcStyle env style)] ++ tc)
              src dest style mode).2)
      else
        some ((enactAct env
            (h ++ [.enactConnection src dest style mode reversed,
              .write src (listCommand dest reversed) (rpcStyle env style)])
            src dest style mode).1,
          [.enactConnection src dest style mode reversed,
            .write src (listCommand dest reversed) (rpcStyle env style)] ++
          (enactAct env
            (h ++ [.enactConnection src dest style mode reversed,
              .write src (listCommand dest reversed) (rpcStyle env style)])
            src dest style mode).2) := by
  generalize hnest : enactConnection env fuel
    (h ++ [.enactConnection src dest style mode reversed,
      .write src (listCommand dest reversed) (rpcStyle env style)])
    dest src style YARP_ENACT_DISCONNECT (!reversed) = nested
  unfold enactConnection
  simp only [hpers, hprobe, hmode, hnest, Bool.false_eq_true, if_false]
  cases hc : reply.carrier with
  | none => simp
  | some c =>
    by_cases hn : needsCompensation reply reversed = true
    · simp only [hn, if_true, ne_eq, not_false_eq_true, and_self, reduceCtorEq]
    · simp only [hn, if_false, ne_eq, not_false_eq_true, and_false, reduceCtorEq,
        Bool.false_eq_true]

/-- C19 (counterexample). A CONNECT enactment with `reversed = true` whose probe is answered
with `connectionless = true` and `push = true` but without a `carrier` field: no
compensating disconnect is made; the calls are the entry, the probe and the `add`. -/
theorem no_compensation_without_carrier_field :
    exEnvBareReply.write [.enactConnection exPortB (exFromString "/a".toList) exUdpStyle
        YARP_ENACT_CONNECT true] exPortB (listCommand (exFromString "/a".toList) true)
        (rpcStyle exEnvBareReply exUdpStyle) =
      some ⟨none, some true, some true, true, 0, []⟩ ∧
    enactConnection exEnvBareReply 3 [] exPortB (exFromString "/a".toList) exUdpStyle
        YARP_ENACT_CONNECT true =
      some (0,
        [.enactConnection exPortB (exFromString "/a".toList) exUdpStyle YARP_ENACT_CONNECT true,
         .write exPortB [.vocab "list".toList, .vocab "in".toList, .string "/a".toList] exRpc,
         .write exPortB [.vocab "add".toList, .string "udp://a".toList] exRpc]) := by
  decide

/-! The amended statement of C19 is proved in the last section of the file, after the lemmas
on runs that return. -/

/-! ### C20: the carrier's own connect hook -/

theorem filter_lookups_hook (l : List Event) (hl : ∀ e ∈ l, e.isLookup = true) :
    l.filter Event.isCarrierConnect = [] := by
  rw [List.filter_eq_nil_iff]
  intro e he
  have := isLookup_not_action e (hl e he)
  simp [this]

/-- The third case of the direction decision (lines 630-654): neither side initiates and the
chosen carrier is known to the registry. -/
theorem directConnection_hook (env : Env) (fuel : Nat) (h : List Event) (src dest : Str)
    (staticSrc staticDest : Contact) (style : ContactStyle) (mode : Mode) (sc dc : Bool)
    (car : Carrier)
    (hcarrier : style.carrier ≠ strTopic)
    (hchoose : env.chooseCarrier h (cstr style.carrier) = some car)
    (hnosrc : ¬ (sc = true ∧ car.isPush = true))
    (hnodest : ¬ (dc = true ∧ car.isPush = false)) :
    directConnection env fuel h src dest staticSrc staticDest style mode sc dc false =
      some
        (if env.carrierConnect (h ++ [.chooseCarrier (cstr style.carrier)]) car
              (if car.isPush = true then staticSrc else staticDest)
              (if car.isPush = true then env.fromString dest else env.fromString src)
              style mode (!car.isPush) ≠ -1 then
            env.carrierConnect (h ++ [.chooseCarrier (cstr style.carrier)]) car
              (if car.isPush = true then staticSrc else staticDest)
              (if car.isPush = true then env.fromString dest else env.fromString src)
              style mode (!car.isPush)
          else 1,
          [.chooseCarrier (cstr style.carrier),
            .carrierConnect car
              (if car.isPush = true then staticSrc else staticDest)
              (if car.isPush = true then env.fromString dest else env.fromString src)
              style mode (!car.isPush)]) := by
  unfold directConnection
  cases hp : car.isPush
  · have hd : dc = false := by
      cases dc
      · rfl
      · exact absurd ⟨rfl, hp⟩ hnodest
    simp [hcarrier, hchoose, hp, hd]
  · have hs : sc = false := by
      cases sc
      · rfl
      · exact absurd ⟨rfl, hp⟩ hnosrc
    simp [hcarrier, hchoose, hp, hs]

/-- C20. For every non-topical `metaConnect` call that reaches the direction decision where
neither (source competent and carrier push) nor (destination competent and carrier pull)
holds and the chosen carrier `car` is known to the registry: the calls made are the lookups
followed by exactly one call of the carrier's connect hook; `enactConnection` is not
entered; the hook is called with (static source, destination string's contact,
`reversed = false`) when `car` is push and with (static destination, source string's
contact, `reversed = true`) when it is pull; and `metaConnect` returns the hook's result,
except that -1 becomes 1. -/
theorem carrier_hook (env : Env) (fuel : Nat) (h : List Event) (src dest : Str)
    (style : ContactStyle) (mode : Mode) (p : Probed) (t : List Event) (car : Carrier)
    (hprobe : probeEndpoints env h src dest style mode = (some p, t))
    (hsrcTopic : p.srcIsTopic = false) (hdestTopic : p.destIsTopic = false)
    (hconflict : carrierConflict (selectedStyle p style) p.carrierConstraint = false)
    (htopical : p.topical = false)
    (hcarrier : (chosenStyle p style).carrier ≠ strTopic)
    (hchoose : env.chooseCarrier (h ++ t) (cstr (chosenStyle p style).carrier) = some car)
    (hnosrc : ¬ (p.srcIsCompetent = true ∧ car.isPush = true))
    (hnodest : ¬ (p.destIsCompetent = true ∧ car.isPush = false)) :
    ∃ (initiator argument : Contact) (reversed : Bool) (result : Int),
      ((car.isPush = true →
          initiator = p.staticSrc ∧ argument = env.fromString dest ∧ reversed = false) ∧
        (car.isPush = false →
          initiator = p.staticDest ∧ argument = env.fromString src ∧ reversed = true)) ∧
      result = env.carrierConnect
        (h ++ t ++ [.chooseCarrier (cstr (chosenStyle p style).carrier)]) car initiator
        argument (chosenStyle p style) mode reversed ∧
      metaConnect env fuel h src dest style mode =
        some (if result = -1 then 1 else result,
          t ++ [.chooseCarrier (cstr (chosenStyle p style).carrier),
            .carrierConnect car initiator argument (chosenStyle p style) mode reversed]) ∧
      (t ++ [Event.chooseCarrier (cstr (chosenStyle p style).carrier),
          .carrierConnect car initiator argument (chosenStyle p style) mode
            reversed]).filter Event.isEnact = [] ∧
      (t ++ [Event.chooseCarrier (cstr (chosenStyle p style).carrier),
          .carrierConnect car initiator argument (chosenStyle p style) mode
            reversed]).filter Event.isCarrierConnect =
        [.carrierConnect car initiator argument (chosenStyle p style) mode reversed] := by
  have hmeta := metaConnect_direct env fuel h src dest style mode p t hprobe hsrcTopic
    hdestTopic hconflict
  rw [htopical, directConnection_hook env fuel (h ++ t) src dest p.staticSrc p.staticDest
    (chosenStyle p style) mode _ _ car hcarrier hchoose hnosrc hnodest] at hmeta
  have hl := probeEndpoints_events env h src dest style mode
  rw [hprobe] at hl
  obtain ⟨_, _, fe⟩ := filter_lookups t hl
  have fh := filter_lookups_hook t hl
  refine ⟨if car.isPush = true then p.staticSrc else p.staticDest,
    if car.isPush = true then env.fromString dest else env.fromString src, !car.isPush,
    _, ⟨?_, ?_⟩, rfl, ?_, ?_, ?_⟩
  · intro hp
    simp [hp]
  · intro hp
    simp [hp]
  · rw [hmeta]
    simp only [Option.map_some', ne_eq, ite_not]
  · rw [List.filter_append, fe]
    rfl
  · rw [List.filter_append, fh]
    rfl

/-- Scenario E2 in the example world: `/a` to `mjpeg+in.stream://cam`; the hook of `mjpeg`,
a pull carrier, is called with the camera port as initiator and `reversed = true`. -/
theorem carrier_hook_witness :
    ∃ (initiator argument : Contact) (reversed : Bool) (result : Int),
      ((exMjpeg.isPush = true →
          initiator = exProbedCamStream.staticSrc ∧
          argument = exEnv.fromString "mjpeg+in.stream://cam".toList ∧ reversed = false) ∧
        (exMjpeg.isPush = false →
          initiator = exProbedCamStream.staticDest ∧
          argument = exEnv.fromString "/a".toList ∧ reversed = true)) ∧
      result = exEnv.carrierConnect
        ([] ++ exLookupsCam ++
          [.chooseCarrier (cstr (chosenStyle exProbedCamStream exStyle).carrier)]) exMjpeg
        initiator argument (chosenStyle exProbedCamStream exStyle) YARP_ENACT_CONNECT
        reversed ∧
      metaConnect exEnv 1 [] "/a".toList "mjpeg+in.stream://cam".toList exStyle
          YARP_ENACT_CONNECT =
        some (if result = -1 then 1 else result,
          exLookupsCam ++
            [.chooseCarrier (cstr (chosenStyle exProbedCamStream exStyle).carrier),
              .carrierConnect exMjpeg initiator argument
                (chosenStyle exProbedCamStream exStyle) YARP_ENACT_CONNECT reversed]) ∧
      (exLookupsCam ++
          [Event.chooseCarrier (cstr (chosenStyle exProbedCamStream exStyle).carrier),
            .carrierConnect exMjpeg initiator argument
              (chosenStyle exProbedCamStream exStyle) YARP_ENACT_CONNECT reversed]).filter
          Event.isEnact = [] ∧
      (exLookupsCam ++
          [Event.chooseCarrier (cstr (chosenStyle exProbedCamStream exStyle).carrier),
            .carrierConnect exMjpeg initiator argument
              (chosenStyle exProbedCamStream exStyle) YARP_ENACT_CONNECT reversed]).filter
          Event.isCarrierConnect =
        [.carrierConnect exMjpeg initiator argument (chosenStyle exProbedCamStream exStyle)
          YARP_ENACT_CONNECT reversed] :=
  carrier_hook exEnv 1 [] "/a".toList "mjpeg+in.stream://cam".toList exStyle
    YARP_ENACT_CONNECT exProbedCamStream exLookupsCam exMjpeg (by decide) rfl rfl (by decide)
    rfl (by decide) (by decide) (by decide) (by decide)

/-! ### C21: a carrier the registry does not know -/

/-- The direction decision when no side is topical and the registry has no carrier for the
chosen name (lines 606-661): nothing is called after the registry lookup. -/
theorem directConnection_unknown (env : Env) (fuel : Nat) (h : List Event) (src dest : Str)
    (staticSrc staticDest : Contact) (style : ContactStyle) (mode : Mode) (sc dc : Bool)
    (hunknown : style.carrier ≠ strTopic → env.chooseCarrier h (cstr style.carrier) = none) :
    directConnection env fuel h src dest staticSrc staticDest style mode sc dc false =
      some (1, if style.carrier ≠ strTopic then [.chooseCarrier (cstr style.carrier)]
        else []) := by
  unfold directConnection
  by_cases hcarrier : style.carrier = strTopic
  · simp [hcarrier]
  · simp [hcarrier, hunknown hcarrier]

theorem filter_lookups_nameSpace (l : List Event) (hl : ∀ e ∈ l, e.isLookup = true) :
    l.filter Event.isNameSpaceConnectionOp = [] := by
  rw [List.filter_eq_nil_iff]
  intro e he
  have := isLookup_not_action e (hl e he)
  simp [this]

/-- C21. For every non-topical `metaConnect` call that reaches the direction decision with a
chosen carrier for which the registry has nothing (the lookup `Carriers::chooseCarrier`
returns none; for the carrier `topic` the registry is not asked and no carrier is held
either): `metaConnect` returns 1, in every mode, and its calls are the lookups only: no
admin RPC, no entry of `enactConnection`, no carrier connect hook and no connection
operation of the name space. -/
theorem unknown_carrier (env : Env) (fuel : Nat) (h : List Event) (src dest : Str)
    (style : ContactStyle) (mode : Mode) (p : Probed) (t : List Event)
    (hprobe : probeEndpoints env h src dest style mode = (some p, t))
    (hsrcTopic : p.srcIsTopic = false) (hdestTopic : p.destIsTopic = false)
    (hconflict : carrierConflict (selectedStyle p style) p.carrierConstraint = false)
    (htopical : p.topical = false)
    (hunknown : (chosenStyle p style).carrier ≠ strTopic →
      env.chooseCarrier (h ++ t) (cstr (chosenStyle p style).carrier) = none) :
    ∃ tr : List Event,
      metaConnect env fuel h src dest style mode = some (1, tr) ∧
      tr = t ++ (if (chosenStyle p style).carrier ≠ strTopic then
        [.chooseCarrier (cstr (chosenStyle p style).carrier)] else []) ∧
      (∀ e ∈ tr, e.isLookup = true) ∧
      tr.filter Event.isWrite = [] ∧
      tr.filter Event.isEnact = [] ∧
      tr.filter Event.isCarrierConnect = [] ∧
      tr.filter Event.isNameSpaceConnectionOp = [] := by
  have hmeta := metaConnect_direct env fuel h src dest style mode p t hprobe hsrcTopic
    hdestTopic hconflict
  rw [htopical, directConnection_unknown env fuel (h ++ t) src dest p.staticSrc p.staticDest
    (chosenStyle p style) mode _ _ hunknown] at hmeta
  have hl := probeEndpoints_events env h src dest style mode
  rw [hprobe] at hl
  have hall : ∀ e ∈ t ++ (if (chosenStyle p style).carrier ≠ strTopic then
      [Event.chooseCarrier (cstr (chosenStyle p style).carrier)] else []),
      e.isLookup = true := by
    intro e he
    rcases List.mem_append.1 he with he | he
    · exact hl e he
    · by_cases hc : (chosenStyle p style).carrier = strTopic
      · simp [hc] at he
      · simp [hc] at he
        rw [he]
        rfl
  obtain ⟨fw, _, fe⟩ := filter_lookups _ hall
  exact ⟨_, hmeta, rfl, hall, fw, fe, filter_lookups_hook _ hall,
    filter_lookups_nameSpace _ hall⟩

/-- In the example world `/a` is connected to `shmem://b` and the registry has no carrier
`shmem`: the result is 1 in mode CONNECT and the calls are the two name lookups and the
registry lookup. -/
theorem unknown_carrier_witness :
    ∃ tr : List Event,
      metaConnect exEnv 1 [] "/a".toList "shmem://b".toList exStyle YARP_ENACT_CONNECT =
        some (1, tr) ∧
      tr = exLookupsAB ++ (if (chosenStyle exProbedABshmem exStyle).carrier ≠ strTopic then
        [.chooseCarrier (cstr (chosenStyle exProbedABshmem exStyle).carrier)] else []) ∧
      (∀ e ∈ tr, e.isLookup = true) ∧
      tr.filter Event.isWrite = [] ∧
      tr.filter Event.isEnact = [] ∧
      tr.filter Event.isCarrierConnect = [] ∧
      tr.filter Event.isNameSpaceConnectionOp = [] :=
  unknown_carrier exEnv 1 [] "/a".toList "shmem://b".toList exStyle YARP_ENACT_CONNECT
    exProbedABshmem exLookupsAB (by decide) rfl rfl (by decide) rfl (fun _ => by decide)

/-! ### C22 and C23: the reply to `add` or `del`, and the ports marked dud -/

theorem replyOk_iff (reply : Reply) :
    replyOk reply = true ↔
      (reply.get0IsInt32 = true ∧ reply.get0AsInt32 = 0) ∨
      (reply.get0IsInt32 = false ∧
        (reply.get0AsString.head? = some 'A' ∨ reply.get0AsString.head? = some 'R')) := by
  unfold replyOk
  cases hi : reply.get0IsInt32
  · cases hs : reply.get0AsString with
    | nil => simp [NUL]
    | cons c cs => simp
  · simp

/-- The `add` or `del` dialogue when the command is delivered (lines 249-271). -/
theorem enactAct_delivered (env : Env) (h : List Event) (src dest : Contact)
    (style : ContactStyle) (mode : Mode) (areply : Reply)
    (hw : env.write (h ++ actQuery src) (actTarget env h src) (actCommand env dest style mode)
      (rpcStyle env style) = some areply) :
    (enactAct env h src dest style mode).1 = (if replyOk areply = true then 0 else 1) ∧
    (enactAct env h src dest style mode).2 =
      actQuery src ++
        [.write (actTarget env h src) (actCommand env dest style mode) (rpcStyle env style)] ++
        (if mode = YARP_ENACT_CONNECT ∧ replyOk areply = false then
          (noteDud env (h ++ actQuery src ++
            [.write (actTarget env h src) (actCommand env dest style mode)
              (rpcStyle env style)]) dest).2
        else []) := by
  unfold actQuery actTarget at hw
  unfold enactAct actQuery actTarget
  simp [hw]

/-- The `add` or `del` dialogue when the command cannot be delivered (lines 244-248). -/
theorem enactAct_undelivered (env : Env) (h : List Event) (src dest : Contact)
    (style : ContactStyle) (mode : Mode)
    (hw : env.write (h ++ actQuery src) (actTarget env h src) (actCommand env dest style mode)
      (rpcStyle env style) = none) :
    (enactAct env h src dest style mode).1 = 1 ∧
    (enactAct env h src dest style mode).2 =
      actQuery src ++
        [.write (actTarget env h src) (actCommand env dest style mode) (rpcStyle env style)] ++
        (noteDud env (h ++ actQuery src ++
          [.write (actTarget env h src) (actCommand env dest style mode)
            (rpcStyle env style)]) src).2 := by
  unfold actQuery actTarget at hw
  unfold enactAct actQuery actTarget
  simp [hw]

/-- A returned non-persistent CONNECT or DISCONNECT enactment with an answered probe: its
calls are the entry and the probe, then the calls `tc` of the compensating enactment if one
was made, then the calls of its own `add` or `del` dialogue, whose result it returns. -/
theorem enactConnection_own (env : Env) (fuel : Nat) (h : List Event)
    (src dest : Contact) (style : ContactStyle) (mode : Mode) (reversed : Bool) (reply : Reply)
    (hpers : style.persistent = false) (hmode : mode ≠ YARP_ENACT_EXISTS)
    (hprobe : env.write (h ++ [.enactConnection src dest style mode reversed]) src
      (listCommand dest reversed) (rpcStyle env style) = some reply)
    (r : Int) (tr : List Event)
    (hrun : enactConnection env (fuel + 1) h src dest style mode reversed = some (r, tr)) :
    ∃ tc : List Event,
      (tc = [] ∨ ∃ rc, enactConnection env fuel
        (h ++ [.enactConnection src dest style mode reversed,
          .write src (listCommand dest reversed) (rpcStyle env style)])
        dest src style YARP_ENACT_DISCONNECT (!reversed) = some (rc, tc)) ∧
      r = (enactAct env
        (h ++ [.enactConnection src dest style mode reversed,
          .write src (listCommand dest reversed) (rpcStyle env style)] ++ tc)
        src dest style mode).1 ∧
      tr = [.enactConnection src dest style mode reversed,
          .write src (listCommand dest reversed) (rpcStyle env style)] ++ tc ++
        (enactAct env
          (h ++ [.enactConnection src dest style mode reversed,
            .write src (listCommand dest reversed) (rpcStyle env style)] ++ tc)
          src dest style mode).2 := by
  rw [enactConnection_answered env fuel h src dest style mode reversed reply hpers hmode
    hprobe] at hrun
  by_cases hc : reply.carrier ≠ none ∧ needsCompensation reply reversed = true
  · rw [if_pos hc] at hrun
    cases hnest : enactConnection env fuel
        (h ++ [.enactConnection src dest style mode reversed,
          .write src (listCommand dest reversed) (rpcStyle env style)])
        dest src style YARP_ENACT_DISCONNECT (!reversed) with
    | none =>
      rw [hnest] at hrun
      exact absurd hrun (by simp)
    | some res =>
      obtain ⟨rc, tc⟩ := res
      rw [hnest] at hrun
      simp only [Option.some.injEq, Prod.mk.injEq] at hrun
      exact ⟨tc, Or.inr ⟨rc, rfl⟩, hrun.1.symm, hrun.2.symm⟩
  · rw [if_neg hc] at hrun
    simp only [Option.some.injEq, Prod.mk.injEq] at hrun
    refine ⟨[], Or.inl rfl, ?_, ?_⟩
    · rw [List.append_nil]
      exact hrun.1.symm
    · rw [List.append_nil, List.append_nil]
      exact hrun.2.symm

/-- C22. For every returned non-persistent CONNECT or DISCONNECT enactment with an answered
probe: the result is the one of its own `add` or `del` dialogue, held after the entry, the
probe and the calls `tc` of the compensating enactment (if any); and whenever that command
was delivered with reply `areply`, the result is 0 if and only if either the first element
of `areply` is an integer equal to 0, or it is not an integer and its string form begins
with `A` or `R`; every other reply, the empty one included, yields 1. -/
theorem reply_decides_result (env : Env) (fuel : Nat) (h : List Event)
    (src dest : Contact) (style : ContactStyle) (mode : Mode) (reversed : Bool) (reply : Reply)
    (hpers : style.persistent = false) (hmode : mode ≠ YARP_ENACT_EXISTS)
    (hprobe : env.write (h ++ [.enactConnection src dest style mode reversed]) src
      (listCommand dest reversed) (rpcStyle env style) = some reply)
    (r : Int) (tr : List Event)
    (hrun : enactConnection env (fuel + 1) h src dest style mode reversed = some (r, tr)) :
    ∃ tc hact : List Event,
      hact = h ++ [.enactConnection src dest style mode reversed,
        .write src (listCommand dest reversed) (rpcStyle env style)] ++ tc ∧
      tr = [.enactConnection src dest style mode reversed,
          .write src (listCommand dest reversed) (rpcStyle env style)] ++ tc ++
        (enactAct env hact src dest style mode).2 ∧
      ∀ areply : Reply,
        env.write (hact ++ actQuery src) (actTarget env hact src)
          (actCommand env dest style mode) (rpcStyle env style) = some areply →
        (r = 0 ↔
          (areply.get0IsInt32 = true ∧ areply.get0AsInt32 = 0) ∨
          (areply.get0IsInt32 = false ∧
            (areply.get0AsString.head? = some 'A' ∨
              areply.get0AsString.head? = some 'R'))) ∧
        (r = 0 ∨ r = 1) := by
  obtain ⟨tc, _, hr, htr⟩ := enactConnection_own env fuel h src dest style mode reversed reply
    hpers hmode hprobe r tr hrun
  refine ⟨tc, _, rfl, htr, ?_⟩
  intro areply hw
  have hd := (enactAct_delivered env _ src dest style mode areply hw).1
  rw [← hr] at hd
  rw [← replyOk_iff]
  by_cases hok : replyOk areply = true
  · rw [if_pos hok] at hd
    exact ⟨⟨fun _ => hok, fun _ => hd⟩, Or.inl hd⟩
  · rw [if_neg hok] at hd
    refine ⟨⟨fun h0 => ?_, fun h1 => absurd h1 hok⟩, Or.inr hd⟩
    rw [hd] at h0
    exact absurd h0 (by decide)

/-- In the example world `/a` is asked to connect to `/b`; the reply to `add` is the integer
0 and the result is 0. -/
theorem reply_decides_result_witness :
    ∃ tc hact : List Event,
      hact = [] ++ [.enactConnection exPortA (exFromString "/b".toList) exStyle
          YARP_ENACT_CONNECT false,
        .write exPortA (listCommand (exFromString "/b".toList) false)
          (rpcStyle exEnv exStyle)] ++ tc ∧
      [.enactConnection exPortA (exFromString "/b".toList) exStyle YARP_ENACT_CONNECT false,
        .write exPortA [.vocab "list".toList, .vocab "out".toList, .string "/b".toList] exRpc,
        .write exPortA [.vocab "add".toList, .string "/b".toList] exRpc] =
        [.enactConnection exPortA (exFromString "/b".toList) exStyle YARP_ENACT_CONNECT false,
          .write exPortA (listCommand (exFromString "/b".toList) false)
            (rpcStyle exEnv exStyle)] ++ tc ++
        (enactAct exEnv hact exPortA (exFromString "/b".toList) exStyle
          YARP_ENACT_CONNECT).2 ∧
      ∀ areply : Reply,
        exEnv.write (hact ++ actQuery exPortA) (actTarget exEnv hact exPortA)
          (actCommand exEnv (exFromString "/b".toList) exStyle YARP_ENACT_CONNECT)
          (rpcStyle exEnv exStyle) = some areply →
        ((0 : Int) = 0 ↔
          (areply.get0IsInt32 = true ∧ areply.get0AsInt32 = 0) ∨
          (areply.get0IsInt32 = false ∧
            (areply.get0AsString.head? = some 'A' ∨
              areply.get0AsString.head? = some 'R'))) ∧
        ((0 : Int) = 0 ∨ (0 : Int) = 1) :=
  reply_decides_result exEnv 0 [] exPortA (exFromString "/b".toList) exStyle
    YARP_ENACT_CONNECT false exAck rfl (by decide) rfl 0
    [.enactConnection exPortA (exFromString "/b".toList) exStyle YARP_ENACT_CONNECT false,
      .write exPortA [.vocab "list".toList, .vocab "out".toList, .string "/b".toList] exRpc,
      .write exPortA [.vocab "add".toList, .string "/b".toList] exRpc]
    (by decide)

theorem noteDud_filter (env : Env) (h : List Event) (c : Contact) :
    (noteDud env h c).2.filter Event.isNoteDud = [.noteDud c] := by
  unfold noteDud
  split <;> rfl

theorem actQuery_filter (src : Contact) :
    (actQuery src).filter Event.isNoteDud = [] := by
  unfold actQuery
  split <;> rfl

/-- C23 (counterexample). `/a` is asked to connect to `/b`; `/a` reports a connectionless
pull connection, so the compensating disconnect is made, with `/b` as its initiator; `/b`
cannot be reached and is marked dud there (line 186); the `add` command is then delivered
to `/a` and answered 0.  The destination is marked dud although the reply to `add` is
positive, and the result is 0. -/
theorem dud_through_compensation :
    enactConnection exEnvDeadDest 2 [] exPortA (exFromString "/b".toList) exStyle
        YARP_ENACT_CONNECT false =
      some (0, [.enactConnection exPortA (exFromString "/b".toList) exStyle
          YARP_ENACT_CONNECT false,
        .write exPortA [.vocab "list".toList, .vocab "out".toList, .string "/b".toList] exRpc,
        .enactConnection (exFromString "/b".toList) exPortA exStyle YARP_ENACT_DISCONNECT
          true,
        .write (exFromString "/b".toList)
          [.vocab "list".toList, .vocab "in".toList, .string "/a".toList] exRpc,
        .noteDud (exFromString "/b".toList),
        .writeToNameServer
          [.string "announce".toList, .string "/b".toList, .int32 0] exStyle,
        .write exPortA [.vocab "add".toList, .string "/b".toList] exRpc]) ∧
    exEnvDeadDest.write
        [.enactConnection exPortA (exFromString "/b".toList) exStyle YARP_ENACT_CONNECT false,
          .write exPortA [.vocab "list".toList, .vocab "out".toList, .string "/b".toList]
            exRpc,
          .enactConnection (exFromString "/b".toList) exPortA exStyle YARP_ENACT_DISCONNECT
            true,
          .write (exFromString "/b".toList)
            [.vocab "list".toList, .vocab "in".toList, .string "/a".toList] exRpc,
          .noteDud (exFromString "/b".toList),
          .writeToNameServer
            [.string "announce".toList, .string "/b".toList, .int32 0] exStyle]
        exPortA [.vocab "add".toList, .string "/b".toList] exRpc = some exAck ∧
    replyOk exAck = true := by
  decide

/-- C23 (amended). For every non-persistent `enactConnection` call, in every mode. When the
`list` probe cannot be delivered the call returns 1 and its only call of `noteDud` is
`noteDud(src)`. When the probe is answered, the calls of a returned run are the entry and
the probe, then the calls `tc` of the compensating enactment (another `enactConnection`
call, with the destination as its initiator) if one was made, then the calls `own` the call
makes itself from line 219 on; in mode EXISTS there are none; otherwise, when the `add` or
`del` command cannot be delivered the call returns 1 and `own` holds `noteDud(src)` only,
and when it is delivered `own` holds `noteDud(dest)` if the mode is CONNECT and the reply is
negative, and no call of `noteDud` in every other case, a negative DISCONNECT reply
included. -/
theorem dud_marking (env : Env) (fuel : Nat) (h : List Event) (src dest : Contact)
    (style : ContactStyle) (mode : Mode) (reversed : Bool)
    (hpers : style.persistent = false) :
    (env.write (h ++ [.enactConnection src dest style mode reversed]) src
        (listCommand dest reversed) (rpcStyle env style) = none →
      ∃ own : List Event,
        enactConnection env (fuel + 1) h src dest style mode reversed =
          some (1, [.enactConnection src dest style mode reversed,
            .write src (listCommand dest reversed) (rpcStyle env style)] ++ own) ∧
        own.filter Event.isNoteDud = [.noteDud src]) ∧
    (∀ reply : Reply,
      env.write (h ++ [.enactConnection src dest style mode reversed]) src
        (listCommand dest reversed) (rpcStyle env style) = some reply →
      ∀ (r : Int) (tr : List Event),
        enactConnection env (fuel + 1) h src dest style mode reversed = some (r, tr) →
        ∃ tc own hact : List Event,
          (tc = [] ∨ ∃ rc, enactConnection env fuel
            (h ++ [.enactConnection src dest style mode reversed,
              .write src (listCommand dest reversed) (rpcStyle env style)])
            dest src style YARP_ENACT_DISCONNECT (!reversed) = some (rc, tc)) ∧
          hact = h ++ [.enactConnection src dest style mode reversed,
            .write src (listCommand dest reversed) (rpcStyle env style)] ++ tc ∧
          tr = [.enactConnection src dest style mode reversed,
            .write src (listCommand dest reversed) (rpcStyle env style)] ++ tc ++ own ∧
          (mode = YARP_ENACT_EXISTS → tc = [] ∧ own = []) ∧
          (mode ≠ YARP_ENACT_EXISTS →
            (env.write (hact ++ actQuery src) (actTarget env hact src)
                (actCommand env dest style mode) (rpcStyle env style) = none →
              r = 1 ∧ own.filter Event.isNoteDud = [.noteDud src]) ∧
            (∀ areply : Reply,
              env.write (hact ++ actQuery src) (actTarget env hact src)
                (actCommand env dest style mode) (rpcStyle env style) = some areply →
              own.filter Event.isNoteDud =
                if mode = YARP_ENACT_CONNECT ∧ replyOk areply = false then [.noteDud dest]
                else []))) := by
  have fw : ∀ (c : Contact) (b : Bottle) (s : ContactStyle),
      [Event.write c b s].filter Event.isNoteDud = [] := fun _ _ _ => rfl
  refine ⟨?_, ?_⟩
  · intro hw
    refine ⟨(noteDud env (h ++ [.enactConnection src dest style mode reversed,
      .write src (listCommand dest reversed) (rpcStyle env style)]) src).2, ?_,
      noteDud_filter env _ src⟩
    unfold enactConnection
    simp only [hpers, hw, Bool.false_eq_true, if_false]
  · intro reply hprobe r tr hrun
    by_cases hmode : mode = YARP_ENACT_EXISTS
    · subst hmode
      rw [enactConnection_exists env fuel h src dest style reversed hpers, hprobe] at hrun
      simp only [Option.some.injEq, Prod.mk.injEq] at hrun
      refine ⟨[], [], _, Or.inl rfl, rfl, ?_, fun _ => ⟨rfl, rfl⟩, fun hne => absurd rfl hne⟩
      rw [List.append_nil, List.append_nil]
      exact hrun.2.symm
    · obtain ⟨tc, hnest, hr, htr⟩ := enactConnection_own env fuel h src dest style mode
        reversed reply hpers hmode hprobe r tr hrun
      refine ⟨tc, _, _, hnest, rfl, htr, fun he => absurd he hmode, fun _ => ⟨?_, ?_⟩⟩
      · intro hw
        obtain ⟨h1, h2⟩ := enactAct_undelivered env _ src dest style mode hw
        rw [h1] at hr
        rw [h2, List.filter_append, List.filter_append, actQuery_filter, fw, noteDud_filter]
        exact ⟨hr, rfl⟩
      · intro areply hw
        obtain ⟨_, h2⟩ := enactAct_delivered env _ src dest style mode areply hw
        rw [h2, List.filter_append, List.filter_append, actQuery_filter, fw]
        by_cases hc : mode = YARP_ENACT_CONNECT ∧ replyOk areply = false
        · rw [if_pos hc, if_pos hc, noteDud_filter]
          rfl
        · rw [if_neg hc, if_neg hc]
          rfl

/-- In the example world with peers that answer -1: asked to connect `/a` to `/b`, the call
returns 1 and marks `/b`, the destination, as dud. -/
theorem dud_marking_witness :
    ((exEnvNack.write ([] ++ [.enactConnection exPortA (exFromString "/b".toList) exStyle
          YARP_ENACT_CONNECT false]) exPortA
        (listCommand (exFromString "/b".toList) false) (rpcStyle exEnvNack exStyle) = none →
      ∃ own : List Event,
        enactConnection exEnvNack (0 + 1) [] exPortA (exFromString "/b".toList) exStyle
            YARP_ENACT_CONNECT false =
          some (1, [.enactConnection exPortA (exFromString "/b".toList) exStyle
              YARP_ENACT_CONNECT false,
            .write exPortA (listCommand (exFromString "/b".toList) false)
              (rpcStyle exEnvNack exStyle)] ++ own) ∧
        own.filter Event.isNoteDud = [.noteDud exPortA]) ∧
    (∀ reply : Reply,
      exEnvNack.write ([] ++ [.enactConnection exPortA (exFromString "/b".toList) exStyle
          YARP_ENACT_CONNECT false]) exPortA
        (listCommand (exFromString "/b".toList) false) (rpcStyle exEnvNack exStyle) =
          some reply →
      ∀ (r : Int) (tr : List Event),
        enactConnection exEnvNack (0 + 1) [] exPortA (exFromString "/b".toList) exStyle
            YARP_ENACT_CONNECT false = some (r, tr) →
        ∃ tc own hact : List Event,
          (tc = [] ∨ ∃ rc, enactConnection exEnvNack 0
            ([] ++ [.enactConnection exPortA (exFromString "/b".toList) exStyle
                YARP_ENACT_CONNECT false,
              .write exPortA (listCommand (exFromString "/b".toList) false)
                (rpcStyle exEnvNack exStyle)])
            (exFromString "/b".toList) exPortA exStyle YARP_ENACT_DISCONNECT (!false) =
              some (rc, tc)) ∧
          hact = [] ++ [.enactConnection exPortA (exFromString "/b".toList) exStyle
              YARP_ENACT_CONNECT false,
            .write exPortA (listCommand (exFromString "/b".toList) false)
              (rpcStyle exEnvNack exStyle)] ++ tc ∧
          tr = [.enactConnection exPortA (exFromString "/b".toList) exStyle
              YARP_ENACT_CONNECT false,
            .write exPortA (listCommand (exFromString "/b".toList) false)
              (rpcStyle exEnvNack exStyle)] ++ tc ++ own ∧
          (YARP_ENACT_CONNECT = YARP_ENACT_EXISTS → tc = [] ∧ own = []) ∧
          (YARP_ENACT_CONNECT ≠ YARP_ENACT_EXISTS →
            (exEnvNack.write (hact ++ actQuery exPortA) (actTarget exEnvNack hact exPortA)
                (actCommand exEnvNack (exFromString "/b".toList) exStyle YARP_ENACT_CONNECT)
                (rpcStyle exEnvNack exStyle) = none →
              r = 1 ∧ own.filter Event.isNoteDud = [.noteDud exPortA]) ∧
            (∀ areply : Reply,
              exEnvNack.write (hact ++ actQuery exPortA) (actTarget exEnvNack hact exPortA)
                (actCommand exEnvNack (exFromString "/b".toList) exStyle YARP_ENACT_CONNECT)
                (rpcStyle exEnvNack exStyle) = some areply →
              own.filter Event.isNoteDud =
                if YARP_ENACT_CONNECT = YARP_ENACT_CONNECT ∧ replyOk areply = false then
                  [.noteDud (exFromString "/b".toList)]
                else [])))) ∧
    enactConnection exEnvNack 1 [] exPortA (exFromString "/b".toList) exStyle
        YARP_ENACT_CONNECT false =
      some (1, [.enactConnection exPortA (exFromString "/b".toList) exStyle
          YARP_ENACT_CONNECT false,
        .write exPortA [.vocab "list".toList, .vocab "out".toList, .string "/b".toList] exRpc,
        .write exPortA [.vocab "add".toList, .string "/b".toList] exRpc,
        .noteDud (exFromString "/b".toList),
        .writeToNameServer
          [.string "announce".toList, .string "/b".toList, .int32 0] exStyle]) :=
  ⟨dud_marking exEnvNack 0 [] exPortA (exFromString "/b".toList) exStyle YARP_ENACT_CONNECT
    false rfl, by decide⟩

/-! ### C24: the result of `NetworkBase::write` -/

/-- The result of `NetworkBase::write` on the path where the name service allocates port
numbers (lines 1119-1186): it is decided by the resolution, the connection, the tag and the
command body; the outcomes of `out->open(r)` and of `out->write(bw)` are not looked at. -/
theorem write_allocating (w : Wire) (contact : Contact) (cmd : Bottle) (style : ContactStyle)
    (halloc : w.serverAllocatesPortNumbers = true) :
    NetworkBase.write w contact cmd style = true ↔
      (if contact.isValid = false then w.queryName (cstr contact.name)
        else contact).isValid = true ∧
      w.connect (if contact.isValid = false then w.queryName (cstr contact.name)
        else contact) = true ∧
      (w.canEscape = true → w.writeTag = true) ∧
      w.writeBody cmd = true := by
  unfold NetworkBase.write
  simp only [halloc]
  cases (if contact.isValid = false then w.queryName (cstr contact.name)
      else contact).isValid <;>
    cases w.connect (if contact.isValid = false then w.queryName (cstr contact.name)
      else contact) <;>
    cases w.canEscape <;> cases w.writeTag <;> cases w.writeBody cmd <;> simp

/-- C24 (the code at the failing input). The name service allocates port numbers, the
contact `/a` is valid, the connection is made, the tag and the command body are written,
and the transmission `out->write(bw)` of the buffered message fails: `NetworkBase::write`
returns true. -/
theorem write_ignores_transmission :
    exWireLost.serverAllocatesPortNumbers = true ∧
    exWireLost.transmit [.vocab "list".toList, .vocab "out".toList, .string "/b".toList] =
      false ∧
    NetworkBase.write exWireLost exPortA
      [.vocab "list".toList, .vocab "out".toList, .string "/b".toList] exRpc = true := by
  decide

/-! ### C25 and C26: automatic initialisation, the counter and the gated blocks -/

theorem autoInitMinimum_counter (s : LibState) :
    (autoInitMinimum s).1.yarp_is_initialized =
      if s.yarp_auto_init_active = false ∧ s.yarp_is_initialized = 0 then 1
      else s.yarp_is_initialized := by
  unfold autoInitMinimum
  by_cases ha : s.yarp_auto_init_active = true
  · simp [ha]
  · by_cases hc : s.yarp_is_initialized = 0
    · simp [ha, hc, initMinimum]
    · simp [ha, hc]

theorem apply_nonneg (c : LifeCall) (s : LibState) (hs : 0 ≤ s.yarp_is_initialized) :
    0 ≤ (c.apply s).yarp_is_initialized := by
  cases c with
  | init =>
    show 0 ≤ (initMinimum s).1.yarp_is_initialized
    rw [initMinimum_counter]
    omega
  | fini =>
    show 0 ≤ (finiMinimum s).1.yarp_is_initialized
    rw [finiMinimum_counter]
    split <;> omega
  | autoInit =>
    show 0 ≤ (autoInitMinimum s).1.yarp_is_initialized
    rw [autoInitMinimum_counter]
    split <;> omega

/-- The counter stays non-negative along every sequence of calls. -/
theorem runCalls_nonneg (calls : List LifeCall) :
    ∀ s : LibState, 0 ≤ s.yarp_is_initialized →
      0 ≤ (runCalls calls s).yarp_is_initialized := by
  induction calls with
  | nil => exact fun s hs => hs
  | cons c cs ih => exact fun s hs => ih (c.apply s) (apply_nonneg c s hs)

/-- C25 (counterexample). From the start state, `autoInitMinimum` and then `finiMinimum`
are called: the counter is back at 0 and the flag `__yarp_auto_init_active` is still set.
A further `autoInitMinimum` changes nothing and `initialized()` returns false. -/
theorem auto_init_after_fini :
    runCalls [.autoInit, .fini] LibState.start = ⟨0, true, false⟩ ∧
    (autoInitMinimum (runCalls [.autoInit, .fini] LibState.start)).1 = ⟨0, true, false⟩ ∧
    initialized (autoInitMinimum (runCalls [.autoInit, .fini] LibState.start)).1 = false := by
  decide

/-- C25 (amended). In every state reachable from the start state by a sequence of
`initMinimum`, `finiMinimum` and `autoInitMinimum` calls: after a call of
`autoInitMinimum`, `initialized()` returns true if and only if, before the call, the
counter is positive or the flag `__yarp_auto_init_active` is not set. -/
theorem auto_init_initialises (calls : List LifeCall) :
    initialized (autoInitMinimum (runCalls calls LibState.start)).1 = true ↔
      (0 < (runCalls calls LibState.start).yarp_is_initialized ∨
        (runCalls calls LibState.start).yarp_auto_init_active = false) := by
  have hnn := runCalls_nonneg calls LibState.start (by decide)
  unfold initialized
  rw [autoInitMinimum_counter]
  by_cases ha : (runCalls calls LibState.start).yarp_auto_init_active = false
  · by_cases hc : (runCalls calls LibState.start).yarp_is_initialized = 0
    · simp [ha, hc]
    · simp only [ha, hc, and_false, if_false, decide_eq_true_eq, or_true, iff_true]
      omega
  · simp [ha]

theorem initMinimum_events (s : LibState) :
    (initMinimum s).2 = if s.yarp_is_initialized = 0 then [.setup] else [] := by
  unfold initMinimum
  split <;> rfl

theorem finiMinimum_events (s : LibState) :
    (finiMinimum s).2 = if s.yarp_is_initialized = 1 then [.teardown] else [] := by
  unfold finiMinimum
  by_cases h1 : s.yarp_is_initialized = 1
  · simp [h1, removeNameSpace]
  · by_cases h0 : 0 < s.yarp_is_initialized <;> simp [h1, h0]

theorem initMinimum_nameSpace (s : LibState) :
    (initMinimum s).1.multi_name_space = s.multi_name_space := by
  unfold initMinimum
  split <;> rfl

/-- The singleton of the name space is removed by `finiMinimum` exactly when the counter
is 1 (line 809); otherwise it is left as it is. -/
theorem finiMinimum_nameSpace (s : LibState) :
    (finiMinimum s).1.multi_name_space =
      if s.yarp_is_initialized = 1 then false else s.multi_name_space := by
  unfold finiMinimum removeNameSpace
  by_cases h1 : s.yarp_is_initialized = 1
  · simp [h1]
  · by_cases h0 : 0 < s.yarp_is_initialized <;> simp [h1, h0]

/-- The log of a sequence of `initMinimum` and `finiMinimum` calls started with a
non-negative counter. -/
theorem runLog_entries (calls : List LifeCall) :
    ∀ s : LibState, LifeCall.autoInit ∉ calls → 0 ≤ s.yarp_is_initialized →
      ∀ e ∈ runLog calls s,
        0 ≤ e.2.1.yarp_is_initialized ∧
        e.2.2 =
          (if e.1 = .init ∧ e.2.1.yarp_is_initialized = 0 then [.setup]
            else if e.1 = .fini ∧ e.2.1.yarp_is_initialized = 1 then [.teardown]
            else []) ∧
        (e.1.apply e.2.1).multi_name_space =
          (if e.1 = .fini ∧ e.2.1.yarp_is_initialized = 1 then false
            else e.2.1.multi_name_space) := by
  induction calls with
  | nil =>
    intro s _ _ e he
    simp [runLog] at he
  | cons c cs ih =>
    intro s hno hs e he
    have hno' : LifeCall.autoInit ∉ cs := fun hm => hno (List.mem_cons_of_mem _ hm)
    simp only [runLog, List.mem_cons] at he
    rcases he with he | he
    · subst he
      refine ⟨hs, ?_⟩
      cases c with
      | autoInit => exact absurd (List.mem_cons_self _ _) hno
      | init =>
        refine ⟨?_, ?_⟩
        · show (initMinimum s).2 = _
          rw [initMinimum_events]
          by_cases h0 : s.yarp_is_initialized = 0 <;> simp [h0]
        · show (initMinimum s).1.multi_name_space = _
          rw [initMinimum_nameSpace]
          simp
      | fini =>
        refine ⟨?_, ?_⟩
        · show (finiMinimum s).2 = _
          rw [finiMinimum_events]
          by_cases h1 : s.yarp_is_initialized = 1 <;> simp [h1]
        · show (finiMinimum s).1.multi_name_space = _
          rw [finiMinimum_nameSpace]
          by_cases h1 : s.yarp_is_initialized = 1 <;> simp [h1]
    · exact ih (c.apply s) hno' (apply_nonneg c s hs) e he

/-- C26. For every sequence of `initMinimum` and `finiMinimum` calls from the uninitialised
state (counter 0, whether or not the singleton of the name space exists already, which
`getNameSpace()` creates on first use): the counter is non-negative before every call and
after the last one; a call runs the one-time setup exactly when it is an `initMinimum` call
made while the counter is 0, runs the teardown exactly when it is a `finiMinimum` call made
while the counter is 1, and runs no block otherwise; after a `finiMinimum` call made while
the counter is 1 the singleton of the name space is gone and the counter is 0, and every
other call leaves the singleton as it found it. -/
theorem counter_and_blocks (calls : List LifeCall) (ns : Bool)
    (hcalls : LifeCall.autoInit ∉ calls) :
    0 ≤ (runCalls calls { LibState.start with multi_name_space := ns }).yarp_is_initialized ∧
    ∀ e ∈ runLog calls { LibState.start with multi_name_space := ns },
      0 ≤ e.2.1.yarp_is_initialized ∧
      e.2.2 =
        (if e.1 = .init ∧ e.2.1.yarp_is_initialized = 0 then [.setup]
          else if e.1 = .fini ∧ e.2.1.yarp_is_initialized = 1 then [.teardown]
          else []) ∧
      (e.1.apply e.2.1).multi_name_space =
        (if e.1 = .fini ∧ e.2.1.yarp_is_initialized = 1 then false
          else e.2.1.multi_name_space) ∧
      (e.1 = .fini → e.2.1.yarp_is_initialized = 1 →
        (e.1.apply e.2.1).yarp_is_initialized = 0) := by
  have h0 : (0 : Int) ≤
      ({ LibState.start with multi_name_space := ns } : LibState).yarp_is_initialized :=
    le_refl 0
  refine ⟨runCalls_nonneg calls _ h0, fun e he => ?_⟩
  obtain ⟨h1, h2, h3⟩ := runLog_entries calls _ hcalls h0 e he
  refine ⟨h1, h2, h3, fun hf hc => ?_⟩
  rw [hf]
  show (finiMinimum e.2.1).1.yarp_is_initialized = 0
  rw [finiMinimum_counter, hc]
  decide

/-- The name space is in use at the start; two `initMinimum` calls are followed by three
`finiMinimum` calls: the setup runs in the first call; the third call, made at counter 2,
runs nothing and leaves the singleton in place; the fourth, made at counter 1, runs the
teardown and removes it; the fifth finds the counter at 0 and changes nothing. -/
theorem counter_and_blocks_witness :
    (0 ≤ (runCalls [.init, .init, .fini, .fini, .fini]
        { LibState.start with multi_name_space := true }).yarp_is_initialized ∧
      ∀ e ∈ runLog [.init, .init, .fini, .fini, .fini]
          { LibState.start with multi_name_space := true },
        0 ≤ e.2.1.yarp_is_initialized ∧
        e.2.2 =
          (if e.1 = .init ∧ e.2.1.yarp_is_initialized = 0 then [.setup]
            else if e.1 = .fini ∧ e.2.1.yarp_is_initialized = 1 then [.teardown]
            else []) ∧
        (e.1.apply e.2.1).multi_name_space =
          (if e.1 = .fini ∧ e.2.1.yarp_is_initialized = 1 then false
            else e.2.1.multi_name_space) ∧
        (e.1 = .fini → e.2.1.yarp_is_initialized = 1 →
          (e.1.apply e.2.1).yarp_is_initialized = 0)) ∧
    runLog [.init, .init, .fini, .fini, .fini]
        { LibState.start with multi_name_space := true } =
      [(.init, ⟨0, false, true⟩, [.setup]), (.init, ⟨1, false, true⟩, []),
        (.fini, ⟨2, false, true⟩, []), (.fini, ⟨1, false, true⟩, [.teardown]),
        (.fini, ⟨0, false, false⟩, [])] ∧
    runCalls [.init, .init, .fini, .fini, .fini]
        { LibState.start with multi_name_space := true } = ⟨0, false, false⟩ :=
  ⟨counter_and_blocks [.init, .init, .fini, .fini, .fini] true (by decide), by decide,
    by decide⟩

/-! ### C27: the chain of compensating disconnects -/

/-- When every `list` probe is answered with a reply that asks for the compensating
disconnect, a CONNECT or DISCONNECT enactment returns within no bound on the depth of the
recursion. -/
theorem enactConnection_unbounded (env : Env) (style : ContactStyle)
    (hpers : style.persistent = false)
    (hloop : ∀ (h : List Event) (c d : Contact) (rev : Bool),
      ∃ reply, env.write h c (listCommand d rev) (rpcStyle env style) = some reply ∧
        reply.carrier ≠ none ∧ needsCompensation reply rev = true) :
    ∀ (fuel : Nat) (h : List Event) (src dest : Contact) (mode : Mode) (reversed : Bool),
      mode ≠ YARP_ENACT_EXISTS →
      enactConnection env fuel h src dest style mode reversed = none := by
  intro fuel
  induction fuel with
  | zero =>
    intro h src dest mode reversed _
    rfl
  | succ n ih =>
    intro h src dest mode reversed hmode
    obtain ⟨reply, hw, hc, hn⟩ :=
      hloop (h ++ [.enactConnection src dest style mode reversed]) src dest reversed
    rw [enactConnection_answered env n h src dest style mode reversed reply hpers hmode hw,
      if_pos ⟨hc, hn⟩, ih _ dest src YARP_ENACT_DISCONNECT (!reversed) (by decide)]

theorem exEnvLoop_loops (h : List Event) (c d : Contact) (rev : Bool) :
    ∃ reply, exEnvLoop.write h c (listCommand d rev) (rpcStyle exEnvLoop exStyle) =
        some reply ∧
      reply.carrier ≠ none ∧ needsCompensation reply rev = true := by
  cases rev
  · exact ⟨exPullReply, rfl, by decide, by decide⟩
  · exact ⟨exUdpReply, rfl, by decide, by decide⟩

/-- C27 (counterexample). The peers answer every `list out` probe with a connectionless
pull connection and every `list in` probe with a connectionless push connection (the reply
depends on the command only). The request to connect `/a` to `/b` then returns within no
bound on the depth of the recursion: each compensating disconnect asks for a further one. -/
theorem compensation_never_ends :
    ¬ ∃ (fuel : Nat) (r : Int) (tr : List Event),
      enactConnection exEnvLoop fuel [] exPortA (exFromString "/b".toList) exStyle
        YARP_ENACT_CONNECT false = some (r, tr) := by
  rintro ⟨fuel, r, tr, hrun⟩
  rw [enactConnection_unbounded exEnvLoop exStyle rfl exEnvLoop_loops fuel []
    exPortA (exFromString "/b".toList) YARP_ENACT_CONNECT false (by decide)] at hrun
  exact absurd hrun (by simp)

theorem needsCompensation_not_both (r1 r2 : Reply) (rev : Bool)
    (hn : needsCompensation r1 rev = true) (hp : currentIsPush r2 = currentIsPush r1) :
    needsCompensation r2 (!rev) = false := by
  unfold needsCompensation at hn ⊢
  unfold currentIsPush at hp
  rcases h1 : r1.push with _ | _ | _ <;> rcases h2 : r2.push with _ | _ | _ <;>
    rcases h3 : r1.connectionless with _ | _ | _ <;>
    rcases h4 : r2.connectionless with _ | _ | _ <;>
    cases rev <;> simp_all

/-- A non-persistent enactment whose probe does not ask for the compensating disconnect
returns at depth 1; its calls hold one entry of `enactConnection`. -/
theorem enactConnection_returns (env : Env) (fuel : Nat) (h : List Event)
    (src dest : Contact) (style : ContactStyle) (mode : Mode) (reversed : Bool)
    (hpers : style.persistent = false)
    (hno : ∀ reply, env.write (h ++ [.enactConnection src dest style mode reversed]) src
        (listCommand dest reversed) (rpcStyle env style) = some reply →
      mode ≠ YARP_ENACT_EXISTS →
      ¬ (reply.carrier ≠ none ∧ needsCompensation reply reversed = true)) :
    ∃ r tr, enactConnection env (fuel + 1) h src dest style mode reversed = some (r, tr) ∧
      tr.filter Event.isEnact = [.enactConnection src dest style mode reversed] := by
  have f0 : ∀ l : List Event, (∀ e ∈ l, e.isEnact = false) →
      ([Event.enactConnection src dest style mode reversed,
        .write src (listCommand dest reversed) (rpcStyle env style)] ++ l).filter
          Event.isEnact = [.enactConnection src dest style mode reversed] := by
    intro l hl
    have hnil : l.filter Event.isEnact = [] := by
      rw [List.filter_eq_nil_iff]
      intro e he
      simp [hl e he]
    rw [List.filter_append, hnil]
    rfl
  cases hw : env.write (h ++ [.enactConnection src dest style mode reversed]) src
      (listCommand dest reversed) (rpcStyle env style) with
  | none =>
    refine ⟨1, [.enactConnection src dest style mode reversed,
        .write src (listCommand dest reversed) (rpcStyle env style)] ++
      (noteDud env (h ++ [.enactConnection src dest style mode reversed,
        .write src (listCommand dest reversed) (rpcStyle env style)]) src).2, ?_,
      f0 _ (fun e he => (noteDud_events env _ src e he).2)⟩
    unfold enactConnection
    simp only [hpers, hw, Bool.false_eq_true, if_false]
  | some reply =>
    by_cases hmode : mode = YARP_ENACT_EXISTS
    · subst hmode
      rw [enactConnection_exists env fuel h src dest style reversed hpers, hw]
      exact ⟨_, _, rfl, rfl⟩
    · rw [enactConnection_answered env fuel h src dest style mode reversed reply hpers hmode
        hw, if_neg (hno reply hw hmode)]
      exact ⟨_, _, rfl, f0 _ (enactAct_no_enact env _ src dest style mode)⟩

/-- C27 (amended). For every behaviour of the peers in which all replies to the `list`
probes report the same push flag `p` (a reply without the field counts as push): a
non-persistent
`enactConnection` call returns at every bound of at least 2 on the depth of the recursion;
its calls hold at most two entries of `enactConnection`, its own and the one of the
compensating disconnect, which asks for no further one. -/
theorem enactment_terminates (env : Env) (fuel : Nat) (h : List Event) (src dest : Contact)
    (style : ContactStyle) (mode : Mode) (reversed : Bool) (p : Bool)
    (hpers : style.persistent = false)
    (hsame : ∀ (h1 : List Event) (c d : Contact) (rev : Bool) (reply : Reply),
      env.write h1 c (listCommand d rev) (rpcStyle env style) = some reply →
      currentIsPush reply = p) :
    ∃ r tr, enactConnection env (fuel + 2) h src dest style mode reversed = some (r, tr) ∧
      (tr.filter Event.isEnact).length ≤ 2 := by
  by_cases hno : ∀ reply, env.write (h ++ [.enactConnection src dest style mode reversed]) src
        (listCommand dest reversed) (rpcStyle env style) = some reply →
      mode ≠ YARP_ENACT_EXISTS →
      ¬ (reply.carrier ≠ none ∧ needsCompensation reply reversed = true)
  · obtain ⟨r, tr, hrun, hf⟩ := enactConnection_returns env (fuel + 1) h src dest style mode
      reversed hpers hno
    exact ⟨r, tr, hrun, by rw [hf]; simp⟩
  · push_neg at hno
    obtain ⟨reply, hw, hmode, hc, hn⟩ := hno
    obtain ⟨rc, tc, hnest, hfc⟩ := enactConnection_returns env fuel
      (h ++ [.enactConnection src dest style mode reversed,
        .write src (listCommand dest reversed) (rpcStyle env style)])
      dest src style YARP_ENACT_DISCONNECT (!reversed) hpers
      (fun reply2 hw2 _ hboth =>
        absurd hboth.2 (by
          rw [needsCompensation_not_both reply reply2 reversed hn
            ((hsame _ _ _ _ reply2 hw2).trans (hsame _ _ _ _ reply hw).symm)]
          decide))
    rw [enactConnection_answered env (fuel + 1) h src dest style mode reversed reply hpers
      hmode hw, if_pos ⟨hc, hn⟩, hnest]
    refine ⟨_, _, rfl, ?_⟩
    have hna : (enactAct env
        (h ++ [.enactConnection src dest style mode reversed,
          .write src (listCommand dest reversed) (rpcStyle env style)] ++ tc)
        src dest style mode).2.filter Event.isEnact = [] := by
      rw [List.filter_eq_nil_iff]
      intro e he
      simp [enactAct_no_enact env _ src dest style mode e he]
    have hf2 : [Event.enactConnection src dest style mode reversed,
        .write src (listCommand dest reversed) (rpcStyle env style)].filter Event.isEnact =
        [.enactConnection src dest style mode reversed] := rfl
    rw [List.filter_append, List.filter_append, hfc, hna, hf2]
    simp

/-- In the example world where every port reports a connectionless push connection, `/b`
is asked (with `reversed = true`) to take `/a` as its source: the call returns at depth 2. -/
theorem enactment_terminates_witness :
    ∃ r tr, enactConnection exEnvUdp (0 + 2) [] exPortB (exFromString "/a".toList) exUdpStyle
        YARP_ENACT_CONNECT true = some (r, tr) ∧
      (tr.filter Event.isEnact).length ≤ 2 :=
  enactment_terminates exEnvUdp 0 [] exPortB (exFromString "/a".toList) exUdpStyle
    YARP_ENACT_CONNECT true true rfl
    (fun _ _ _ _ reply hw => by
      have hr : some exUdpReply = some reply := hw
      rw [← Option.some.inj hr]
      rfl)

/-! ### C28: the bare name of the chosen carrier -/

/-- C28 (counterexample). `/a` is connected to `/b` with the caller's style naming the
carrier `+send.portmonitor`. No endpoint string names a carrier and no constraint is
recorded, so this is the chosen carrier at the direction decision; its bare name is empty,
the registry has nothing for it and the result is 1. -/
theorem chosen_carrier_without_name :
    probeEndpoints exEnv [] "/a".toList "/b".toList exParamOnlyStyle YARP_ENACT_CONNECT =
      (some exProbedAB, exLookupsAB) ∧
    exProbedAB.srcIsTopic = false ∧ exProbedAB.destIsTopic = false ∧
    carrierConflict (selectedStyle exProbedAB exParamOnlyStyle) exProbedAB.carrierConstraint =
      false ∧
    (chosenStyle exProbedAB exParamOnlyStyle).carrier = "+send.portmonitor".toList ∧
    extractCarrierNameOnly (chosenStyle exProbedAB exParamOnlyStyle).carrier = [] ∧
    metaConnect exEnv 1 [] "/a".toList "/b".toList exParamOnlyStyle YARP_ENACT_CONNECT =
      some (1, exLookupsAB ++ [.chooseCarrier "+send.portmonitor".toList]) := by
  decide

theorem bare_ne_nil (c : Str) (hne : c ≠ []) (h1 : c.head? ≠ some '+')
    (h2 : c.head? ≠ some NUL) : extractCarrierNameOnly c ≠ [] := by
  cases c with
  | nil => exact absurd rfl hne
  | cons ch cs =>
    have hp : ch ≠ '+' := fun e => h1 (by rw [e]; rfl)
    have hn : ch ≠ NUL := fun e => h2 (by rw [e]; rfl)
    have hb : (ch == '+') = false := by simp [hp]
    unfold extractCarrierNameOnly findCarrierParamsPointer
    simp only [List.indexOf_cons, hb, cond_false]
    split
    · rename_i i hi
      split at hi
      · simp only [Option.some.injEq] at hi
        rw [← hi, List.set_cons_succ]
        simp [cstr, hn]
      · exact absurd hi (by simp)
    · simp

theorem head_append_of_ne_nil (c x : Str) (hne : c ≠ []) : (c ++ x).head? = c.head? := by
  cases c with
  | nil => exact absurd rfl hne
  | cons ch cs => rfl

/-- The carrier under a constraint starts with the constraint (lines 576-587). -/
theorem constraintCarrier_prefix (dynamicSrc dynamicDest : Contact) (c : Str)
    (style : ContactStyle) (hc : c ≠ []) :
    ∃ x, (constraintCarrier dynamicSrc dynamicDest c style).carrier = c ++ x := by
  rw [constraintCarrier_carrier dynamicSrc dynamicDest c style hc, List.append_assoc]
  exact ⟨_, rfl⟩

/-- Without a carrier so far, the carrier taken at lines 588-595 starts with the static
destination's carrier. -/
theorem destinationCarrier_prefix (dynamicSrc staticSrc staticDest : Contact)
    (style : ContactStyle) (hs : style.carrier = []) :
    ∃ x, (destinationCarrier dynamicSrc staticSrc staticDest style).carrier =
      staticDest.carrier ++ x := by
  unfold destinationCarrier
  rw [if_pos hs]
  by_cases he : extractCarrierNameOnly dynamicSrc.carrier =
      extractCarrierNameOnly staticDest.carrier
  · exact ⟨collectParams staticSrc, by simp [he]⟩
  · exact ⟨[], by simp [he]⟩

/-- C28 (amended). For every `metaConnect` call that reaches the direction decision (the
probe succeeded, no side is a topic, no conflict): the decision is taken for the chosen
carrier `(chosenStyle p style).carrier`, which is a non-empty string; and its bare name is
non-empty whenever the static destination has a carrier and none of the carrier constraint,
the carriers named on the two endpoint strings, the caller's `style.carrier` and the static
destination's carrier starts with `+` or NUL. -/
theorem chosen_carrier_named (env : Env) (fuel : Nat) (h : List Event) (src dest : Str)
    (style : ContactStyle) (mode : Mode) (p : Probed) (t : List Event)
    (hprobe : probeEndpoints env h src dest style mode = (some p, t))
    (hsrcTopic : p.srcIsTopic = false) (hdestTopic : p.destIsTopic = false)
    (hconflict : carrierConflict (selectedStyle p style) p.carrierConstraint = false) :
    metaConnect env fuel h src dest style mode =
      Option.map (fun r => (r.1, t ++ r.2))
        (directConnection env fuel (h ++ t) src dest p.staticSrc p.staticDest
          (chosenStyle p style) mode p.srcIsCompetent p.destIsCompetent p.topical) ∧
    (chosenStyle p style).carrier ≠ [] ∧
    (p.staticDest.carrier ≠ [] →
      (∀ c ∈ [p.carrierConstraint, p.dynamicSrc.carrier, p.dynamicDest.carrier, style.carrier,
          p.staticDest.carrier], c.head? ≠ some '+' ∧ c.head? ≠ some NUL) →
      extractCarrierNameOnly (chosenStyle p style).carrier ≠ []) := by
  refine ⟨metaConnect_direct env fuel h src dest style mode p t hprobe hsrcTopic hdestTopic
    hconflict, ?_, ?_⟩
  · have hsrc := static_source_has_carrier env h src dest style mode p t hprobe
    unfold chosenStyle chooseStyleCarrier sourceCarrier
    split
    · exact hsrc
    · assumption
  · intro hsd hall
    have hcons := hall p.carrierConstraint (by simp)
    have hds := hall p.dynamicSrc.carrier (by simp)
    have hdd := hall p.dynamicDest.carrier (by simp)
    have hst := hall style.carrier (by simp)
    have hdest := hall p.staticDest.carrier (by simp)
    have hsel : (selectedStyle p style).carrier.head? ≠ some '+' ∧
        (selectedStyle p style).carrier.head? ≠ some NUL := by
      rw [selectedStyle_carrier]
      split
      · exact hdd
      · split
        · exact hds
        · exact hst
    have key : (chosenStyle p style).carrier ≠ [] ∧
        (chosenStyle p style).carrier.head? ≠ some '+' ∧
        (chosenStyle p style).carrier.head? ≠ some NUL := by
      by_cases hc : p.carrierConstraint = []
      · by_cases hs : (selectedStyle p style).carrier = []
        · have h1 : constraintCarrier p.dynamicSrc p.dynamicDest p.carrierConstraint
              (selectedStyle p style) = selectedStyle p style := by
            simp [constraintCarrier, hc]
          obtain ⟨x, hx⟩ := destinationCarrier_prefix p.dynamicSrc p.staticSrc p.staticDest
            (selectedStyle p style) hs
          have hne : (destinationCarrier p.dynamicSrc p.staticSrc p.staticDest
              (selectedStyle p style)).carrier ≠ [] := by
            rw [hx]
            simp [hsd]
          have hch : (chosenStyle p style).carrier = p.staticDest.carrier ++ x := by
            unfold chosenStyle chooseStyleCarrier sourceCarrier
            rw [h1, if_neg hne, hx]
          rw [hch, head_append_of_ne_nil _ _ hsd]
          exact ⟨by simp [hsd], hdest⟩
        · rw [chosenStyle_without_constraint p style hc hs]
          exact ⟨hs, hsel⟩
      · obtain ⟨x, hx⟩ := constraintCarrier_prefix p.dynamicSrc p.dynamicDest
          p.carrierConstraint (selectedStyle p style) hc
        have hne : (constraintCarrier p.dynamicSrc p.dynamicDest p.carrierConstraint
            (selectedStyle p style)).carrier ≠ [] := by
          rw [hx]
          simp [hc]
        have hch : (chosenStyle p style).carrier = p.carrierConstraint ++ x := by
          unfold chosenStyle
          rw [chooseStyleCarrier_of_carrier _ _ _ _ _ _ hne, hx]
        rw [hch, head_append_of_ne_nil _ _ hc]
        exact ⟨by simp [hc], hcons⟩
    exact bare_ne_nil _ key.1 key.2.1 key.2.2

/-- In the example world `/a` is connected to `/b`: the chosen carrier is `tcp`, the
carrier of the static destination, and its bare name is `tcp`. -/
theorem chosen_carrier_named_witness :
    (metaConnect exEnv 2 [] "/a".toList "/b".toList exStyle YARP_ENACT_CONNECT =
        Option.map (fun r => (r.1, exLookupsAB ++ r.2))
          (directConnection exEnv 2 ([] ++ exLookupsAB) "/a".toList "/b".toList
            exProbedAB.staticSrc exProbedAB.staticDest (chosenStyle exProbedAB exStyle)
            YARP_ENACT_CONNECT exProbedAB.srcIsCompetent exProbedAB.destIsCompetent
            exProbedAB.topical) ∧
      (chosenStyle exProbedAB exStyle).carrier ≠ [] ∧
      (exProbedAB.staticDest.carrier ≠ [] →
        (∀ c ∈ [exProbedAB.carrierConstraint, exProbedAB.dynamicSrc.carrier,
            exProbedAB.dynamicDest.carrier, exStyle.carrier, exProbedAB.staticDest.carrier],
          c.head? ≠ some '+' ∧ c.head? ≠ some NUL) →
        extractCarrierNameOnly (chosenStyle exProbedAB exStyle).carrier ≠ [])) ∧
    exProbedAB.staticDest.carrier ≠ [] ∧
    (∀ c ∈ [exProbedAB.carrierConstraint, exProbedAB.dynamicSrc.carrier,
        exProbedAB.dynamicDest.carrier, exStyle.carrier, exProbedAB.staticDest.carrier],
      c.head? ≠ some '+' ∧ c.head? ≠ some NUL) ∧
    extractCarrierNameOnly (chosenStyle exProbedAB exStyle).carrier = strTcp :=
  ⟨chosen_carrier_named exEnv 2 [] "/a".toList "/b".toList exStyle YARP_ENACT_CONNECT
    exProbedAB exLookupsAB (by decide) rfl rfl (by decide), by decide, by decide, by decide⟩

/-! ### C8 and C19: the compensating call in the run of `enactConnection` -/

/-- The run of a non-persistent CONNECT or DISCONNECT enactment whose probe asks for the
compensating disconnect (lines 211-271): it returns exactly when the compensating call
returns, and then its calls are the entry, the probe, the calls of the compensating call
and the `add` or `del` dialogue. -/
theorem enactConnection_compensated (env : Env) (fuel : Nat) (h : List Event)
    (src dest : Contact) (style : ContactStyle) (mode : Mode) (reversed : Bool) (reply : Reply)
    (hpers : style.persistent = false) (hmode : mode ≠ YARP_ENACT_EXISTS)
    (hprobe : env.write (h ++ [.enactConnection src dest style mode reversed]) src
      (listCommand dest reversed) (rpcStyle env style) = some reply)
    (hdue : reply.carrier ≠ none ∧ needsCompensation reply reversed = true) :
    (∀ (rc : Int) (tc : List Event),
      enactConnection env fuel
        (h ++ [.enactConnection src dest style mode reversed,
          .write src (listCommand dest reversed) (rpcStyle env style)])
        dest src style YARP_ENACT_DISCONNECT (!reversed) = some (rc, tc) →
      enactConnection env (fuel + 1) h src dest style mode reversed =
        some ((enactAct env
            (h ++ [.enactConnection src dest style mode reversed,
              .write src (listCommand dest reversed) (rpcStyle env style)] ++ tc)
            src dest style mode).1,
          [.enactConnection src dest style mode reversed,
            .write src (listCommand dest reversed) (rpcStyle env style)] ++ tc ++
          (enactAct env
            (h ++ [.enactConnection src dest style mode reversed,
              .write src (listCommand dest reversed) (rpcStyle env style)] ++ tc)
            src dest style mode).2)) ∧
    (enactConnection env fuel
        (h ++ [.enactConnection src dest style mode reversed,
          .write src (listCommand dest reversed) (rpcStyle env style)])
        dest src style YARP_ENACT_DISCONNECT (!reversed) = none →
      enactConnection env (fuel + 1) h src dest style mode reversed = none) := by
  have hrun := enactConnection_answered env fuel h src dest style mode reversed reply hpers
    hmode hprobe
  rw [if_pos hdue] at hrun
  refine ⟨fun rc tc hnest => ?_, fun hnest => ?_⟩
  · rw [hrun, hnest]
  · rw [hrun, hnest]

theorem filter_enact_nil (l : List Event) (hl : ∀ e ∈ l, e.isEnact = false) :
    l.filter Event.isEnact = [] := by
  rw [List.filter_eq_nil_iff]
  intro e he
  simp [hl e he]

/-- C8 (amended). In `enactConnection` with a non-persistent style and mode CONNECT or
DISCONNECT, when the reply to the `list` probe reports an existing connection with
`connectionless = true` and a `push` flag equal to `reversed` (push with `reversed = true`,
or pull with `reversed = false`): the call makes the compensating call
`enactConnection(dest, src, style, DISCONNECT, !reversed)` after the probe and before the
`add` or `del` command. Whenever that call returns, with calls `tc`, the call returns and
its calls are the entry, the probe, `tc`, and the `add` or `del` dialogue, which holds the
one admin RPC carrying the command and no enactment; when it does not return, neither does
the call. When the probe of the compensating call is not delivered or its reply does not
ask for a compensation in turn, both calls return and exactly one compensating enactment
is issued: the calls hold two entries of `enactConnection`, the call's own and the
compensating one. -/
theorem compensating_disconnect (env : Env) (fuel : Nat) (h : List Event) (src dest : Contact)
    (style : ContactStyle) (mode : Mode) (reversed : Bool) (reply : Reply) (carrier : Str)
    (hpers : style.persistent = false) (hmode : mode ≠ YARP_ENACT_EXISTS)
    (hprobe : env.write (h ++ [.enactConnection src dest style mode reversed]) src
      (listCommand dest reversed) (rpcStyle env style) = some reply)
    (hcarrier : reply.carrier = some carrier)
    (hless : reply.connectionless = some true)
    (hpush : reply.push = some reversed) :
    (∀ (rc : Int) (tc : List Event),
      enactConnection env fuel
        (h ++ [.enactConnection src dest style mode reversed,
          .write src (listCommand dest reversed) (rpcStyle env style)])
        dest src style YARP_ENACT_DISCONNECT (!reversed) = some (rc, tc) →
      ∃ r c2 pre post,
        enactConnection env (fuel + 1) h src dest style mode reversed =
          some (r,
            [.enactConnection src dest style mode reversed,
              .write src (listCommand dest reversed) (rpcStyle env style)] ++ tc ++
            (pre ++ [.write c2 (actCommand env dest style mode) (rpcStyle env style)] ++
              post)) ∧
        tc.head? = some (.enactConnection dest src style YARP_ENACT_DISCONNECT (!reversed)) ∧
        (pre ++ post).filter Event.isEnact = [] ∧
        (pre ++ post).filter Event.isWrite = []) ∧
    (enactConnection env fuel
        (h ++ [.enactConnection src dest style mode reversed,
          .write src (listCommand dest reversed) (rpcStyle env style)])
        dest src style YARP_ENACT_DISCONNECT (!reversed) = none →
      enactConnection env (fuel + 1) h src dest style mode reversed = none) ∧
    ((∀ reply2 : Reply,
        env.write
          (h ++ [.enactConnection src dest style mode reversed,
            .write src (listCommand dest reversed) (rpcStyle env style)] ++
            [.enactConnection dest src style YARP_ENACT_DISCONNECT (!reversed)])
          dest (listCommand src (!reversed)) (rpcStyle env style) = some reply2 →
        ¬ (reply2.carrier ≠ none ∧ needsCompensation reply2 (!reversed) = true)) →
      ∃ r rc tc ta,
        enactConnection env (fuel + 1)
          (h ++ [.enactConnection src dest style mode reversed,
            .write src (listCommand dest reversed) (rpcStyle env style)])
          dest src style YARP_ENACT_DISCONNECT (!reversed) = some (rc, tc) ∧
        enactConnection env (fuel + 2) h src dest style mode reversed =
          some (r,
            [.enactConnection src dest style mode reversed,
              .write src (listCommand dest reversed) (rpcStyle env style)] ++ tc ++ ta) ∧
        ([Event.enactConnection src dest style mode reversed,
            .write src (listCommand dest reversed) (rpcStyle env style)] ++ tc ++
          ta).filter Event.isEnact =
          [.enactConnection src dest style mode reversed,
            .enactConnection dest src style YARP_ENACT_DISCONNECT (!reversed)]) := by
  have hneed : needsCompensation reply reversed = true := by
    unfold needsCompensation
    rw [hless, hpush]
    cases reversed <;> rfl
  have hdue : reply.carrier ≠ none ∧ needsCompensation reply reversed = true :=
    ⟨by rw [hcarrier]; simp, hneed⟩
  refine ⟨fun rc tc hnest => ?_, fun hnest => ?_, fun hlast => ?_⟩
  · obtain ⟨c2, pre, post, hshape, he, hw, _⟩ := enactAct_shape env
      (h ++ [.enactConnection src dest style mode reversed,
        .write src (listCommand dest reversed) (rpcStyle env style)] ++ tc) src dest style
      mode
    refine ⟨(enactAct env
      (h ++ [.enactConnection src dest style mode reversed,
        .write src (listCommand dest reversed) (rpcStyle env style)] ++ tc) src dest style
      mode).1, c2, pre, post, ?_, enactConnection_head _ _ _ _ _ _ _ _ _ _ hnest, he, hw⟩
    rw [← hshape]
    exact (enactConnection_compensated env fuel h src dest style mode reversed reply hpers
      hmode hprobe hdue).1 rc tc hnest
  · exact (enactConnection_compensated env fuel h src dest style mode reversed reply hpers
      hmode hprobe hdue).2 hnest
  · obtain ⟨rc, tc, hnest, hfc⟩ := enactConnection_returns env fuel
      (h ++ [.enactConnection src dest style mode reversed,
        .write src (listCommand dest reversed) (rpcStyle env style)])
      dest src style YARP_ENACT_DISCONNECT (!reversed) hpers
      (fun reply2 hw2 _ => hlast reply2 hw2)
    refine ⟨(enactAct env
      (h ++ [.enactConnection src dest style mode reversed,
        .write src (listCommand dest reversed) (rpcStyle env style)] ++ tc) src dest style
      mode).1, rc, tc, (enactAct env
      (h ++ [.enactConnection src dest style mode reversed,
        .write src (listCommand dest reversed) (rpcStyle env style)] ++ tc) src dest style
      mode).2, hnest,
      (enactConnection_compensated env (fuel + 1) h src dest style mode reversed reply hpers
        hmode hprobe hdue).1 rc tc hnest, ?_⟩
    have hf2 : [Event.enactConnection src dest style mode reversed,
        .write src (listCommand dest reversed) (rpcStyle env style)].filter Event.isEnact =
        [.enactConnection src dest style mode reversed] := rfl
    rw [List.filter_append, List.filter_append, hfc, hf2,
      filter_enact_nil _ (enactAct_no_enact env _ src dest style mode)]
    rfl

/-- In the example world every port reports a connectionless push connection over `udp`.
A CONNECT enacted from `/b` with `reversed = true` asks for the compensating call; that
call, made with `reversed = false`, asks for none. The run returns 0 and its calls are the
entry, the probe, the four calls of the compensating call, and the `add` command. -/
theorem compensating_disconnect_witness :
    ((∀ (rc : Int) (tc : List Event),
        enactConnection exEnvUdp 1
          ([] ++ [.enactConnection exPortB (exFromString "/a".toList) exUdpStyle
              YARP_ENACT_CONNECT true,
            .write exPortB (listCommand (exFromString "/a".toList) true)
              (rpcStyle exEnvUdp exUdpStyle)])
          (exFromString "/a".toList) exPortB exUdpStyle YARP_ENACT_DISCONNECT (!true) =
            some (rc, tc) →
        ∃ r c2 pre post,
          enactConnection exEnvUdp (1 + 1) [] exPortB (exFromString "/a".toList) exUdpStyle
              YARP_ENACT_CONNECT true =
            some (r,
              [.enactConnection exPortB (exFromString "/a".toList) exUdpStyle
                  YARP_ENACT_CONNECT true,
                .write exPortB (listCommand (exFromString "/a".toList) true)
                  (rpcStyle exEnvUdp exUdpStyle)] ++ tc ++
              (pre ++ [.write c2 (actCommand exEnvUdp (exFromString "/a".toList) exUdpStyle
                YARP_ENACT_CONNECT) (rpcStyle exEnvUdp exUdpStyle)] ++ post)) ∧
          tc.head? = some (.enactConnection (exFromString "/a".toList) exPortB exUdpStyle
            YARP_ENACT_DISCONNECT (!true)) ∧
          (pre ++ post).filter Event.isEnact = [] ∧
          (pre ++ post).filter Event.isWrite = []) ∧
      (enactConnection exEnvUdp 1
          ([] ++ [.enactConnection exPortB (exFromString "/a".toList) exUdpStyle
              YARP_ENACT_CONNECT true,
            .write exPortB (listCommand (exFromString "/a".toList) true)
              (rpcStyle exEnvUdp exUdpStyle)])
          (exFromString "/a".toList) exPortB exUdpStyle YARP_ENACT_DISCONNECT (!true) =
            none →
        enactConnection exEnvUdp (1 + 1) [] exPortB (exFromString "/a".toList) exUdpStyle
          YARP_ENACT_CONNECT true = none) ∧
      ((∀ reply2 : Reply,
          exEnvUdp.write
            ([] ++ [.enactConnection exPortB (exFromString "/a".toList) exUdpStyle
                YARP_ENACT_CONNECT true,
              .write exPortB (listCommand (exFromString "/a".toList) true)
                (rpcStyle exEnvUdp exUdpStyle)] ++
              [.enactConnection (exFromString "/a".toList) exPortB exUdpStyle
                YARP_ENACT_DISCONNECT (!true)])
            (exFromString "/a".toList) (listCommand exPortB (!true))
            (rpcStyle exEnvUdp exUdpStyle) = some reply2 →
          ¬ (reply2.carrier ≠ none ∧ needsCompensation reply2 (!true) = true)) →
        ∃ r rc tc ta,
          enactConnection exEnvUdp (1 + 1)
            ([] ++ [.enactConnection exPortB (exFromString "/a".toList) exUdpStyle
                YARP_ENACT_CONNECT true,
              .write exPortB (listCommand (exFromString "/a".toList) true)
                (rpcStyle exEnvUdp exUdpStyle)])
            (exFromString "/a".toList) exPortB exUdpStyle YARP_ENACT_DISCONNECT (!true) =
              some (rc, tc) ∧
          enactConnection exEnvUdp (1 + 2) [] exPortB (exFromString "/a".toList) exUdpStyle
              YARP_ENACT_CONNECT true =
            some (r,
              [.enactConnection exPortB (exFromString "/a".toList) exUdpStyle
                  YARP_ENACT_CONNECT true,
                .write exPortB (listCommand (exFromString "/a".toList) true)
                  (rpcStyle exEnvUdp exUdpStyle)] ++ tc ++ ta) ∧
          ([Event.enactConnection exPortB (exFromString "/a".toList) exUdpStyle
                YARP_ENACT_CONNECT true,
              .write exPortB (listCommand (exFromString "/a".toList) true)
                (rpcStyle exEnvUdp exUdpStyle)] ++ tc ++ ta).filter Event.isEnact =
            [.enactConnection exPortB (exFromString "/a".toList) exUdpStyle
                YARP_ENACT_CONNECT true,
              .enactConnection (exFromString "/a".toList) exPortB exUdpStyle
                YARP_ENACT_DISCONNECT (!true)])) ∧
    enactConnection exEnvUdp 1
        [.enactConnection exPortB (exFromString "/a".toList) exUdpStyle YARP_ENACT_CONNECT
            true,
          .write exPortB [.vocab "list".toList, .vocab "in".toList, .string "/a".toList]
            exRpc]
        (exFromString "/a".toList) exPortB exUdpStyle YARP_ENACT_DISCONNECT false =
      some (0,
        [.enactConnection (exFromString "/a".toList) exPortB exUdpStyle YARP_ENACT_DISCONNECT
            false,
          .write (exFromString "/a".toList)
            [.vocab "list".toList, .vocab "out".toList, .string "/b".toList] exRpc,
          .queryName "/a".toList,
          .write exPortA [.vocab "del".toList, .string "/b".toList] exRpc]) ∧
    enactConnection exEnvUdp 2 [] exPortB (exFromString "/a".toList) exUdpStyle
        YARP_ENACT_CONNECT true =
      some (0,
        [.enactConnection exPortB (exFromString "/a".toList) exUdpStyle YARP_ENACT_CONNECT
            true,
          .write exPortB [.vocab "list".toList, .vocab "in".toList, .string "/a".toList]
            exRpc,
          .enactConnection (exFromString "/a".toList) exPortB exUdpStyle
            YARP_ENACT_DISCONNECT false,
          .write (exFromString "/a".toList)
            [.vocab "list".toList, .vocab "out".toList, .string "/b".toList] exRpc,
          .queryName "/a".toList,
          .write exPortA [.vocab "del".toList, .string "/b".toList] exRpc,
          .write exPortB [.vocab "add".toList, .string "udp://a".toList] exRpc]) :=
  ⟨compensating_disconnect exEnvUdp 1 [] exPortB (exFromString "/a".toList) exUdpStyle
    YARP_ENACT_CONNECT true exUdpReply "udp".toList rfl (by decide) rfl rfl rfl rfl,
    by decide, by decide⟩

/-- C19 (amended). In `enactConnection` with a non-persistent style and mode CONNECT or
DISCONNECT, after an answered `list` probe, the compensating disconnect
`enactConnection(dest, src, style, DISCONNECT, !reversed)` is issued if and only if the
reply has a `carrier` field and reports `connectionless = true` and ((`reversed` and push)
or (not `reversed` and not push)), a missing `push` field being read as true and a missing
`connectionless` field as false. When the condition holds: whenever the compensating call
returns, the call returns and its calls are the entry, the probe, the calls of the
compensating call (which begin with its entry) and the `add` or `del` dialogue; when the
compensating call does not return, neither does the call; and when the probe of the
compensating call does not ask for a compensation in turn, the call returns with the
compensating entry among its calls. When the condition fails the call returns and its only
entry of `enactConnection` is its own. So a run that returns holds the compensating entry
if and only if the condition holds. -/
theorem compensation_iff (env : Env) (fuel : Nat) (h : List Event) (src dest : Contact)
    (style : ContactStyle) (mode : Mode) (reversed : Bool) (reply : Reply)
    (hpers : style.persistent = false) (hmode : mode ≠ YARP_ENACT_EXISTS)
    (hprobe : env.write (h ++ [.enactConnection src dest style mode reversed]) src
      (listCommand dest reversed) (rpcStyle env style) = some reply) :
    ((reply.carrier ≠ none ∧ reply.connectionless = some true ∧
        ((reversed = true ∧ reply.push ≠ some false) ∨
          (reversed = false ∧ reply.push = some false))) →
      (∀ (rc : Int) (tc : List Event),
        enactConnection env fuel
          (h ++ [.enactConnection src dest style mode reversed,
            .write src (listCommand dest reversed) (rpcStyle env style)])
          dest src style YARP_ENACT_DISCONNECT (!reversed) = some (rc, tc) →
        ∃ r ta,
          enactConnection env (fuel + 1) h src dest style mode reversed =
            some (r,
              [.enactConnection src dest style mode reversed,
                .write src (listCommand dest reversed) (rpcStyle env style)] ++ tc ++ ta) ∧
          tc.head? =
            some (.enactConnection dest src style YARP_ENACT_DISCONNECT (!reversed)) ∧
          ta.filter Event.isEnact = []) ∧
      (enactConnection env fuel
          (h ++ [.enactConnection src dest style mode reversed,
            .write src (listCommand dest reversed) (rpcStyle env style)])
          dest src style YARP_ENACT_DISCONNECT (!reversed) = none →
        enactConnection env (fuel + 1) h src dest style mode reversed = none) ∧
      ((∀ reply2 : Reply,
          env.write
            (h ++ [.enactConnection src dest style mode reversed,
              .write src (listCommand dest reversed) (rpcStyle env style)] ++
              [.enactConnection dest src style YARP_ENACT_DISCONNECT (!reversed)])
            dest (listCommand src (!reversed)) (rpcStyle env style) = some reply2 →
          ¬ (reply2.carrier ≠ none ∧ needsCompensation reply2 (!reversed) = true)) →
        ∃ r tr,
          enactConnection env (fuel + 2) h src dest style mode reversed = some (r, tr) ∧
          Event.enactConnection dest src style YARP_ENACT_DISCONNECT (!reversed) ∈ tr)) ∧
    (¬ (reply.carrier ≠ none ∧ reply.connectionless = some true ∧
          ((reversed = true ∧ reply.push ≠ some false) ∨
            (reversed = false ∧ reply.push = some false))) →
      ∃ r ta,
        enactConnection env (fuel + 1) h src dest style mode reversed =
          some (r,
            [.enactConnection src dest style mode reversed,
              .write src (listCommand dest reversed) (rpcStyle env style)] ++ ta) ∧
        ta.filter Event.isEnact = []) ∧
    (∀ r tr, enactConnection env (fuel + 1) h src dest style mode reversed = some (r, tr) →
      (Event.enactConnection dest src style YARP_ENACT_DISCONNECT (!reversed) ∈ tr ↔
        (reply.carrier ≠ none ∧ reply.connectionless = some true ∧
          ((reversed = true ∧ reply.push ≠ some false) ∨
            (reversed = false ∧ reply.push = some false))))) := by
  have hhead : ∀ (n : Nat) (rc : Int) (tc : List Event),
      enactConnection env n
        (h ++ [.enactConnection src dest style mode reversed,
          .write src (listCommand dest reversed) (rpcStyle env style)])
        dest src style YARP_ENACT_DISCONNECT (!reversed) = some (rc, tc) →
      Event.enactConnection dest src style YARP_ENACT_DISCONNECT (!reversed) ∈ tc := by
    intro n rc tc hnest
    have hh := enactConnection_head _ _ _ _ _ _ _ _ _ _ hnest
    cases tc with
    | nil => simp at hh
    | cons y ys =>
      simp only [List.head?_cons, Option.some.injEq] at hh
      rw [hh]
      exact List.mem_cons_self _ _
  by_cases hcond : reply.carrier ≠ none ∧ reply.connectionless = some true ∧
      ((reversed = true ∧ reply.push ≠ some false) ∨
        (reversed = false ∧ reply.push = some false))
  · have hdue : reply.carrier ≠ none ∧ needsCompensation reply reversed = true :=
      ⟨hcond.1, (needsCompensation_iff reply reversed).2 hcond.2⟩
    have hcomp := fun n => enactConnection_compensated env n h src dest style mode reversed
      reply hpers hmode hprobe hdue
    refine ⟨fun _ => ⟨fun rc tc hnest => ?_, (hcomp fuel).2, fun hlast => ?_⟩,
      fun hn => absurd hcond hn, fun r tr hres => ⟨fun _ => hcond, fun _ => ?_⟩⟩
    · exact ⟨_, _, (hcomp fuel).1 rc tc hnest,
        enactConnection_head _ _ _ _ _ _ _ _ _ _ hnest,
        filter_enact_nil _ (enactAct_no_enact env _ src dest style mode)⟩
    · obtain ⟨rc, tc, hnest, _⟩ := enactConnection_returns env fuel
        (h ++ [.enactConnection src dest style mode reversed,
          .write src (listCommand dest reversed) (rpcStyle env style)])
        dest src style YARP_ENACT_DISCONNECT (!reversed) hpers
        (fun reply2 hw2 _ => hlast reply2 hw2)
      refine ⟨_, _, (hcomp (fuel + 1)).1 rc tc hnest, ?_⟩
      exact List.mem_append_left _ (List.mem_append_right _ (hhead _ rc tc hnest))
    · cases hnest : enactConnection env fuel
          (h ++ [.enactConnection src dest style mode reversed,
            .write src (listCommand dest reversed) (rpcStyle env style)])
          dest src style YARP_ENACT_DISCONNECT (!reversed) with
      | none =>
        rw [(hcomp fuel).2 hnest] at hres
        exact absurd hres (by simp)
      | some x =>
        obtain ⟨rc, tc⟩ := x
        rw [(hcomp fuel).1 rc tc hnest] at hres
        simp only [Option.some.injEq, Prod.mk.injEq] at hres
        rw [← hres.2]
        exact List.mem_append_left _ (List.mem_append_right _ (hhead _ rc tc hnest))
  · have hrun := enactConnection_answered env fuel h src dest style mode reversed reply hpers
      hmode hprobe
    simp only [needsCompensation_iff] at hrun
    rw [if_neg hcond] at hrun
    refine ⟨fun hc => absurd hc hcond, fun _ => ⟨_, _, hrun,
      filter_enact_nil _ (enactAct_no_enact env _ src dest style mode)⟩,
      fun r tr hres => ⟨fun hmem => ?_, fun hc => absurd hc hcond⟩⟩
    exfalso
    rw [hrun] at hres
    simp only [Option.some.injEq, Prod.mk.injEq] at hres
    rw [← hres.2] at hmem
    simp only [List.cons_append, List.nil_append, List.mem_cons] at hmem
    rcases hmem with hm | hm | hm
    · simp only [Event.enactConnection.injEq] at hm
      have := hm.2.2.2.2
      cases reversed <;> simp at this
    · cases hm
    · have := enactAct_no_enact _ _ _ _ _ _ _ hm
      simp [Event.isEnact] at this

/-- In the example world every port reports a connectionless push connection over `udp`.
For a CONNECT enacted from `/b` with `reversed = true` the condition holds: the compensating
call is made, returns, and its entry is among the calls of the run, which returns 0. -/
theorem compensation_iff_witness :
    (((exUdpReply.carrier ≠ none ∧ exUdpReply.connectionless = some true ∧
          ((true = true ∧ exUdpReply.push ≠ some false) ∨
            (true = false ∧ exUdpReply.push = some false))) →
        (∀ (rc : Int) (tc : List Event),
          enactConnection exEnvUdp 1
            ([] ++ [.enactConnection exPortB (exFromString "/a".toList) exUdpStyle
                YARP_ENACT_CONNECT true,
              .write exPortB (listCommand (exFromString "/a".toList) true)
                (rpcStyle exEnvUdp exUdpStyle)])
            (exFromString "/a".toList) exPortB exUdpStyle YARP_ENACT_DISCONNECT (!true) =
              some (rc, tc) →
          ∃ r ta,
            enactConnection exEnvUdp (1 + 1) [] exPortB (exFromString "/a".toList) exUdpStyle
                YARP_ENACT_CONNECT true =
              some (r,
                [.enactConnection exPortB (exFromString "/a".toList) exUdpStyle
                    YARP_ENACT_CONNECT true,
                  .write exPortB (listCommand (exFromString "/a".toList) true)
                    (rpcStyle exEnvUdp exUdpStyle)] ++ tc ++ ta) ∧
            tc.head? =
              some (.enactConnection (exFromString "/a".toList) exPortB exUdpStyle
                YARP_ENACT_DISCONNECT (!true)) ∧
            ta.filter Event.isEnact = []) ∧
        (enactConnection exEnvUdp 1
            ([] ++ [.enactConnection exPortB (exFromString "/a".toList) exUdpStyle
                YARP_ENACT_CONNECT true,
              .write exPortB (listCommand (exFromString "/a".toList) true)
                (rpcStyle exEnvUdp exUdpStyle)])
            (exFromString "/a".toList) exPortB exUdpStyle YARP_ENACT_DISCONNECT (!true) =
              none →
          enactConnection exEnvUdp (1 + 1) [] exPortB (exFromString "/a".toList) exUdpStyle
            YARP_ENACT_CONNECT true = none) ∧
        ((∀ reply2 : Reply,
            exEnvUdp.write
              ([] ++ [.enactConnection exPortB (exFromString "/a".toList) exUdpStyle
                  YARP_ENACT_CONNECT true,
                .write exPortB (listCommand (exFromString "/a".toList) true)
                  (rpcStyle exEnvUdp exUdpStyle)] ++
                [.enactConnection (exFromString "/a".toList) exPortB exUdpStyle
                  YARP_ENACT_DISCONNECT (!true)])
              (exFromString "/a".toList) (listCommand exPortB (!true))
              (rpcStyle exEnvUdp exUdpStyle) = some reply2 →
            ¬ (reply2.carrier ≠ none ∧ needsCompensation reply2 (!true) = true)) →
          ∃ r tr,
            enactConnection exEnvUdp (1 + 2) [] exPortB (exFromString "/a".toList) exUdpStyle
              YARP_ENACT_CONNECT true = some (r, tr) ∧
            Event.enactConnection (exFromString "/a".toList) exPortB exUdpStyle
              YARP_ENACT_DISCONNECT (!true) ∈ tr)) ∧
      (¬ (exUdpReply.carrier ≠ none ∧ exUdpReply.connectionless = some true ∧
            ((true = true ∧ exUdpReply.push ≠ some false) ∨
              (true = false ∧ exUdpReply.push = some false))) →
        ∃ r ta,
          enactConnection exEnvUdp (1 + 1) [] exPortB (exFromString "/a".toList) exUdpStyle
              YARP_ENACT_CONNECT true =
            some (r,
              [.enactConnection exPortB (exFromString "/a".toList) exUdpStyle
                  YARP_ENACT_CONNECT true,
                .write exPortB (listCommand (exFromString "/a".toList) true)
                  (rpcStyle exEnvUdp exUdpStyle)] ++ ta) ∧
          ta.filter Event.isEnact = []) ∧
      (∀ r tr,
        enactConnection exEnvUdp (1 + 1) [] exPortB (exFromString "/a".toList) exUdpStyle
          YARP_ENACT_CONNECT true = some (r, tr) →
        (Event.enactConnection (exFromString "/a".toList) exPortB exUdpStyle
            YARP_ENACT_DISCONNECT (!true) ∈ tr ↔
          (exUdpReply.carrier ≠ none ∧ exUdpReply.connectionless = some true ∧
            ((true = true ∧ exUdpReply.push ≠ some false) ∨
              (true = false ∧ exUdpReply.push = some false)))))) ∧
    (exUdpReply.carrier ≠ none ∧ exUdpReply.connectionless = some true ∧
      ((true = true ∧ exUdpReply.push ≠ some false) ∨
        (true = false ∧ exUdpReply.push = some false))) ∧
    enactConnection exEnvUdp 2 [] exPortB (exFromString "/a".toList) exUdpStyle
        YARP_ENACT_CONNECT true =
      some (0,
        [.enactConnection exPortB (exFromString "/a".toList) exUdpStyle YARP_ENACT_CONNECT
            true,
          .write exPortB [.vocab "list".toList, .vocab "in".toList, .string "/a".toList]
            exRpc,
          .enactConnection (exFromString "/a".toList) exPortB exUdpStyle
            YARP_ENACT_DISCONNECT false,
          .write (exFromString "/a".toList)
            [.vocab "list".toList, .vocab "out".toList, .string "/b".toList] exRpc,
          .queryName "/a".toList,
          .write exPortA [.vocab "del".toList, .string "/b".toList] exRpc,
          .write exPortB [.vocab "add".toList, .string "udp://a".toList] exRpc]) :=
  ⟨compensation_iff exEnvUdp 1 [] exPortB (exFromString "/a".toList) exUdpStyle
    YARP_ENACT_CONNECT true exUdpReply rfl (by decide) rfl, by decide, by decide⟩

end Yarp
